import Mathlib

/-!
# SASL negotiation and framed transport (package `sasl`)

A shallow embedding of `src/sasl`: the mechanism interface with the PLAIN and
DIGEST-MD5 mechanisms, the client orchestrator, the negotiation driver
(`TSaslTransport.Open`) and the framed read/write path
(`TSaslTransport.Read`, `Write`, `Flush`).

Conventions of the embedding.

* A Go `[]byte` and a Go `string` are both a list of bytes (`Bytes`).  Where the
  source tests a slice against `nil` the value is an `Option Bytes`, `none`
  being the nil slice.
* A Go `error` result is an `Option Error`, `none` being `nil`.
* Pointer receivers become explicit state passing: a method returns its results
  together with the updated receiver.
* `uint32` values are natural numbers reduced modulo `2 ^ 32` where the source
  converts; `int` values are integers.
* The underlying `thrift.TTransport` is an external interface.  It is modelled
  by `TTransport`: the bytes the peer will deliver, a script saying which of the
  coming `Write` and `Flush` calls fail, and a log of every call made on it.
-/

namespace Sasl

/-! ## Bytes, strings and `encoding/binary` -/

abbrev Bytes := List UInt8

/-- The bytes of a Go string literal made of ASCII characters. -/
def ascii (s : String) : Bytes := s.toList.map (fun c => UInt8.ofNat c.toNat)

/-- Conversion `uint32(n)` of a non-negative length. -/
def uint32 (n : Nat) : Nat := n % 2 ^ 32

/-- `binary.BigEndian.PutUint32`: the four bytes it stores for the value `v`. -/
def putUint32 (v : Nat) : Bytes :=
  [UInt8.ofNat (v / 2 ^ 24 % 256), UInt8.ofNat (v / 2 ^ 16 % 256),
   UInt8.ofNat (v / 2 ^ 8 % 256), UInt8.ofNat (v % 256)]

/-- `binary.BigEndian.Uint32` on the first four bytes of a slice (the source
only applies it to slices of length four). -/
def beUint32 (b : Bytes) : Nat :=
  (b.getD 0 0).toNat * 2 ^ 24 + (b.getD 1 0).toNat * 2 ^ 16 +
    (b.getD 2 0).toNat * 2 ^ 8 + (b.getD 3 0).toNat

/-! ## Status codes and errors -/

def START : Nat := 1
def OK : Nat := 2
def BAD : Nat := 3
def ERROR : Nat := 4
def COMPLETE : Nat := 5

/-- Type identifiers of `thrift.TTransportException`. -/
def UNKNOWN_TRANSPORT_EXCEPTION : Nat := 0
def NOT_OPEN : Nat := 1
def END_OF_FILE : Nat := 4

/-- The error values that occur in the package. -/
inductive Error where
  /-- `io.EOF`. -/
  | eof
  /-- `io.ErrUnexpectedEOF`. -/
  | unexpectedEOF
  /-- A failure reported by a `Write`, `Flush` or `Open` of the underlying transport. -/
  | io
  /-- An error made with `fmt.Errorf` by a mechanism. -/
  | mech (msg : String)
  /-- A `thrift.TTransportException` with its type identifier. -/
  | transport (typeId : Nat) (msg : String)
  /-- The exception of `Open` for a bad negotiation status, with status and payload. -/
  | badStatus (status : Int) (challenge : Option Bytes)
  deriving DecidableEq, Repr

/-- `thrift.NewTTransportExceptionFromError`: `nil` stays `nil`, a transport
exception is returned as it is, `io.EOF` becomes an `END_OF_FILE` exception and
any other error an `UNKNOWN_TRANSPORT_EXCEPTION`. -/
def newTTransportExceptionFromError : Option Error → Option Error
  | none => none
  | some (.transport k m) => some (.transport k m)
  | some (.badStatus s c) => some (.badStatus s c)
  | some .eof => some (.transport END_OF_FILE "EOF")
  | some .unexpectedEOF => some (.transport UNKNOWN_TRANSPORT_EXCEPTION "unexpected EOF")
  | some .io => some (.transport UNKNOWN_TRANSPORT_EXCEPTION "i/o failure")
  | some (.mech m) => some (.transport UNKNOWN_TRANSPORT_EXCEPTION m)

/-- How a call of a Go function ends: it returns, it aborts the process (a
run-time panic or `log.Fatal`), or the bounded model of a loop ran out of
iterations. -/
inductive Go (α : Type) where
  | ret (a : α)
  | crash
  | timeout
  deriving DecidableEq, Repr

/-! ## The underlying transport -/

/-- One call made on the underlying transport. -/
inductive TEvent where
  | opened (ok : Bool)
  | wrote (p : Bytes)
  | writeFailed (p : Bytes)
  | flushed
  | flushFailed
  | readFull (want : Nat) (got : Bytes)
  | readFailed (want : Nat) (got : Bytes)
  | closed
  deriving DecidableEq, Repr

/-- The underlying `thrift.TTransport`. -/
structure TTransport where
  /-- Result of `IsOpen`. -/
  isOpen : Bool := true
  /-- Whether a call of `Open` fails. -/
  openFails : Bool := false
  /-- The bytes the peer delivers to the coming reads, in order. -/
  input : Bytes := []
  /-- Outcome of the coming `Write` calls, `true` for a failure; calls beyond
  the script succeed. -/
  writeFaults : List Bool := []
  /-- Outcome of the coming `Flush` calls, as for `writeFaults`. -/
  flushFaults : List Bool := []
  /-- Every call made so far, oldest first. -/
  log : List TEvent := []
  deriving DecidableEq, Repr

namespace TTransport

/-- `tp.Open()`. -/
def Open (tp : TTransport) : Option Error × TTransport :=
  if tp.openFails then (some .io, { tp with log := tp.log ++ [.opened false] })
  else (none, { tp with isOpen := true, log := tp.log ++ [.opened true] })

/-- `tp.Write(p)`: a failing write transmits nothing. -/
def Write (tp : TTransport) (p : Bytes) : Option Error × TTransport :=
  match tp.writeFaults with
  | true :: rest =>
    (some .io, { tp with writeFaults := rest, log := tp.log ++ [.writeFailed p] })
  | false :: rest => (none, { tp with writeFaults := rest, log := tp.log ++ [.wrote p] })
  | [] => (none, { tp with log := tp.log ++ [.wrote p] })

/-- `tp.Flush(ctx)`. -/
def Flush (tp : TTransport) : Option Error × TTransport :=
  match tp.flushFaults with
  | true :: rest => (some .io, { tp with flushFaults := rest, log := tp.log ++ [.flushFailed] })
  | false :: rest => (none, { tp with flushFaults := rest, log := tp.log ++ [.flushed] })
  | [] => (none, { tp with log := tp.log ++ [.flushed] })

/-- `io.ReadFull(tp, buf)` for a buffer of `n` bytes: the next `n` bytes of the
input, or an error after taking what is left when fewer than `n` remain
(`io.EOF` when nothing was left, `io.ErrUnexpectedEOF` otherwise). -/
def ReadFull (tp : TTransport) (n : Nat) : Bytes × Option Error × TTransport :=
  if n ≤ tp.input.length then
    (tp.input.take n, none,
      { tp with input := tp.input.drop n, log := tp.log ++ [.readFull n (tp.input.take n)] })
  else
    (tp.input, some (if tp.input.isEmpty then .eof else .unexpectedEOF),
      { tp with input := [], log := tp.log ++ [.readFailed n tp.input] })

/-- `tp.Close()`. -/
def Close (tp : TTransport) : Option Error × TTransport :=
  (none, { tp with isOpen := false, log := tp.log ++ [.closed] })

end TTransport

/-- The bytes that the successful writes of a log carried, in order. -/
def written : List TEvent → Bytes
  | [] => []
  | .wrote p :: es => p ++ written es
  | _ :: es => written es

/-- Whether an event is a read of the underlying transport. -/
def TEvent.isRead : TEvent → Bool
  | .readFull _ _ => true
  | .readFailed _ _ => true
  | _ => false

/-! ## Mechanisms (`sasl.go`) -/

def AUTH : Bytes := ascii "auth"
def AUTH_INT : Bytes := ascii "auth-int"
def AUTH_CONF : Bytes := ascii "auth-conf"

structure MechanismConfig where
  name : Bytes
  score : Int
  complete : Bool
  hasInitialresponse : Bool
  allowsAnonymous : Bool
  usesPlaintext : Bool
  activeSafe : Bool
  disctionarySafe : Bool
  qop : Option Bytes
  AuthorizationID : Bytes
  deriving DecidableEq, Repr

def newDefaultConfig (name : Bytes) : MechanismConfig :=
  { name := name
    score := 0
    complete := false
    hasInitialresponse := false
    allowsAnonymous := true
    usesPlaintext := true
    activeSafe := false
    disctionarySafe := false
    qop := none
    AuthorizationID := [] }

/-- What `start` and `step` return: the token (`none` for a nil slice) and the error. -/
structure StepResult where
  token : Option Bytes
  err : Option Error
  deriving DecidableEq, Repr

/-- What `encode` and `decode` return. -/
structure CodecResult where
  out : Bytes
  err : Option Error
  deriving DecidableEq, Repr

/-- The interface `Mechanism`, for an implementation whose receiver has type `σ`. -/
structure Mechanism (σ : Type) where
  start : σ → Go (StepResult × σ)
  step : σ → Option Bytes → Go (StepResult × σ)
  encode : σ → Bytes → CodecResult × σ
  decode : σ → Bytes → CodecResult × σ
  dispose : σ → σ
  getConfig : σ → MechanismConfig

/-! ## PLAIN (`plainapi.go`) -/

structure PlainMechanism where
  mechanismConfig : MechanismConfig
  identity : Bytes
  username : Bytes
  password : Bytes
  deriving DecidableEq, Repr

def NewPlainMechanism (username password : Bytes) : PlainMechanism :=
  { mechanismConfig := newDefaultConfig (ascii "PLAIN")
    identity := []
    username := username
    password := password }

namespace PlainMechanism

def step (p : PlainMechanism) (_challenge : Option Bytes) : StepResult × PlainMechanism :=
  let p1 := { p with mechanismConfig := { p.mechanismConfig with complete := true } }
  let authId := p1.mechanismConfig.AuthorizationID
  let authId := if authId ≠ [] then p1.identity else authId
  let NULL : Bytes := [0]
  (⟨some (authId ++ NULL ++ p1.username ++ NULL ++ p1.password), none⟩, p1)

def start (p : PlainMechanism) : StepResult × PlainMechanism :=
  p.step none

def encode (p : PlainMechanism) (outgoing : Bytes) : CodecResult × PlainMechanism :=
  (⟨outgoing, none⟩, p)

def decode (p : PlainMechanism) (incoming : Bytes) : CodecResult × PlainMechanism :=
  (⟨incoming, none⟩, p)

def dispose (p : PlainMechanism) : PlainMechanism :=
  { p with password := [] }

def getConfig (p : PlainMechanism) : MechanismConfig :=
  p.mechanismConfig

end PlainMechanism

/-- The method set of `*PlainMechanism` as a `Mechanism`. -/
def plainMechanism : Mechanism PlainMechanism :=
  { start := fun p => .ret p.start
    step := fun p c => .ret (p.step c)
    encode := PlainMechanism.encode
    decode := PlainMechanism.decode
    dispose := PlainMechanism.dispose
    getConfig := PlainMechanism.getConfig }

/-! ## DIGEST-MD5 (`digestapi.go`) -/

/-- The standard-library functions the mechanism calls and that are kept
abstract: `md5.Sum` (its sixteen raw bytes), `strconv.Quote` on a string that
has a byte outside ASCII (where Go consults its Unicode tables), and the
results of the successive `rand.Intn(len(randSeqChars))` calls of one
`randSeq`. -/
structure Env where
  md5 : Bytes → Bytes
  quoteNonASCII : Bytes → Bytes
  randIntn : Nat → Nat

/-- A Go `map[string]string`: the pairs in the order of their first insertion,
every key occurring once. -/
abbrev StrMap := List (Bytes × Bytes)

namespace StrMap

/-- The index expression `c[key]`: the empty string for a missing key. -/
def get (c : StrMap) (key : Bytes) : Bytes := (c.lookup key).getD []

/-- The test `_, ok := c[key]`. -/
def has (c : StrMap) (key : Bytes) : Bool := (c.lookup key).isSome

/-- The assignment `c[key] = v`. -/
def set (c : StrMap) (key v : Bytes) : StrMap :=
  if c.has key then c.map (fun e => if e.1 == key then (key, v) else e) else c ++ [(key, v)]

end StrMap

/-- `strings.Index(s, sep)` for a separator of one byte: `none` stands for `-1`. -/
def index : Bytes → UInt8 → Option Nat
  | [], _ => none
  | x :: xs, sep => if x = sep then some 0 else (index xs sep).map (· + 1)

/-- The lower-case hexadecimal digit of a value below sixteen. -/
def hexDigit (d : Nat) : UInt8 :=
  if d < 10 then UInt8.ofNat (48 + d) else UInt8.ofNat (87 + d)

/-- `hex.EncodeToString`. -/
def hexEncode (b : Bytes) : Bytes :=
  b.flatMap (fun x => [hexDigit (x.toNat / 16), hexDigit (x.toNat % 16)])

/-- `strings.ToLower` on a string of ASCII bytes, the only kind the mechanism
passes to it (the output of `hex.EncodeToString`). -/
def toLower (s : Bytes) : Bytes :=
  s.map (fun x => if 65 ≤ x.toNat ∧ x.toNat ≤ 90 then UInt8.ofNat (x.toNat + 32) else x)

/-- `strings.Join`. -/
def join : List Bytes → Bytes → Bytes
  | [], _ => []
  | [a], _ => a
  | a :: rest, sep => a ++ sep ++ join rest sep

/-- The hexadecimal digits of a natural number below `2 ^ 64`, without leading zeros. -/
def hexNat (n : Nat) : Bytes :=
  let ds := ((List.range 16).reverse.map (fun i => hexDigit (n / 16 ^ i % 16))).dropWhile
    (fun d => d == 48)
  if ds.isEmpty then [48] else ds

/-- Left padding with the digit zero up to a width. -/
def padZero (width : Nat) (s : Bytes) : Bytes :=
  List.replicate (width - s.length) 48 ++ s

/-- `fmt.Sprintf("%08x", n)` for an `int`: the width of eight includes the sign. -/
def sprintf08x (n : Int) : Bytes :=
  if 0 ≤ n then padZero 8 (hexNat n.toNat) else 45 :: padZero 7 (hexNat (-n).toNat)

/-- Wrap-around of `int` arithmetic (64 bits). -/
def wrapInt64 (n : Int) : Int := (n + 2 ^ 63) % 2 ^ 64 - 2 ^ 63

/-- What `strconv.Quote` writes for one ASCII byte. -/
def quoteByte (b : UInt8) : Bytes :=
  if b = 34 ∨ b = 92 then [92, b]
  else if 32 ≤ b.toNat ∧ b.toNat < 127 then [b]
  else if b = 7 then ascii "\\a"
  else if b = 8 then ascii "\\b"
  else if b = 12 then ascii "\\f"
  else if b = 10 then ascii "\\n"
  else if b = 13 then ascii "\\r"
  else if b = 9 then ascii "\\t"
  else if b = 11 then ascii "\\v"
  else ascii "\\x" ++ [hexDigit (b.toNat / 16), hexDigit (b.toNat % 16)]

/-- `strconv.Quote`. -/
def strconvQuote (env : Env) (s : Bytes) : Bytes :=
  if s.all (fun b => b.toNat < 128) then [34] ++ s.flatMap quoteByte ++ [34]
  else env.quoteNonASCII s

def randSeqChars : Bytes :=
  ascii "abcdefghijklmnopqrstuvwxyzABCDEFGHIJKLMNOPQRSTUVWXYZ0123456789"

def randSeq (env : Env) (n : Nat) : Bytes :=
  (List.range n).map (fun i => randSeqChars.getD (env.randIntn i % randSeqChars.length) 0)

/-- The loop of `parseChallenge`, for at most `fuel` iterations.  Slicing out
of range is a run-time panic: `s[:eq]` when there is no `=`, and `s[0:1]` when
nothing follows the `=`. -/
def parseLoop : Nat → Bytes → StrMap → Go StrMap
  | 0, s, c => if s.length > 0 then .timeout else .ret c
  | fuel + 1, s, c =>
    if s.length > 0 then
      match index s 61 with
      | none => .crash
      | some eq =>
        let key := s.take eq
        let s := s.drop (eq + 1)
        if s.length < 1 then .crash
        else
          let isQuote := s.take 1 == [34]
          let search : UInt8 := if isQuote then 34 else 44
          let s := if isQuote then s.drop 1 else s
          let co := (index s search).getD s.length
          let v := s.take co
          let s :=
            if isQuote && decide (s.length > v.length + 1) then s.drop (co + 2)
            else if co < s.length then s.drop (co + 1)
            else []
          parseLoop fuel s (c.set key v)
    else .ret c

/-- `parseChallenge`.  Every iteration removes at least the `=`, so the loop
makes at most `len(challenge)` iterations. -/
def parseChallenge (challenge : Bytes) : Go StrMap :=
  parseLoop challenge.length challenge []

structure DigestMD5Mechanism where
  mechanismConfig : MechanismConfig
  service : Bytes
  username : Bytes
  password : Bytes
  host : Bytes
  nonceCount : Int
  cnonce : Bytes
  nonce : Bytes
  keyHash : Bytes
  auth : Bytes
  deriving DecidableEq, Repr

def NewDigestMD5Mechanism (service username password : Bytes) : DigestMD5Mechanism :=
  { mechanismConfig := newDefaultConfig (ascii "DIGEST-MD5")
    service := service
    username := username
    password := password
    host := []
    nonceCount := 0
    cnonce := []
    nonce := []
    keyHash := []
    auth := [] }

namespace DigestMD5Mechanism

def getHash (env : Env) (m : DigestMD5Mechanism) (_digestUri a2String : Bytes)
    (challengeMap : StrMap) : Bytes × DigestMD5Mechanism :=
  let m1 :=
    if m.keyHash = [] then
      let x := m.username ++ ascii ":" ++ challengeMap.get (ascii "realm") ++ ascii ":" ++ m.password
      { m with keyHash := env.md5 x }
    else m
  let a1String := [m1.keyHash, m1.nonce, m1.cnonce]
  let a1String :=
    if m1.mechanismConfig.AuthorizationID.length ≠ 0 then
      a1String ++ [m1.mechanismConfig.AuthorizationID]
    else a1String
  let h1 := env.md5 (join a1String (ascii ":"))
  let a1 := hexEncode h1
  let h2 := env.md5 a2String
  let a2 := hexEncode h2
  let nc := sprintf08x m1.nonceCount
  let r := toLower a1 ++ ascii ":" ++ m1.nonce ++ ascii ":" ++ nc ++ ascii ":" ++ m1.cnonce ++
    ascii ":" ++ m1.auth ++ ascii ":" ++ toLower a2
  let hr := env.md5 r
  (toLower (hexEncode hr), m1)

def authenticate (env : Env) (m : DigestMD5Mechanism) (digestUri : Bytes)
    (challengeMap : StrMap) : Option Error × DigestMD5Mechanism :=
  let a2String := ascii ":" ++ digestUri
  let a2String :=
    if m.auth ≠ ascii "auth" then a2String ++ ascii ":00000000000000000000000000000000"
    else a2String
  let (hash, m1) := m.getHash env digestUri a2String challengeMap
  if hash ≠ challengeMap.get (ascii "rspauth") then (some (.mech "authentication error"), m1)
  else (none, m1)

def step (env : Env) (m : DigestMD5Mechanism) (challenge : Option Bytes) :
    Go (StepResult × DigestMD5Mechanism) :=
  match challenge with
  | none => .ret (⟨none, none⟩, m)
  | some challenge =>
    match parseChallenge challenge with
    | .crash => .crash
    | .timeout => .timeout
    | .ret c =>
      let digestUri := m.service ++ ascii "/" ++ m.host
      if c.has (ascii "rspauth") then
        let m1 := { m with mechanismConfig := { m.mechanismConfig with complete := true } }
        let (err, m2) := m1.authenticate env digestUri c
        .ret (⟨none, err⟩, m2)
      else
        let m1 : DigestMD5Mechanism :=
          { m with nonce := c.get (ascii "nonce"), auth := c.get (ascii "qop") }
        let m2 : DigestMD5Mechanism :=
          if m1.nonceCount = (0 : Int) then { m1 with cnonce := randSeq env 14 } else m1
        let m3 : DigestMD5Mechanism := { m2 with nonceCount := wrapInt64 (m2.nonceCount + 1) }
        let a2String := ascii "AUTHENTICATE:" ++ digestUri
        let maxBuf : Bytes := []
        let (a2String, maxBuf) :=
          if m3.auth ≠ AUTH then
            (a2String ++ ascii ":00000000000000000000000000000000", ascii ",maxbuf=16777215")
          else (a2String, maxBuf)
        let nc := sprintf08x m3.nonceCount
        let (resHash, m4) := m3.getHash env digestUri a2String c
        let res := ascii "qop=" ++ m4.auth ++ ascii ",realm=" ++
          strconvQuote env (c.get (ascii "realm")) ++ ascii ",username=" ++
          strconvQuote env m4.username ++ ascii ",nonce=" ++ strconvQuote env m4.nonce ++
          ascii ",cnonce=" ++ strconvQuote env m4.cnonce ++ ascii ",nc=" ++ nc ++
          ascii ",digest-uri=" ++ strconvQuote env digestUri ++ ascii ",response=" ++
          resHash ++ maxBuf
        .ret (⟨some res, none⟩, m4)

def start (env : Env) (m : DigestMD5Mechanism) : Go (StepResult × DigestMD5Mechanism) :=
  m.step env none

def encode (m : DigestMD5Mechanism) (outgoing : Bytes) : CodecResult × DigestMD5Mechanism :=
  (⟨outgoing, none⟩, m)

def decode (m : DigestMD5Mechanism) (incoming : Bytes) : CodecResult × DigestMD5Mechanism :=
  (⟨incoming, none⟩, m)

def dispose (m : DigestMD5Mechanism) : DigestMD5Mechanism :=
  { m with password := [] }

def getConfig (m : DigestMD5Mechanism) : MechanismConfig :=
  m.mechanismConfig

end DigestMD5Mechanism

/-- The method set of `*DigestMD5Mechanism` as a `Mechanism`. -/
def digestMD5Mechanism (env : Env) : Mechanism DigestMD5Mechanism :=
  { start := DigestMD5Mechanism.start env
    step := DigestMD5Mechanism.step env
    encode := DigestMD5Mechanism.encode
    decode := DigestMD5Mechanism.decode
    dispose := DigestMD5Mechanism.dispose
    getConfig := DigestMD5Mechanism.getConfig }

/-- The response of DIGEST-MD5 as the specification words it: the hash chain
`hex(MD5(hex(MD5(MD5raw(u:r:p) : n : c)) : n : 00000001 : c : auth :
hex(MD5("AUTHENTICATE:" s/h))))`, `hex` being lower-case hexadecimal. -/
def referenceResponse (md5 : Bytes → Bytes) (u r p n c s h : Bytes) : Bytes :=
  let a1 := md5 (md5 (u ++ ascii ":" ++ r ++ ascii ":" ++ p) ++ ascii ":" ++ n ++ ascii ":" ++ c)
  let a2 := md5 (ascii "AUTHENTICATE:" ++ (s ++ ascii "/" ++ h))
  hexEncode (md5 (hexEncode a1 ++ ascii ":" ++ n ++ ascii ":00000001:" ++ c ++ ascii ":auth:" ++
    hexEncode a2))

/-- A stand-in for the abstract library functions, for evaluating the
mechanism on concrete inputs. -/
def exampleEnv : Env :=
  { md5 := fun b =>
      (List.range 16).map
        (fun i => UInt8.ofNat (b.foldl (fun a x => (a * 31 + x.toNat + i) % 251) 7))
    quoteNonASCII := fun s => s
    randIntn := fun i => 3 * i + 1 }

/-- A byte that `strconv.Quote` copies unchanged: printable ASCII other than
the double quote and the backslash. -/
def plainByte (b : UInt8) : Bool :=
  decide (32 ≤ b.toNat) && decide (b.toNat < 127) && (b != 34) && (b != 92)

/-! ## The client orchestrator (`client.go`) -/

structure Client (σ : Type) where
  host : Bytes
  AuthorizationID : Bytes
  mechanism : σ
  deriving DecidableEq, Repr

namespace Client

variable {σ : Type}

def Start (M : Mechanism σ) (c : Client σ) : Go (StepResult × Client σ) :=
  match M.start c.mechanism with
  | .ret (r, m) => .ret (r, { c with mechanism := m })
  | .crash => .crash
  | .timeout => .timeout

def Step (M : Mechanism σ) (c : Client σ) (challenge : Option Bytes) :
    Go (StepResult × Client σ) :=
  match M.step c.mechanism challenge with
  | .ret (r, m) => .ret (r, { c with mechanism := m })
  | .crash => .crash
  | .timeout => .timeout

def GetConfig (M : Mechanism σ) (c : Client σ) : MechanismConfig :=
  M.getConfig c.mechanism

def Complete (M : Mechanism σ) (c : Client σ) : Bool :=
  (GetConfig M c).complete

def Encode (M : Mechanism σ) (c : Client σ) (outgoing : Bytes) : CodecResult × Client σ :=
  let (r, m) := M.encode c.mechanism outgoing
  (r, { c with mechanism := m })

def Decode (M : Mechanism σ) (c : Client σ) (incoming : Bytes) : CodecResult × Client σ :=
  let (r, m) := M.decode c.mechanism incoming
  (r, { c with mechanism := m })

def Dispose (M : Mechanism σ) (c : Client σ) : Client σ :=
  { c with mechanism := M.dispose c.mechanism }

/-- `NewSaslClient` for a `*DigestMD5Mechanism`, whose `host` the type switch sets. -/
def NewSaslClientDigest (host : Bytes) (mechanism : DigestMD5Mechanism) :
    Client DigestMD5Mechanism :=
  { host := host, AuthorizationID := [], mechanism := { mechanism with host := host } }

/-- `NewSaslClient` for a `*PlainMechanism`, which the type switch leaves as it is. -/
def NewSaslClientPlain (host : Bytes) (mechanism : PlainMechanism) : Client PlainMechanism :=
  { host := host, AuthorizationID := [], mechanism := mechanism }

end Client

/-! ## The transport (`sasl_transport.go`) -/

/-- The struct `TSaslTransport`.  The scratch array `buffer` and the context
`OpeningContext` carry no state of their own and are left out. -/
structure TSaslTransport (σ : Type) where
  saslClient : Client σ
  tp : TTransport
  mechanism : Bytes
  writeBuf : Bytes := []
  readBuf : Bytes := []
  rawFrameSize : Nat := 0
  frameSize : Int := 0
  maxLength : Nat
  principal : Bytes := []
  deriving DecidableEq, Repr

/-- The case `"PLAIN"` of `NewTSaslTransport`, with the entries `username` and
`password` of the configuration map; `NewSaslClient` leaves a PLAIN mechanism
as it is. -/
def NewTSaslTransportPlain (trans : TTransport) (host username password principal : Bytes)
    (maxLength : Nat) : TSaslTransport PlainMechanism :=
  { saslClient := Client.NewSaslClientPlain host (NewPlainMechanism username password)
    tp := trans
    mechanism := ascii "PLAIN"
    maxLength := maxLength
    principal := principal }

/-- `bytes.Buffer.Read` on a buffer holding `buf`, for a destination of `plen`
bytes: the bytes copied, the error and what stays in the buffer. -/
def bufferRead (buf : Bytes) (plen : Nat) : Bytes × Option Error × Bytes :=
  if buf.isEmpty then
    if plen = 0 then ([], none, []) else ([], some .eof, [])
  else (buf.take plen, none, buf.drop plen)

/-- What `Read` returns: the bytes delivered (`p[:n]`), the error, the receiver. -/
structure ReadResult (σ : Type) where
  data : Bytes
  err : Option Error
  t : TSaslTransport σ

/-- One message the loop of `Open` received: its status and what
`saslClient.Complete()` answered when it arrived. -/
structure Received where
  status : Int
  complete : Bool
  deriving DecidableEq, Repr

/-- What `Open` returns: how the call ended (with which error), the receiver,
and the messages its loop received, oldest first. -/
structure OpenResult (σ : Type) where
  outcome : Go (Option Error)
  t : TSaslTransport σ
  received : List Received

namespace TSaslTransport

variable {σ : Type}

def IsOpen (M : Mechanism σ) (t : TSaslTransport σ) : Bool :=
  t.tp.isOpen && Client.Complete M t.saslClient

def Write (t : TSaslTransport σ) (p : Bytes) : Nat × Option Error × TSaslTransport σ :=
  (p.length, newTTransportExceptionFromError none, { t with writeBuf := t.writeBuf ++ p })

def Flush (M : Mechanism σ) (t : TSaslTransport σ) : Option Error × TSaslTransport σ :=
  let (r, c) := Client.Encode M t.saslClient t.writeBuf
  let t1 := { t with saslClient := c }
  match r.err with
  | some e => (newTTransportExceptionFromError (some e), t1)
  | none =>
    let t2 := { t1 with writeBuf := [] }
    let size := r.out.length
    let (err, tp1) := t2.tp.Write (putUint32 (uint32 size))
    match err with
    | some e => (newTTransportExceptionFromError (some e), { t2 with tp := tp1 })
    | none =>
      let (err, tp2) := if size > 0 then tp1.Write r.out else (none, tp1)
      match err with
      | some e => (newTTransportExceptionFromError (some e), { t2 with tp := tp2 })
      | none =>
        let (err, tp3) := tp2.Flush
        (newTTransportExceptionFromError err, { t2 with tp := tp3 })

def readFrameHeader (t : TSaslTransport σ) : Nat × Option Error × TSaslTransport σ :=
  let (buf, err, tp1) := t.tp.ReadFull 4
  let t1 := { t with tp := tp1 }
  match err with
  | some e => (0, some e, t1)
  | none =>
    let size := beUint32 buf
    if size > t1.maxLength then
      (0, some (.transport UNKNOWN_TRANSPORT_EXCEPTION "Frame size is bigger than allowed"), t1)
    else (size, none, t1)

/-- The tail of `Read`, from `t.readBuf.Read(p)` on. -/
def deliver (t : TSaslTransport σ) (plen : Nat) : ReadResult σ :=
  let (got, err, rest) := bufferRead t.readBuf plen
  let t1 := { t with readBuf := rest, frameSize := t.frameSize - got.length }
  if t1.frameSize < 0 then
    ⟨[], some (.transport UNKNOWN_TRANSPORT_EXCEPTION "Negative frame size"), t1⟩
  else ⟨got, newTTransportExceptionFromError err, t1⟩

/-- `Read(p)` for a destination `p` of `plen` bytes. -/
def Read (M : Mechanism σ) (t : TSaslTransport σ) (plen : Nat) : ReadResult σ :=
  let (err, t1) :=
    if t.rawFrameSize = 0 ∧ t.frameSize = 0 then
      let (size, err, t0) := t.readFrameHeader
      (err, { t0 with rawFrameSize := size })
    else (none, t)
  match err with
  | some e => ⟨[], some e, t1⟩
  | none =>
    if t1.rawFrameSize > 0 then
      let (rawBuf, err, tp1) := t1.tp.ReadFull t1.rawFrameSize
      let t2 := { t1 with tp := tp1 }
      match err with
      | some e => ⟨[], some e, t2⟩
      | none =>
        let t3 := { t2 with
          rawFrameSize := (t2.rawFrameSize + 2 ^ 32 - uint32 rawBuf.length) % 2 ^ 32 }
        let (r, c) := Client.Decode M t3.saslClient rawBuf
        let t4 := { t3 with saslClient := c }
        match r.err with
        | some e => ⟨[], some e, t4⟩
        | none =>
          deliver { t4 with frameSize := r.out.length, readBuf := t4.readBuf ++ r.out } plen
    else deliver t1 plen

def RemainingBytes (t : TSaslTransport σ) : Nat :=
  (t.frameSize % 2 ^ 64).toNat

def sendSaslMsg (t : TSaslTransport σ) (stat : Nat) (msg : Bytes) :
    Option Error × TSaslTransport σ :=
  let h : Bytes := UInt8.ofNat stat :: putUint32 (uint32 msg.length)
  let (err, tp1) := t.tp.Write (h ++ msg)
  match err with
  | some e => (some e, { t with tp := tp1 })
  | none =>
    let (err, tp2) := tp1.Flush
    (err, { t with tp := tp2 })

/-- Conversion `int8(b)` of a byte. -/
def int8 (b : UInt8) : Int :=
  if b.toNat < 128 then b.toNat else (b.toNat : Int) - 256

def recvSaslMsg (t : TSaslTransport σ) : Int × Option Bytes × TSaslTransport σ :=
  let (h, err, tp1) := t.tp.ReadFull 5
  let t1 := { t with tp := tp1 }
  match err with
  | some _ => (ERROR, none, t1)
  | none =>
    let s := int8 (h.getD 0 0)
    let l := beUint32 (h.drop 1)
    if l > 0 then
      let (p, err, tp2) := t1.tp.ReadFull l
      let t2 := { t1 with tp := tp2 }
      match err with
      | some _ => (ERROR, none, t2)
      | none => (s, some p, t2)
    else (s, none, t1)

/-- The loop labelled `l` of `Open`, for at most `fuel` received messages. -/
def negotiate (M : Mechanism σ) : Nat → TSaslTransport σ → OpenResult σ
  | 0, t => ⟨.timeout, t, []⟩
  | fuel + 1, t =>
    let (status, challenge, t1) := t.recvSaslMsg
    let seen : Received := ⟨status, Client.Complete M t1.saslClient⟩
    if status = OK then
      match Client.Step M t1.saslClient challenge with
      | .crash => ⟨.crash, t1, [seen]⟩
      | .timeout => ⟨.timeout, t1, [seen]⟩
      | .ret (r, c) =>
        let t2 := { t1 with saslClient := c }
        match r.err with
        | some e => ⟨.ret (some e), t2, [seen]⟩
        | none =>
          let (_, t3) := t2.sendSaslMsg OK (r.token.getD [])
          let rest := negotiate M fuel t3
          ⟨rest.outcome, rest.t, seen :: rest.received⟩
    else if status = COMPLETE then
      if !Client.Complete M t1.saslClient then
        ⟨.ret (some (.transport NOT_OPEN
          "Server erroneous responded SASL negotiation was complete")), t1, [seen]⟩
      else ⟨.ret none, t1, [seen]⟩
    else ⟨.ret (newTTransportExceptionFromError (some (.badStatus status challenge))), t1, [seen]⟩

/-- `Open()`.  Every message received takes at least five bytes of the input,
so the loop receives at most `input.length + 1` messages. -/
def Open (M : Mechanism σ) (t : TSaslTransport σ) : OpenResult σ :=
  let (err, t0) :=
    if !t.tp.isOpen then
      let (err, tp1) := t.tp.Open
      (err, { t with tp := tp1 })
    else (none, t)
  match err with
  | some e => ⟨.ret (some e), t0, []⟩
  | none =>
    let (err, t1) := t0.sendSaslMsg START t0.mechanism
    match err with
    | some e => ⟨.ret (some e), t1, []⟩
    | none =>
      match Client.Start M t1.saslClient with
      | .crash => ⟨.crash, t1, []⟩
      | .timeout => ⟨.timeout, t1, []⟩
      | .ret (r, c) =>
        let t2 := { t1 with saslClient := c }
        match r.err with
        | some e => ⟨.ret (some e), t2, []⟩
        | none =>
          let (err, t3) := t2.sendSaslMsg OK (r.token.getD [])
          match err with
          | some e => ⟨.ret (some e), t3, []⟩
          | none => negotiate M (t3.tp.input.length + 1) t3

def Close (M : Mechanism σ) (t : TSaslTransport σ) : Option Error × TSaslTransport σ :=
  let t1 := { t with saslClient := Client.Dispose M t.saslClient }
  let (err, tp1) := t1.tp.Close
  (err, { t1 with tp := tp1 })

/-- The relation between the result of `Open` and the messages its loop
received: a return without error comes with a last message of status
`COMPLETE` received while the mechanism reported completion, all earlier ones
having status `OK`, and leaves the mechanism complete; and a `COMPLETE`
received while the mechanism was not complete, or a status other than `OK` and
`COMPLETE`, comes with a returned error. -/
def Settled (M : Mechanism σ) (r : OpenResult σ) : Prop :=
  (r.outcome = .ret none →
    (∃ init, r.received = init ++ [⟨(COMPLETE : Nat), true⟩] ∧
      ∀ x ∈ init, x.status = ((OK : Nat) : Int)) ∧
    Client.Complete M r.t.saslClient = true) ∧
  (∀ x ∈ r.received,
    (x.status = ((COMPLETE : Nat) : Int) ∧ x.complete = false) ∨
      (x.status ≠ ((OK : Nat) : Int) ∧ x.status ≠ ((COMPLETE : Nat) : Int)) →
    ∃ e, r.outcome = .ret (some e))

/-- Successive calls of `Read`, one for each destination length of the list:
what each call delivered and returned, and the receiver after the last. -/
def reads (M : Mechanism σ) (t : TSaslTransport σ) :
    List Nat → List (Bytes × Option Error) × TSaslTransport σ
  | [] => ([], t)
  | k :: ks =>
    let r := Read M t k
    let rest := reads M r.t ks
    ((r.data, r.err) :: rest.1, rest.2)

end TSaslTransport

/-! ## DIGEST-MD5: the loop body, rounds and reference values -/

/-- One iteration of the loop of `parseChallenge` on a non-empty remaining
string `s`: the new remaining string and the map after `c[key] = v`, or `none`
for a slice out of range. -/
def parseIter (s : Bytes) (c : StrMap) : Option (Bytes × StrMap) :=
  match index s 61 with
  | none => none
  | some eq =>
    let key := s.take eq
    let s := s.drop (eq + 1)
    if s.length < 1 then none
    else
      let isQuote := s.take 1 == [34]
      let search : UInt8 := if isQuote then 34 else 44
      let s := if isQuote then s.drop 1 else s
      let co := (index s search).getD s.length
      let v := s.take co
      let s :=
        if isQuote && decide (s.length > v.length + 1) then s.drop (co + 2)
        else if co < s.length then s.drop (co + 1)
        else []
      some (s, c.set key v)

namespace DigestMD5Mechanism

/-- Successive `step` calls on one mechanism, one for each element of the list
(`none` for a call without challenge): the results in order and the mechanism
after the last call. -/
def rounds (env : Env) : DigestMD5Mechanism → List (Option Bytes) →
    Go (List StepResult × DigestMD5Mechanism)
  | m, [] => .ret ([], m)
  | m, ch :: chs =>
    match m.step env ch with
    | .crash => .crash
    | .timeout => .timeout
    | .ret (r, m1) =>
      match rounds env m1 chs with
      | .crash => .crash
      | .timeout => .timeout
      | .ret (rs, m2) => .ret (r :: rs, m2)

end DigestMD5Mechanism

/-- The number of calls with a challenge among the first `k + 1` calls. -/
def roundNumber (chs : List (Option Bytes)) (k : Nat) : Nat :=
  ((chs.take (k + 1)).filter Option.isSome).length

/-- A number rendered as eight lower-case hexadecimal digits, zero-padded. -/
def hex8 (i : Nat) : Bytes :=
  (List.range 8).reverse.map (fun k => hexDigit (i / 16 ^ k % 16))

/-- The layout of the response token: its fields in order, quoted where the
mechanism quotes them. -/
def digestToken (env : Env) (qop realm username nonce cnonce nc digestUri response maxBuf : Bytes) :
    Bytes :=
  ascii "qop=" ++ qop ++ ascii ",realm=" ++ strconvQuote env realm ++ ascii ",username=" ++
    strconvQuote env username ++ ascii ",nonce=" ++ strconvQuote env nonce ++
    ascii ",cnonce=" ++ strconvQuote env cnonce ++ ascii ",nc=" ++ nc ++
    ascii ",digest-uri=" ++ strconvQuote env digestUri ++ ascii ",response=" ++
    response ++ maxBuf

/-- The value expected in `rspauth`, as the specification words it: the hash
chain of the response, `hex(MD5(hex(A1) : nonce : nc : cnonce : qop : hex(MD5(A2))))`
with `A1 = MD5(keyHash : nonce : cnonce [: authzid])`, the key hash being the
cached one or else `MD5(username : realm : password)`, and with
`A2 = ":" ++ digest-uri`, followed by `:` and thirty-two zeros when the
negotiated qop is not `auth`. -/
def expectedRspauth (md5 : Bytes → Bytes) (m : DigestMD5Mechanism) (realm : Bytes) : Bytes :=
  let digestUri := m.service ++ ascii "/" ++ m.host
  let keyHash :=
    if m.keyHash = [] then md5 (m.username ++ ascii ":" ++ realm ++ ascii ":" ++ m.password)
    else m.keyHash
  let authzid : Bytes :=
    if m.mechanismConfig.AuthorizationID = [] then []
    else ascii ":" ++ m.mechanismConfig.AuthorizationID
  let a1 := md5 (keyHash ++ ascii ":" ++ m.nonce ++ ascii ":" ++ m.cnonce ++ authzid)
  let suffix : Bytes :=
    if m.auth = ascii "auth" then [] else ascii ":00000000000000000000000000000000"
  let a2 := md5 (ascii ":" ++ digestUri ++ suffix)
  hexEncode (md5 (hexEncode a1 ++ ascii ":" ++ m.nonce ++ ascii ":" ++ sprintf08x m.nonceCount ++
    ascii ":" ++ m.cnonce ++ ascii ":" ++ m.auth ++ ascii ":" ++ hexEncode a2))

/-- One pair of a well-formed challenge: key, value, and whether the value is
written between double quotes. -/
structure Pair where
  key : Bytes
  value : Bytes
  quoted : Bool
  deriving DecidableEq, Repr

/-- A pair as it is written: `k="v"` or `k=v`. -/
def Pair.render (e : Pair) : Bytes :=
  e.key ++ [61] ++ (if e.quoted then [34] ++ e.value ++ [34] else e.value)

/-- Pairs written one after the other, separated by commas. -/
def renderPairs : List Pair → Bytes
  | [] => []
  | [e] => e.render
  | e :: es => e.render ++ [44] ++ renderPairs es

/-- What makes a pair well formed: no `=` in the key; no double quote in a
quoted value; an unquoted value is non-empty, has no comma and does not start
with a double quote. -/
def Pair.WellFormed (e : Pair) : Prop :=
  (61 : UInt8) ∉ e.key ∧
  (e.quoted = true → (34 : UInt8) ∉ e.value) ∧
  (e.quoted = false → e.value ≠ [] ∧ (44 : UInt8) ∉ e.value ∧ e.value.head? ≠ some 34)

/-! ## GSSAPI (`gssapi.go`) -/

def DEFAULT_MAX_LENGTH : Int := 16384000

def GSS_C_MUTUAL_FLAG : Nat := 2
def GSS_C_SEQUENCE_FLAG : Nat := 8
def GSS_C_CONF_FLAG : Nat := 16
def GSS_C_INTEG_FLAG : Nat := 32

/-- The map `QOP_TO_FLAG`; a key it does not hold gives the zero byte. -/
def QOP_TO_FLAG (k : Bytes) : UInt8 :=
  if k = AUTH then 1 else if k = AUTH_INT then 2 else if k = AUTH_CONF then 4 else 0

/-- What `InitSecContext` of the external library returns, as far as
`initClientContext` uses it: the context handle, the output token, the granted
flags and the error. -/
structure InitSecResult where
  contextId : Option Nat
  token : Option Bytes
  outFlags : Nat
  err : Option Error
  deriving DecidableEq, Repr

/-- The external capability the mechanism is built on (the GSSAPI library and
the process environment), kept abstract.  `wrap` and `unwrap` stand for
`MakeBufferBytes` followed by `Wrap` or `Unwrap` on the context handle. -/
structure GssLib where
  /-- Whether loading the library fails, which ends the process. -/
  loadFails : Bool
  /-- The value of `os.Getenv("SERVICE_HOST_QUALIFIED")`. -/
  serviceHostQualified : Bytes
  /-- The error of `MakeBufferBytes` on an input token. -/
  makeBufferBytes : Bytes → Option Error
  /-- Whether the library turns a service name into a principal name that
  prints as the same string; when it does not, the process ends. -/
  prepareName : Bytes → Bool
  initSecContext : Option Nat → Bytes → Nat → Option Bytes → InitSecResult
  wrap : Option Nat → Bool → Bytes → Bytes × Option Error
  unwrap : Option Nat → Bytes → Bytes × Option Error

/-- One call made on the external capability. -/
inductive GssEvent where
  | initSecContext (service : Bytes) (intoken : Option Bytes)
  | wrap (conf : Bool) (plaintext : Bytes)
  | unwrap (data : Bytes)
  | unload
  deriving DecidableEq, Repr

/-- The struct `GSSAPIContext`, with the calls made through it so far. -/
structure GSSAPIContext where
  DebugLog : Bool
  RunAsService : Bool
  ServiceName : Bytes
  ServiceAddress : Bytes
  token : Option Bytes
  contextId : Option Nat
  reqFlags : Nat
  availFlags : Nat
  log : List GssEvent
  deriving DecidableEq, Repr

structure GSSAPIMechanism where
  config : MechanismConfig
  host : Bytes
  user : Bytes
  service : Bytes
  negotiationStage : Int
  context : GSSAPIContext
  qop : UInt8
  supportedQop : UInt8
  serverMaxLength : Int
  UserSelectQop : UInt8
  MaxLength : Int
  deriving DecidableEq, Repr

/-- `newGSSAPIContext`: a failure to load the library ends the process. -/
def newGSSAPIContext (lib : GssLib) : Go GSSAPIContext :=
  if lib.loadFails then .crash
  else
    .ret
      { DebugLog := false
        RunAsService := false
        ServiceName := []
        ServiceAddress := []
        token := none
        contextId := none
        reqFlags := GSS_C_INTEG_FLAG + GSS_C_MUTUAL_FLAG + GSS_C_SEQUENCE_FLAG + GSS_C_CONF_FLAG
        availFlags := 0
        log := [] }

def NewGSSAPIMechanism (lib : GssLib) (service : Bytes) : Go GSSAPIMechanism :=
  match newGSSAPIContext lib with
  | .crash => .crash
  | .timeout => .timeout
  | .ret context =>
    .ret
      { config := newDefaultConfig (ascii "GSSAPI")
        host := []
        user := []
        service := service
        negotiationStage := 0
        context := context
        qop := 0
        supportedQop := QOP_TO_FLAG AUTH ||| QOP_TO_FLAG AUTH_CONF ||| QOP_TO_FLAG AUTH_INT
        serverMaxLength := 0
        MaxLength := DEFAULT_MAX_LENGTH
        UserSelectQop := QOP_TO_FLAG AUTH ||| QOP_TO_FLAG AUTH_INT ||| QOP_TO_FLAG AUTH_CONF }

namespace GSSAPIContext

/-- `wrap`: a nil slice is returned as it is; otherwise the external capability
is called, and its result is returned unless it reports an error. -/
def wrap (lib : GssLib) (c : GSSAPIContext) (original : Option Bytes) (conf_flag : Bool) :
    Option Bytes × Option Error × GSSAPIContext :=
  match original with
  | none => (none, none, c)
  | some o =>
    let c1 := { c with log := c.log ++ [.wrap conf_flag o] }
    match lib.wrap c.contextId conf_flag o with
    | (_, some e) => (none, some e, c1)
    | (b, none) => (some b, none, c1)

def unwrap (lib : GssLib) (c : GSSAPIContext) (original : Option Bytes) :
    Option Bytes × Option Error × GSSAPIContext :=
  match original with
  | none => (none, none, c)
  | some o =>
    let c1 := { c with log := c.log ++ [.unwrap o] }
    match lib.unwrap c.contextId o with
    | (_, some e) => (none, some e, c1)
    | (b, none) => (some b, none, c1)

def dispose (c : GSSAPIContext) : GSSAPIContext :=
  if c.contextId ≠ none then { c with log := c.log ++ [.unload] } else c

def integAvail (c : GSSAPIContext) : Bool :=
  c.availFlags &&& GSS_C_INTEG_FLAG != 0

def confAvail (c : GSSAPIContext) : Bool :=
  c.availFlags &&& GSS_C_CONF_FLAG != 0

end GSSAPIContext

/-- `initClientContext`.  Every failure of `prepareServiceName` and an error of
`InitSecContext` end the process (`log.Fatal`); only an error of
`MakeBufferBytes` on the input token is returned. -/
def initClientContext (lib : GssLib) (context : GSSAPIContext) (service : Bytes)
    (intoken : Option Bytes) : Go (Option Error × GSSAPIContext) :=
  let c1 : GSSAPIContext := { context with ServiceName := service }
  let err : Option Error :=
    match intoken with
    | some t => lib.makeBufferBytes t
    | none => none
  match err with
  | some e => .ret (some e, c1)
  | none =>
    if decide (c1.ServiceName = []) || !lib.prepareName c1.ServiceName then .crash
    else
      let r := lib.initSecContext c1.contextId c1.ServiceName c1.reqFlags intoken
      let c2 : GSSAPIContext :=
        { c1 with log := c1.log ++ [GssEvent.initSecContext c1.ServiceName intoken] }
      match r.err with
      | some _ => .crash
      | none =>
        .ret (none, { c2 with token := r.token, contextId := r.contextId, availFlags := r.outFlags })

namespace GSSAPIMechanism

def selectQop (m : GSSAPIMechanism) (qopByte : UInt8) : UInt8 × Option Error :=
  let availableQops := m.UserSelectQop &&& m.supportedQop &&& qopByte
  match [QOP_TO_FLAG AUTH_CONF, QOP_TO_FLAG AUTH_INT, QOP_TO_FLAG AUTH].find?
      (fun qop => qop &&& availableQops != 0) with
  | some qop => (qop, none)
  | none => (0, some (.mech "no qop available"))

/-- Conversion `uint(x)` of an `int` (64 bits). -/
def uintOfInt (x : Int) : Nat := (x % 2 ^ 64).toNat

def step (lib : GssLib) (m : GSSAPIMechanism) (challenge : Option Bytes) :
    Go (StepResult × GSSAPIMechanism) :=
  let serviceHostQualified := lib.serviceHostQualified
  let fullServiceName := m.service ++ ascii "/" ++ serviceHostQualified
  let fullServiceName :=
    if serviceHostQualified.length = 0 then fullServiceName ++ m.host else fullServiceName
  if m.negotiationStage = 0 then
    match initClientContext lib m.context fullServiceName none with
    | .crash => .crash
    | .timeout => .timeout
    | .ret (err, context) =>
      let m1 := { m with context := context, negotiationStage := 1 }
      .ret (⟨m1.context.token, err⟩, m1)
  else if m.negotiationStage = 1 then
    match initClientContext lib m.context fullServiceName challenge with
    | .crash => .crash
    | .timeout => .timeout
    | .ret (err, context) =>
      let m1 := { m with context := context }
      match err with
      | some _ => .crash
      | none =>
        if m1.user = [] then .ret (⟨m1.context.token, none⟩, m1)
        else
          let m2 := { m1 with negotiationStage := 2 }
          .ret (⟨m2.context.token, none⟩, m2)
  else if m.negotiationStage = 2 then
    let (data, err, context) := m.context.unwrap lib challenge
    let m1 := { m with context := context }
    match err with
    | some e => .ret (⟨none, some e⟩, m1)
    | none =>
      let data := data.getD []
      if data.length ≠ 4 then
        .ret (⟨none, some (.mech "the decoded data should have length at this stage")⟩, m1)
      else
        let qopBits := data.getD 0 0
        let data := data.set 0 0
        let m2 := { m1 with serverMaxLength := (beUint32 data : Nat) }
        let (qop, err) := m2.selectQop qopBits
        let m3 := { m2 with qop := qop }
        let m4 := if err ≠ none then { m3 with MaxLength := 0 } else m3
        let maxLength :=
          if m4.MaxLength < m4.serverMaxLength then m4.MaxLength else m4.serverMaxLength
        let headerInt := (m4.qop.toNat <<< 24) ||| uintOfInt maxLength
        let header := putUint32 (uint32 headerInt)
        let name := if m4.config.AuthorizationID ≠ [] then m4.config.AuthorizationID else m4.user
        let out := header ++ name
        let (wrappedOut, err, context) := m4.context.wrap lib (some out) false
        let m5 := { m4 with context := context, config := { m4.config with complete := true } }
        .ret (⟨wrappedOut, err⟩, m5)
  else .ret (⟨none, some (.mech "error, should not get to this point")⟩, m)

def start (lib : GssLib) (m : GSSAPIMechanism) : Go (StepResult × GSSAPIMechanism) :=
  m.step lib none

def encode (lib : GssLib) (m : GSSAPIMechanism) (outgoing : Bytes) :
    CodecResult × GSSAPIMechanism :=
  if m.qop = QOP_TO_FLAG AUTH then (⟨outgoing, none⟩, m)
  else
    let conf_flag := decide (m.qop = QOP_TO_FLAG AUTH_CONF)
    let (b, err, context) := m.context.wrap lib (some outgoing) conf_flag
    (⟨b.getD [], err⟩, { m with context := context })

def decode (lib : GssLib) (m : GSSAPIMechanism) (incoming : Bytes) :
    CodecResult × GSSAPIMechanism :=
  if m.qop = QOP_TO_FLAG AUTH then (⟨incoming, none⟩, m)
  else
    let (b, err, context) := m.context.unwrap lib (some incoming)
    (⟨b.getD [], err⟩, { m with context := context })

def dispose (m : GSSAPIMechanism) : GSSAPIMechanism :=
  { m with context := m.context.dispose }

def getConfig (m : GSSAPIMechanism) : MechanismConfig :=
  m.config

end GSSAPIMechanism

/-- The method set of `*GSSAPIMechanism` as a `Mechanism`. -/
def gssapiMechanism (lib : GssLib) : Mechanism GSSAPIMechanism :=
  { start := GSSAPIMechanism.start lib
    step := GSSAPIMechanism.step lib
    encode := GSSAPIMechanism.encode lib
    decode := GSSAPIMechanism.decode lib
    dispose := GSSAPIMechanism.dispose
    getConfig := GSSAPIMechanism.getConfig }

/-- `NewSaslClient` for a `*GSSAPIMechanism`, whose `host` the type switch sets. -/
def Client.NewSaslClientGSSAPI (host : Bytes) (mechanism : GSSAPIMechanism) :
    Client GSSAPIMechanism :=
  { host := host, AuthorizationID := [], mechanism := { mechanism with host := host } }

/-- A stand-in for the external capability, for evaluating the mechanism on
concrete inputs: every call succeeds, `InitSecContext` hands out the context
handle 1 and the token `01 02`, `Unwrap` returns its input and `Wrap` its
plaintext. -/
def exampleLib : GssLib :=
  { loadFails := false
    serviceHostQualified := []
    makeBufferBytes := fun _ => none
    prepareName := fun _ => true
    initSecContext := fun _ _ _ _ => ⟨some 1, some [1, 2], 0, none⟩
    wrap := fun _ _ o => (o, none)
    unwrap := fun _ o => (o, none) }

/-- The mechanism that `NewGSSAPIMechanism` builds for the service `hive` once
the library has loaded and `NewSaslClient` has set the host `node1`. -/
def exampleGSSAPI : GSSAPIMechanism :=
  { config := newDefaultConfig (ascii "GSSAPI")
    host := ascii "node1"
    user := []
    service := ascii "hive"
    negotiationStage := 0
    context :=
      { DebugLog := false
        RunAsService := false
        ServiceName := []
        ServiceAddress := []
        token := none
        contextId := none
        reqFlags := 58
        availFlags := 0
        log := [] }
    qop := 0
    supportedQop := 7
    serverMaxLength := 0
    MaxLength := 16384000
    UserSelectQop := 7 }

/-- The value a call returned, when it did return. -/
def Go.result {α : Type} : Go α → Option α
  | .ret a => some a
  | _ => none

/-- The service name `step` passes to `initClientContext`. -/
def GSSAPIMechanism.fullServiceName (lib : GssLib) (m : GSSAPIMechanism) : Bytes :=
  if lib.serviceHostQualified.length = 0 then
    m.service ++ ascii "/" ++ lib.serviceHostQualified ++ m.host
  else m.service ++ ascii "/" ++ lib.serviceHostQualified

/-- The case `"GSSAPI"` of `NewTSaslTransport`, with the entries `service` and
`principal` of the configuration map. -/
def NewTSaslTransportGSSAPI (lib : GssLib) (trans : TTransport)
    (host service principal : Bytes) (maxLength : Nat) : Go (TSaslTransport GSSAPIMechanism) :=
  match NewGSSAPIMechanism lib service with
  | .crash => .crash
  | .timeout => .timeout
  | .ret mechanism =>
    .ret
      { saslClient := Client.NewSaslClientGSSAPI host mechanism
        tp := trans
        mechanism := ascii "GSSAPI"
        maxLength := maxLength
        principal := principal }

/-! ## The read side of the transport between calls -/

/-- The read-side accounting of a transport between two calls of `Read`:
`frameSize` is the number of bytes the read buffer holds, raw bytes of a frame
are outstanding only while the read buffer is empty, and `rawFrameSize` is a
`uint32`. -/
def TSaslTransport.Accounted {σ : Type} (t : TSaslTransport σ) : Prop :=
  t.frameSize = t.readBuf.length ∧ (0 < t.rawFrameSize → t.readBuf = []) ∧
    t.rawFrameSize < 2 ^ 32

/-- Successive calls of `Read` on one transport, each with a destination length
of its own and each finding the underlying stream in a state of its own
(whatever the peer has delivered by then): the receiver after the last call. -/
def TSaslTransport.readsOver {σ : Type} (M : Mechanism σ) :
    TSaslTransport σ → List (TTransport × Nat) → TSaslTransport σ
  | t, [] => t
  | t, (tp, k) :: cs => readsOver M (TSaslTransport.Read M { t with tp := tp } k).t cs

/-! ## Supporting lemmas -/

section Lemmas

variable {σ : Type}

theorem toNat_ofNat_of_lt (n : Nat) (h : n < 256) : (UInt8.ofNat n).toNat = n := by
  simp [UInt8.ofNat, UInt8.toNat, Nat.mod_eq_of_lt h]

/-- `putUint32` is the big-endian encoding that `beUint32` reads back. -/
theorem beUint32_putUint32 (v : Nat) (h : v < 2 ^ 32) : beUint32 (putUint32 v) = v := by
  simp only [beUint32, putUint32, List.getD_cons_zero, List.getD_cons_succ]
  rw [toNat_ofNat_of_lt _ (Nat.mod_lt _ (by norm_num)),
    toNat_ofNat_of_lt _ (Nat.mod_lt _ (by norm_num)),
    toNat_ofNat_of_lt _ (Nat.mod_lt _ (by norm_num)),
    toNat_ofNat_of_lt _ (Nat.mod_lt _ (by norm_num))]
  omega

theorem putUint32_length (v : Nat) : (putUint32 v).length = 4 := rfl

theorem uint32_of_lt (n : Nat) (h : n < 2 ^ 32) : uint32 n = n := Nat.mod_eq_of_lt h

theorem written_append (a b : List TEvent) : written (a ++ b) = written a ++ written b := by
  induction a with
  | nil => rfl
  | cons e es ih => cases e <;> simp [written, ih]

theorem Write_ok (tp : TTransport) (p : Bytes) (h : ∀ f ∈ tp.writeFaults, f = false) :
    tp.Write p = (none, { tp with writeFaults := tp.writeFaults.tail,
                                  log := tp.log ++ [.wrote p] }) := by
  unfold TTransport.Write
  cases hw : tp.writeFaults with
  | nil => simp
  | cons f rest =>
    have : f = false := h f (by simp [hw])
    subst this
    simp

theorem ReadFull_append (tp : TTransport) (a b : Bytes) (h : tp.input = a ++ b) :
    tp.ReadFull a.length =
      (a, none, { tp with input := b, log := tp.log ++ [.readFull a.length a] }) := by
  simp [TTransport.ReadFull, h]

/-- The calls `Flush` makes on the underlying transport when `encode` and the
writes succeed. -/
theorem Flush_log_of_encode (M : Mechanism σ) (t : TSaslTransport σ) (e : Bytes) (s : σ)
    (henc : M.encode t.saslClient.mechanism t.writeBuf = (⟨e, none⟩, s))
    (hlen : e.length < 2 ^ 32)
    (hw : ∀ f ∈ t.tp.writeFaults, f = false) :
    (TSaslTransport.Flush M t).2.writeBuf = [] ∧
    (TSaslTransport.Flush M t).2.tp.log =
      t.tp.log ++ [.wrote (putUint32 e.length)] ++ (if e.length = 0 then [] else [.wrote e])
        ++ [if t.tp.flushFaults.head? = some true then .flushFailed else .flushed] := by
  have hlog : ∀ tp : TTransport, (tp.Flush).2.log =
      tp.log ++ [if tp.flushFaults.head? = some true then .flushFailed else .flushed] := by
    intro tp
    unfold TTransport.Flush
    rcases hf : tp.flushFaults with _ | ⟨f, rest⟩
    · simp
    · cases f <;> simp
  have hw1 := Write_ok t.tp (putUint32 e.length) hw
  have hw2 : ∀ f ∈ (t.tp.Write (putUint32 e.length)).2.writeFaults, f = false := by
    rw [hw1]
    intro f hf
    exact hw f (List.mem_of_mem_tail hf)
  have hw3 := Write_ok (t.tp.Write (putUint32 e.length)).2 e hw2
  simp only [TSaslTransport.Flush, Client.Encode, henc, uint32_of_lt _ hlen]
  rw [hw1] at hw3 ⊢
  by_cases he : e.length = 0
  · have hnp : ¬ (0 < e.length) := by omega
    simp [hnp, hlog, he]
  · have hpos : 0 < e.length := Nat.pos_of_ne_zero he
    simp only [hpos, if_true, hw3]
    simp [hlog, he]

/-- The bytes `Flush` puts on the wire when `encode` and the writes succeed. -/
theorem Flush_written_of_encode (M : Mechanism σ) (t : TSaslTransport σ) (e : Bytes) (s : σ)
    (henc : M.encode t.saslClient.mechanism t.writeBuf = (⟨e, none⟩, s))
    (hlen : e.length < 2 ^ 32)
    (hw : ∀ f ∈ t.tp.writeFaults, f = false) :
    written ((TSaslTransport.Flush M t).2.tp.log.drop t.tp.log.length) =
      putUint32 e.length ++ e := by
  rw [(Flush_log_of_encode M t e s henc hlen hw).2]
  by_cases he : e.length = 0
  · have : e = [] := List.length_eq_zero.mp he
    simp [he, this, written, List.append_assoc]
    split <;> simp [written]
  · simp [he, written, List.append_assoc]
    split <;> simp [written]

/-- With no raw bytes outstanding and decoded bytes undelivered, `Read` goes
straight to the read buffer. -/
theorem Read_eq_deliver (M : Mechanism σ) (t : TSaslTransport σ) (k : Nat)
    (hraw : t.rawFrameSize = 0) (hf0 : t.frameSize ≠ 0) :
    TSaslTransport.Read M t k = TSaslTransport.deliver t k := by
  simp [TSaslTransport.Read, hraw, hf0]

/-- Handing out the front of a non-empty read buffer whose length is `frameSize`. -/
theorem deliver_buffered (t : TSaslTransport σ) (k : Nat)
    (hfs : t.frameSize = t.readBuf.length) (hne : t.readBuf ≠ []) :
    TSaslTransport.deliver t k =
      ⟨t.readBuf.take k, none,
        { t with readBuf := t.readBuf.drop k, frameSize := ((t.readBuf.drop k).length : Nat) }⟩ := by
  have hemp : t.readBuf.isEmpty = false := by
    cases h : t.readBuf with
    | nil => exact absurd h hne
    | cons a l => rfl
  have harith : t.frameSize - ((t.readBuf.take k).length : Nat)
      = ((t.readBuf.drop k).length : Nat) := by
    rw [hfs, List.length_take, List.length_drop]
    omega
  have hnn : ¬ ((((t.readBuf.drop k).length : Nat) : Int) < 0) := by omega
  simp only [TSaslTransport.deliver, bufferRead, hemp, Bool.false_eq_true, if_false,
    newTTransportExceptionFromError, harith, hnn]

/-- A `Read` that finds undelivered bytes of the current frame hands out the
front of the read buffer and touches nothing else. -/
theorem Read_buffered (M : Mechanism σ) (t : TSaslTransport σ) (k : Nat)
    (hraw : t.rawFrameSize = 0) (hfs : t.frameSize = t.readBuf.length)
    (hne : t.readBuf ≠ []) :
    TSaslTransport.Read M t k =
      ⟨t.readBuf.take k, none,
        { t with readBuf := t.readBuf.drop k, frameSize := ((t.readBuf.drop k).length : Nat) }⟩ := by
  have hpos : 0 < t.readBuf.length := List.length_pos.mpr hne
  have hf0 : t.frameSize ≠ 0 := by
    rw [hfs]
    omega
  rw [Read_eq_deliver M t k hraw hf0, deliver_buffered t k hfs hne]

/-- The first `Read` of a frame with a non-empty payload that the mechanism
decodes to itself: it takes the prefix and the payload from the underlying
transport, buffers the payload and hands out its front. -/
theorem Read_frame (M : Mechanism σ) (t : TSaslTransport σ) (k : Nat) (b rest : Bytes)
    (hdec : ∀ s x, M.decode s x = (⟨x, none⟩, s))
    (hraw : t.rawFrameSize = 0) (hfs : t.frameSize = 0) (hbuf : t.readBuf = [])
    (hb : 0 < b.length) (hmax : b.length ≤ t.maxLength) (h32 : t.maxLength < 2 ^ 32)
    (hin : t.tp.input = putUint32 b.length ++ (b ++ rest)) :
    TSaslTransport.Read M t k =
      ⟨b.take k, none,
        { t with
          tp := { t.tp with
            input := rest
            log := t.tp.log ++ [.readFull 4 (putUint32 b.length), .readFull b.length b] }
          rawFrameSize := 0
          frameSize := ((b.drop k).length : Nat)
          readBuf := b.drop k }⟩ := by
  have hbne : b ≠ [] := List.length_pos.mp hb
  have hlt : b.length < 2 ^ 32 := lt_of_le_of_lt hmax h32
  have h1 := ReadFull_append t.tp (putUint32 b.length) (b ++ rest) hin
  rw [putUint32_length] at h1
  have h2 := ReadFull_append
    { t.tp with input := b ++ rest, log := t.tp.log ++ [.readFull 4 (putUint32 b.length)] }
    b rest rfl
  have hnot : ¬ (t.maxLength < b.length) := by omega
  have hz : (b.length + 2 ^ 32 - uint32 b.length) % 2 ^ 32 = 0 := by
    rw [uint32_of_lt _ hlt]
    omega
  simp only [TSaslTransport.Read, TSaslTransport.readFrameHeader, hraw, hfs, and_self, if_true,
    h1, beUint32_putUint32 _ hlt, gt_iff_lt, hnot, if_false, hb, h2, hz, Client.Decode, hdec,
    hbuf, List.nil_append, List.append_assoc, List.singleton_append]
  refine (deliver_buffered _ k ?_ ?_).trans ?_
  · rfl
  · exact hbne
  · simp [hraw]

/-- Reads that drain a buffered frame: as long as every call but the first
finds bytes left, every call succeeds and together they hand out the front of
the buffer. -/
theorem reads_buffered (M : Mechanism σ) (ks : List Nat) :
    ∀ t : TSaslTransport σ, t.rawFrameSize = 0 → t.frameSize = t.readBuf.length →
      (ks ≠ [] → ks.dropLast.sum < t.readBuf.length) →
      (∀ r ∈ (TSaslTransport.reads M t ks).1, r.2 = none) ∧
      ((TSaslTransport.reads M t ks).1.map Prod.fst).flatten = t.readBuf.take ks.sum ∧
      (TSaslTransport.reads M t ks).2 =
        { t with readBuf := t.readBuf.drop ks.sum
                 frameSize := ((t.readBuf.drop ks.sum).length : Nat) } := by
  induction ks with
  | nil =>
    intro t _ hfs _
    refine ⟨by simp [TSaslTransport.reads], by simp [TSaslTransport.reads], ?_⟩
    simp only [TSaslTransport.reads, List.sum_nil, List.drop_zero, ← hfs]
  | cons k ks ih =>
    intro t hraw hfs hsum
    have hlen : (k :: ks).dropLast.sum < t.readBuf.length := hsum (by simp)
    have hne : t.readBuf ≠ [] := by
      intro h
      rw [h] at hlen
      simp at hlen
    have hr := Read_buffered M t k hraw hfs hne
    have hnext : ks ≠ [] → ks.dropLast.sum < (t.readBuf.drop k).length := by
      intro hks
      obtain ⟨k2, ks2, rfl⟩ := List.exists_cons_of_ne_nil hks
      rw [List.dropLast_cons₂, List.sum_cons] at hlen
      rw [List.length_drop]
      omega
    have ih' := ih
      { t with readBuf := t.readBuf.drop k, frameSize := ((t.readBuf.drop k).length : Nat) }
      hraw rfl hnext
    simp only [TSaslTransport.reads, hr]
    refine ⟨?_, ?_, ?_⟩
    · intro r hmem
      rcases List.mem_cons.mp hmem with h | h
      · rw [h]
      · exact ih'.1 r h
    · rw [List.map_cons, List.flatten_cons, ih'.2.1, List.sum_cons, List.take_add]
    · rw [ih'.2.2]
      simp only [List.drop_drop, List.sum_cons]

theorem Flush_ok (tp : TTransport) (h : ∀ f ∈ tp.flushFaults, f = false) :
    tp.Flush = (none, { tp with flushFaults := tp.flushFaults.tail,
                                log := tp.log ++ [.flushed] }) := by
  unfold TTransport.Flush
  cases hw : tp.flushFaults with
  | nil => simp
  | cons f rest =>
    have : f = false := h f (by simp [hw])
    subst this
    simp

/-- A handshake message sent over a transport whose write and flush succeed. -/
theorem sendSaslMsg_ok (t : TSaslTransport σ) (stat : Nat) (msg : Bytes)
    (hwf : ∀ f ∈ t.tp.writeFaults, f = false) (hff : ∀ f ∈ t.tp.flushFaults, f = false) :
    t.sendSaslMsg stat msg =
      (none, { t with tp := { t.tp with
        writeFaults := t.tp.writeFaults.tail
        flushFaults := t.tp.flushFaults.tail
        log := t.tp.log ++
          [.wrote (UInt8.ofNat stat :: putUint32 (uint32 msg.length) ++ msg), .flushed] } }) := by
  have h1 := Write_ok t.tp (UInt8.ofNat stat :: putUint32 (uint32 msg.length) ++ msg) hwf
  have h2 := Flush_ok
    { t.tp with writeFaults := t.tp.writeFaults.tail
                log := t.tp.log ++
                  [.wrote (UInt8.ofNat stat :: putUint32 (uint32 msg.length) ++ msg)] } hff
  simp only [TSaslTransport.sendSaslMsg, h1, h2, List.append_assoc, List.singleton_append]

/-- Sending a handshake message only appends to the log of the underlying
transport and leaves its input alone. -/
theorem sendSaslMsg_log (t : TSaslTransport σ) (stat : Nat) (msg : Bytes) :
    (∃ l, (t.sendSaslMsg stat msg).2.tp.log = t.tp.log ++ l) ∧
    (t.sendSaslMsg stat msg).2.tp.input = t.tp.input ∧
    (t.sendSaslMsg stat msg).2.saslClient = t.saslClient := by
  unfold TSaslTransport.sendSaslMsg TTransport.Write TTransport.Flush
  rcases hw : t.tp.writeFaults with _ | ⟨f, rest⟩
  · rcases hf : t.tp.flushFaults with _ | ⟨g, rest2⟩
    · exact ⟨⟨_, by simp; rfl⟩, rfl, rfl⟩
    · cases g
      · exact ⟨⟨_, by simp; rfl⟩, rfl, rfl⟩
      · exact ⟨⟨_, by simp; rfl⟩, rfl, rfl⟩
  · cases f
    · rcases hf : t.tp.flushFaults with _ | ⟨g, rest2⟩
      · exact ⟨⟨_, by simp; rfl⟩, rfl, rfl⟩
      · cases g
        · exact ⟨⟨_, by simp; rfl⟩, rfl, rfl⟩
        · exact ⟨⟨_, by simp; rfl⟩, rfl, rfl⟩
    · exact ⟨⟨_, rfl⟩, rfl, rfl⟩

/-- Receiving a handshake message starts with a read of the underlying
transport, leaves the client alone, and takes at least five bytes of the input
unless it reports `ERROR`; when the input ends before the five header bytes
and the payload they announce it reports `ERROR`. -/
theorem recvSaslMsg_spec (t : TSaslTransport σ) :
    (∃ e l, e.isRead = true ∧ t.recvSaslMsg.2.2.tp.log = t.tp.log ++ e :: l) ∧
    t.recvSaslMsg.2.2.saslClient = t.saslClient ∧
    (t.recvSaslMsg.1 ≠ (ERROR : Int) →
      t.recvSaslMsg.2.2.tp.input.length + 5 ≤ t.tp.input.length) ∧
    (t.tp.input.length < 5 + beUint32 ((t.tp.input.take 5).drop 1) →
      t.recvSaslMsg.1 = (ERROR : Int)) := by
  unfold TSaslTransport.recvSaslMsg
  by_cases h5 : 5 ≤ t.tp.input.length
  · simp only [TTransport.ReadFull, h5, if_true]
    by_cases hl : beUint32 (List.drop 1 (List.take 5 t.tp.input)) > 0
    · simp only [hl, if_true]
      by_cases hp : beUint32 (List.drop 1 (List.take 5 t.tp.input))
          ≤ (List.drop 5 t.tp.input).length
      · simp only [hp, if_true]
        refine ⟨⟨.readFull 5 (t.tp.input.take 5),
          [.readFull (beUint32 (List.drop 1 (List.take 5 t.tp.input)))
            (List.take (beUint32 (List.drop 1 (List.take 5 t.tp.input)))
              (List.drop 5 t.tp.input))], rfl, ?_⟩, ?_, ?_, ?_⟩
        · simp only [List.append_assoc, List.singleton_append]
        · first | rfl | trivial
        · intro _
          simp only [List.length_drop]
          omega
        · intro h
          simp only [List.length_drop] at hp
          omega
      · simp only [hp, if_false]
        refine ⟨⟨.readFull 5 (t.tp.input.take 5),
          [.readFailed (beUint32 (List.drop 1 (List.take 5 t.tp.input)))
            (List.drop 5 t.tp.input)], rfl, ?_⟩, ?_, ?_, ?_⟩
        · simp only [List.append_assoc, List.singleton_append]
        · first | rfl | trivial
        · intro h
          exact absurd rfl h
        · intro _
          trivial
    · simp only [hl, if_false]
      refine ⟨⟨.readFull 5 (t.tp.input.take 5), [], rfl, rfl⟩, ?_, ?_, ?_⟩
      · first | rfl | trivial
      · intro _
        simp only [List.length_drop]
        omega
      · intro h
        omega
  · simp only [TTransport.ReadFull, h5, if_false]
    refine ⟨⟨.readFailed 5 t.tp.input, [], rfl, rfl⟩, ?_, ?_, ?_⟩
    · first | rfl | trivial
    · intro h
      exact absurd rfl h
    · intro _
      first | rfl | trivial

/-- The loop of `Open` starts with a read of the underlying transport. -/
theorem negotiate_log (M : Mechanism σ) (n : Nat) :
    ∀ t : TSaslTransport σ, ∃ l, (TSaslTransport.negotiate M n t).t.tp.log = t.tp.log ++ l := by
  induction n with
  | zero =>
    intro t
    exact ⟨[], by simp [TSaslTransport.negotiate]⟩
  | succ n ih =>
    intro t
    obtain ⟨⟨e, l, _, hlog⟩, _, _, _⟩ := recvSaslMsg_spec t
    simp only [TSaslTransport.negotiate]
    split
    · split
      · exact ⟨_, hlog⟩
      · exact ⟨_, hlog⟩
      · rename_i r c _
        split
        · exact ⟨_, hlog⟩
        · obtain ⟨⟨l2, hl2⟩, _, _⟩ := sendSaslMsg_log
            { t.recvSaslMsg.2.2 with saslClient := c } OK (r.token.getD [])
          obtain ⟨l3, hl3⟩ := ih
            ({ t.recvSaslMsg.2.2 with saslClient := c }.sendSaslMsg OK (r.token.getD [])).2
          refine ⟨e :: l ++ l2 ++ l3, ?_⟩
          simp only [hl3, hl2, hlog, List.append_assoc]
    · split
      · split
        · exact ⟨_, hlog⟩
        · exact ⟨_, hlog⟩
      · exact ⟨_, hlog⟩

theorem negotiate_first_read (M : Mechanism σ) (n : Nat) (t : TSaslTransport σ) :
    ∃ e l, e.isRead = true ∧
      (TSaslTransport.negotiate M (n + 1) t).t.tp.log = t.tp.log ++ e :: l := by
  obtain ⟨⟨e, l, he, hlog⟩, _, _, _⟩ := recvSaslMsg_spec t
  simp only [TSaslTransport.negotiate]
  split
  · split
    · exact ⟨e, l, he, hlog⟩
    · exact ⟨e, l, he, hlog⟩
    · rename_i r c _
      split
      · exact ⟨e, l, he, hlog⟩
      · obtain ⟨⟨l2, hl2⟩, _, _⟩ := sendSaslMsg_log
          { t.recvSaslMsg.2.2 with saslClient := c } OK (r.token.getD [])
        obtain ⟨l3, hl3⟩ := negotiate_log M n
          ({ t.recvSaslMsg.2.2 with saslClient := c }.sendSaslMsg OK (r.token.getD [])).2
        refine ⟨e, l ++ l2 ++ l3, he, ?_⟩
        simp only [hl3, hl2, hlog, List.append_assoc, List.cons_append]
  · split
    · split
      · exact ⟨e, l, he, hlog⟩
      · exact ⟨e, l, he, hlog⟩
    · exact ⟨e, l, he, hlog⟩

/-- With the underlying transport open, its writes and flushes succeeding and
`start` returning a token, `Open` sends the two opening messages and enters its
loop. -/
theorem Open_enters_loop (M : Mechanism σ) (t : TSaslTransport σ) (T : Option Bytes) (s : σ)
    (hopen : t.tp.isOpen = true)
    (hwf : ∀ f ∈ t.tp.writeFaults, f = false) (hff : ∀ f ∈ t.tp.flushFaults, f = false)
    (hstart : M.start t.saslClient.mechanism = .ret (⟨T, none⟩, s)) :
    ∃ t3 : TSaslTransport σ,
      TSaslTransport.Open M t = TSaslTransport.negotiate M (t3.tp.input.length + 1) t3 ∧
      t3.tp.log = t.tp.log ++
        [.wrote (UInt8.ofNat START :: putUint32 (uint32 t.mechanism.length) ++ t.mechanism),
         .flushed,
         .wrote (UInt8.ofNat OK :: putUint32 (uint32 (T.getD []).length) ++ T.getD []),
         .flushed] := by
  have h1 := sendSaslMsg_ok t START t.mechanism hwf hff
  have hwf2 : ∀ f ∈ t.tp.writeFaults.tail, f = false :=
    fun f hf => hwf f (List.mem_of_mem_tail hf)
  have hff2 : ∀ f ∈ t.tp.flushFaults.tail, f = false :=
    fun f hf => hff f (List.mem_of_mem_tail hf)
  have h2 := sendSaslMsg_ok
    { t with
      tp := { t.tp with
        writeFaults := t.tp.writeFaults.tail
        flushFaults := t.tp.flushFaults.tail
        log := t.tp.log ++
          [.wrote (UInt8.ofNat START :: putUint32 (uint32 t.mechanism.length) ++ t.mechanism),
           .flushed] }
      saslClient := { t.saslClient with mechanism := s } }
    OK (T.getD []) hwf2 hff2
  dsimp only at h1 h2
  refine ⟨({ t with
      tp := { t.tp with
        writeFaults := t.tp.writeFaults.tail
        flushFaults := t.tp.flushFaults.tail
        log := t.tp.log ++
          [TEvent.wrote
            (UInt8.ofNat START :: putUint32 (uint32 t.mechanism.length) ++ t.mechanism),
           TEvent.flushed] }
      saslClient := { t.saslClient with mechanism := s } }.sendSaslMsg OK (T.getD [])).2,
    ?_, ?_⟩
  · simp only [TSaslTransport.Open, hopen, Bool.not_true, Bool.false_eq_true, if_false, h1,
      Client.Start, hstart]
    simp only [hopen] at h2
    rw [h2]
  · rw [h2]
    simp only [List.append_assoc, List.cons_append, List.nil_append]

/-- What the loop of `Open` makes of the messages it receives. -/
theorem negotiate_received (M : Mechanism σ) (n : Nat) :
    ∀ t : TSaslTransport σ,
      ((TSaslTransport.negotiate M n t).outcome = .ret none →
        (∃ init, (TSaslTransport.negotiate M n t).received = init ++ [⟨(COMPLETE : Nat), true⟩] ∧
          ∀ x ∈ init, x.status = ((OK : Nat) : Int)) ∧
        Client.Complete M (TSaslTransport.negotiate M n t).t.saslClient = true) ∧
      (∀ x ∈ (TSaslTransport.negotiate M n t).received,
        (x.status = ((COMPLETE : Nat) : Int) ∧ x.complete = false) ∨
          (x.status ≠ ((OK : Nat) : Int) ∧ x.status ≠ ((COMPLETE : Nat) : Int)) →
        ∃ e, (TSaslTransport.negotiate M n t).outcome = .ret (some e)) := by
  have h25 : ((OK : Nat) : Int) ≠ ((COMPLETE : Nat) : Int) := by decide
  induction n with
  | zero =>
    intro t
    simp [TSaslTransport.negotiate]
  | succ n ih =>
    intro t
    rcases hrecv : t.recvSaslMsg with ⟨status, challenge, t1⟩
    have hseenOK : ∀ (x : Received) (c : Bool),
        x ∈ [Received.mk ((OK : Nat) : Int) c] →
        ¬ ((x.status = ((COMPLETE : Nat) : Int) ∧ x.complete = false) ∨
          (x.status ≠ ((OK : Nat) : Int) ∧ x.status ≠ ((COMPLETE : Nat) : Int))) := by
      intro x c hx hbad
      rw [List.mem_singleton.mp hx] at hbad
      rcases hbad with ⟨h, _⟩ | ⟨h, _⟩
      · exact absurd h h25
      · exact absurd rfl h
    by_cases hOK : status = ((OK : Nat) : Int)
    · cases hstep : Client.Step M t1.saslClient challenge with
      | crash =>
        simp only [TSaslTransport.negotiate, hrecv, hOK, if_true, hstep]
        exact ⟨fun h => by simp at h,
          fun x hx hbad => absurd hbad (hseenOK x _ hx)⟩
      | timeout =>
        simp only [TSaslTransport.negotiate, hrecv, hOK, if_true, hstep]
        exact ⟨fun h => by simp at h,
          fun x hx hbad => absurd hbad (hseenOK x _ hx)⟩
      | ret rc =>
        obtain ⟨r, c⟩ := rc
        cases herr : r.err with
        | some e =>
          simp only [TSaslTransport.negotiate, hrecv, hOK, if_true, hstep, herr]
          exact ⟨fun h => by simp at h, fun _ _ _ => ⟨e, rfl⟩⟩
        | none =>
          obtain ⟨ih1, ih2⟩ := ih
            ({ t1 with saslClient := c }.sendSaslMsg OK (r.token.getD [])).2
          simp only [TSaslTransport.negotiate, hrecv, hOK, if_true, hstep, herr]
          refine ⟨?_, ?_⟩
          · intro h
            obtain ⟨⟨init, hinit, hall⟩, hc⟩ := ih1 h
            refine ⟨⟨_ :: init, by rw [hinit]; rfl, ?_⟩, hc⟩
            intro x hx
            rcases List.mem_cons.mp hx with hx | hx
            · rw [hx]
            · exact hall x hx
          · intro x hx hbad
            rcases List.mem_cons.mp hx with hx | hx
            · exact absurd hbad (hseenOK x _ (by rw [hx]; exact List.mem_singleton.mpr rfl))
            · exact ih2 x hx hbad
    · by_cases hC : status = ((COMPLETE : Nat) : Int)
      · have h52 : ¬ ((COMPLETE : Nat) : Int) = ((OK : Nat) : Int) := fun h => h25 h.symm
        have h52n : ¬ (COMPLETE : Nat) = (OK : Nat) := by decide
        subst hC
        cases hcomp : Client.Complete M t1.saslClient with
        | false =>
          simp only [TSaslTransport.negotiate, hrecv, h52, h52n, if_false, if_true, hcomp,
            Bool.not_false]
          exact ⟨fun h => by simp at h, fun _ _ _ => ⟨_, rfl⟩⟩
        | true =>
          simp only [TSaslTransport.negotiate, hrecv, h52, h52n, if_false, if_true, hcomp,
            Bool.not_true, Bool.false_eq_true]
          refine ⟨fun _ => ⟨⟨[], rfl, by simp⟩, trivial⟩, ?_⟩
          intro x hx hbad
          rw [List.mem_singleton.mp hx] at hbad
          rcases hbad with ⟨_, h⟩ | ⟨_, h⟩
          · simp at h
          · exact absurd rfl h
      · simp only [TSaslTransport.negotiate, hrecv, hOK, if_false, hC,
          newTTransportExceptionFromError]
        exact ⟨fun h => by simp at h, fun _ _ _ => ⟨_, rfl⟩⟩

theorem Settled_of_no_message (M : Mechanism σ) (r : OpenResult σ)
    (hrec : r.received = []) (hout : r.outcome ≠ .ret none) : TSaslTransport.Settled M r := by
  refine ⟨fun h => absurd h hout, ?_⟩
  intro x hx
  rw [hrec] at hx
  exact absurd hx (List.not_mem_nil x)

theorem Open_settled (M : Mechanism σ) (t : TSaslTransport σ) :
    TSaslTransport.Settled M (TSaslTransport.Open M t) := by
  unfold TSaslTransport.Open
  dsimp only
  split
  · exact Settled_of_no_message M _ rfl (by simp)
  · split
    · exact Settled_of_no_message M _ rfl (by simp)
    · split
      · exact Settled_of_no_message M _ rfl (by simp)
      · exact Settled_of_no_message M _ rfl (by simp)
      · split
        · exact Settled_of_no_message M _ rfl (by simp)
        · split
          · exact Settled_of_no_message M _ rfl (by simp)
          · exact negotiate_received M _ _

/-- The bound on the number of messages in `Open` is never reached: with more
fuel than input bytes the loop ends by itself, unless `step` of the mechanism
does not return. -/
theorem negotiate_no_timeout (M : Mechanism σ) (hstep : ∀ s c, M.step s c ≠ .timeout)
    (n : Nat) : ∀ t : TSaslTransport σ, t.tp.input.length < n →
      (TSaslTransport.negotiate M n t).outcome ≠ .timeout := by
  induction n with
  | zero =>
    intro t h
    omega
  | succ n ih =>
    intro t hlt
    obtain ⟨_, _, hcons, _⟩ := recvSaslMsg_spec t
    rcases hrecv : t.recvSaslMsg with ⟨status, challenge, t1⟩
    rw [hrecv] at hcons
    by_cases hOK : status = ((OK : Nat) : Int)
    · have hne : status ≠ ((ERROR : Nat) : Int) := by
        rw [hOK]
        decide
      have hlen := hcons hne
      cases hstep' : Client.Step M t1.saslClient challenge with
      | crash =>
        simp [TSaslTransport.negotiate, hrecv, hOK, hstep']
      | timeout =>
        exfalso
        unfold Client.Step at hstep'
        cases hm : M.step t1.saslClient.mechanism challenge with
        | timeout => exact hstep _ _ hm
        | crash => simp [hm] at hstep'
        | ret a => simp [hm] at hstep'
      | ret rc =>
        obtain ⟨r, c⟩ := rc
        cases herr : r.err with
        | some e =>
          simp [TSaslTransport.negotiate, hrecv, hOK, hstep', herr]
        | none =>
          simp only [TSaslTransport.negotiate, hrecv, hOK, if_true, hstep', herr]
          apply ih
          rw [(sendSaslMsg_log _ _ _).2.1]
          simp only at hlen ⊢
          omega
    · by_cases hC : status = ((COMPLETE : Nat) : Int)
      · have h52 : ¬ ((COMPLETE : Nat) : Int) = ((OK : Nat) : Int) := by decide
        have h52n : ¬ (COMPLETE : Nat) = (OK : Nat) := by decide
        subst hC
        cases hcomp : Client.Complete M t1.saslClient <;>
          simp [TSaslTransport.negotiate, hrecv, h52, h52n, hcomp]
      · simp [TSaslTransport.negotiate, hrecv, hOK, hC, newTTransportExceptionFromError]

theorem hexDigit_lower (d : Nat) (h : d < 16) :
    ¬ (65 ≤ (hexDigit d).toNat ∧ (hexDigit d).toNat ≤ 90) := by
  have : ∀ d : Fin 16, ¬ (65 ≤ (hexDigit d.val).toNat ∧ (hexDigit d.val).toNat ≤ 90) := by
    decide
  exact this ⟨d, h⟩

/-- `hex.EncodeToString` writes lower-case digits, which `strings.ToLower` keeps. -/
theorem toLower_hexEncode (b : Bytes) : toLower (hexEncode b) = hexEncode b := by
  induction b with
  | nil => rfl
  | cons x xs ih =>
    have hx : x.toNat < 256 := UInt8.toNat_lt x
    have h1 := hexDigit_lower (x.toNat / 16) (by omega)
    have h2 := hexDigit_lower (x.toNat % 16) (by omega)
    simp only [hexEncode, toLower, List.flatMap_cons, List.map_append, List.map_cons,
      List.map_nil, h1, h2, if_false] at ih ⊢
    rw [ih]

theorem flatMap_quoteByte_plain (x : Bytes) (h : x.all plainByte = true) :
    x.flatMap quoteByte = x := by
  induction x with
  | nil => rfl
  | cons b bs ih =>
    simp only [List.all_cons, Bool.and_eq_true] at h
    have hb := h.1
    simp only [plainByte, Bool.and_eq_true, decide_eq_true_eq, bne_iff_ne, ne_eq] at hb
    obtain ⟨⟨⟨h32, h127⟩, h34⟩, h92⟩ := hb
    have hq : quoteByte b = [b] := by
      simp [quoteByte, h34, h92, h32, h127]
    rw [List.flatMap_cons, hq, ih h.2]
    rfl

/-- `strconv.Quote` only adds the enclosing quotes to printable ASCII free of
quotes and backslashes. -/
theorem strconvQuote_plain (env : Env) (x : Bytes) (h : x.all plainByte = true) :
    strconvQuote env x = [34] ++ x ++ [34] := by
  have hascii : x.all (fun b => decide (b.toNat < 128)) = true := by
    rw [List.all_eq_true] at h ⊢
    intro b hb
    have := h b hb
    simp only [plainByte, Bool.and_eq_true, decide_eq_true_eq] at this
    simp only [decide_eq_true_eq]
    omega
  simp only [strconvQuote, hascii, if_true, flatMap_quoteByte_plain x h]

theorem randSeq_plain (env : Env) (n : Nat) : (randSeq env n).all plainByte = true := by
  have hchars : ∀ i : Fin 62, plainByte (randSeqChars.getD i.val 0) = true := by decide
  rw [List.all_eq_true]
  intro b hb
  simp only [randSeq, List.mem_map] at hb
  obtain ⟨i, _, rfl⟩ := hb
  have hlen : randSeqChars.length = 62 := by decide
  rw [hlen]
  exact hchars ⟨env.randIntn i % 62, Nat.mod_lt _ (by norm_num)⟩

/-- The loop of `parseChallenge` runs its body as long as something remains. -/
theorem parseLoop_succ (fuel : Nat) (s : Bytes) (c : StrMap) :
    parseLoop (fuel + 1) s c =
      if s.length > 0 then
        match parseIter s c with
        | none => .crash
        | some (s1, c1) => parseLoop fuel s1 c1
      else .ret c := by
  simp only [parseLoop, parseIter]
  by_cases hs : s.length > 0
  · simp only [hs, if_true]
    cases hi : index s 61 with
    | none => rfl
    | some eq =>
      simp only []
      by_cases h1 : (List.drop (eq + 1) s).length < 1
      · simp only [h1, if_true]
      · simp only [h1, if_false]
  · simp only [hs, if_false]

theorem parseRest_length (q : Bool) (t : Bytes) (co vlen : Nat) :
    (if q && decide (t.length > vlen + 1) then t.drop (co + 2)
      else if co < t.length then t.drop (co + 1) else []).length ≤ t.length := by
  split
  · rw [List.length_drop]
    omega
  · split
    · rw [List.length_drop]
      omega
    · simp

/-- Every iteration of the loop of `parseChallenge` that completes leaves a
strictly shorter remaining string. -/
theorem parseIter_shorter (s : Bytes) (c : StrMap) (s1 : Bytes) (c1 : StrMap)
    (h : parseIter s c = some (s1, c1)) : s1.length < s.length := by
  unfold parseIter at h
  cases hi : index s 61 with
  | none =>
    rw [hi] at h
    exact absurd h (by simp)
  | some eq =>
    rw [hi] at h
    dsimp only at h
    split at h
    · exact absurd h (by simp)
    · rename_i h1
      have hlen : (List.drop (eq + 1) s).length < s.length := by
        rw [List.length_drop] at h1 ⊢
        omega
      have hq : (if (List.take 1 (List.drop (eq + 1) s) == [34]) = true
          then List.drop 1 (List.drop (eq + 1) s) else List.drop (eq + 1) s).length
          ≤ (List.drop (eq + 1) s).length := by
        split
        · rw [List.length_drop]
          omega
        · exact Nat.le_refl _
      injection h with h
      injection h with hs1 _
      rw [← hs1]
      exact lt_of_le_of_lt (le_trans (parseRest_length _ _ _ _) hq) hlen

/-- With at least as much fuel as bytes the loop of `parseChallenge` ends by
itself. -/
theorem parseLoop_no_timeout (fuel : Nat) :
    ∀ (s : Bytes) (c : StrMap), s.length ≤ fuel → parseLoop fuel s c ≠ .timeout := by
  induction fuel with
  | zero =>
    intro s c h
    have : ¬ (s.length > 0) := by omega
    simp [parseLoop, this]
  | succ n ih =>
    intro s c h
    rw [parseLoop_succ]
    by_cases hs : s.length > 0
    · simp only [hs, if_true]
      cases hp : parseIter s c with
      | none => simp
      | some sc =>
        obtain ⟨s1, c1⟩ := sc
        have := parseIter_shorter s c s1 c1 hp
        exact ih s1 c1 (by omega)
    · simp [hs]

theorem parseLoop_nil (fuel : Nat) (c : StrMap) : parseLoop fuel [] c = .ret c := by
  cases fuel with
  | zero => simp [parseLoop]
  | succ n => simp [parseLoop]

/-- Fuel beyond the number of bytes does not change what the loop of
`parseChallenge` gives. -/
theorem parseLoop_fuel (fuel : Nat) :
    ∀ (s : Bytes) (c : StrMap) (fuel1 : Nat), s.length ≤ fuel → s.length ≤ fuel1 →
      parseLoop fuel s c = parseLoop fuel1 s c := by
  induction fuel with
  | zero =>
    intro s c fuel1 h _
    have : s = [] := List.length_eq_zero.mp (by omega)
    rw [this, parseLoop_nil, parseLoop_nil]
  | succ n ih =>
    intro s c fuel1 h h1
    by_cases hs : s.length > 0
    · obtain ⟨m, rfl⟩ : ∃ m, fuel1 = m + 1 := ⟨fuel1 - 1, by omega⟩
      rw [parseLoop_succ, parseLoop_succ]
      simp only [hs, if_true]
      cases hp : parseIter s c with
      | none => rfl
      | some sc =>
        obtain ⟨s1, c1⟩ := sc
        have hlt := parseIter_shorter s c s1 c1 hp
        exact ih s1 c1 m (by omega) (by omega)
    · have : s = [] := List.length_eq_zero.mp (by omega)
      rw [this, parseLoop_nil, parseLoop_nil]

theorem dropWhile_zero_split (l : Bytes) :
    l = List.replicate (l.length - (l.dropWhile (fun d => d == 48)).length) 48 ++
      l.dropWhile (fun d => d == 48) := by
  induction l with
  | nil => rfl
  | cons a l ih =>
    have hle : (l.dropWhile (fun d => d == 48)).length ≤ l.length :=
      (List.dropWhile_sublist _).length_le
    by_cases ha : (a == 48) = true
    · have ha' : a = 48 := by simpa using ha
      rw [List.dropWhile_cons]
      simp only [ha, if_true]
      have : (a :: l).length - (l.dropWhile (fun d => d == 48)).length
          = (l.length - (l.dropWhile (fun d => d == 48)).length) + 1 := by
        simp only [List.length_cons]
        omega
      rw [this, List.replicate_succ, List.cons_append, ← ih, ha']
    · rw [List.dropWhile_cons]
      simp only [ha, Bool.false_eq_true, if_false]
      simp

/-- Padding to eight digits undoes the removal of leading zeros from eight digits. -/
theorem padZero_dropWhile (l : Bytes) (h : l.length = 8) :
    padZero 8 (if (l.dropWhile (fun d => d == 48)).isEmpty then [48]
      else l.dropWhile (fun d => d == 48)) = l := by
  have hsplit := dropWhile_zero_split l
  by_cases he : (l.dropWhile (fun d => d == 48)) = []
  · rw [he] at hsplit ⊢
    simp only [List.length_nil, Nat.sub_zero, h, List.append_nil] at hsplit
    rw [hsplit]
    decide
  · have hne : (l.dropWhile (fun d => d == 48)).isEmpty = false := by
      cases hd : l.dropWhile (fun d => d == 48) with
      | nil => exact absurd hd he
      | cons a t => rfl
    rw [hne]
    simp only [Bool.false_eq_true, if_false, padZero]
    rw [h] at hsplit
    exact hsplit.symm

/-- `%08x` of a number below `2 ^ 32` is the number in eight hexadecimal digits. -/
theorem sprintf08x_eq_hex8 (i : Nat) (h : i < 2 ^ 32) : sprintf08x (i : Int) = hex8 i := by
  have hz : ∀ k, 8 ≤ k → hexDigit (i / 16 ^ k % 16) = 48 := by
    intro k hk
    have h16 : (16 : Nat) ^ 8 ≤ 16 ^ k := Nat.pow_le_pow_right (by norm_num) hk
    have : i / 16 ^ k = 0 := Nat.div_eq_of_lt (by
      have : (2 : Nat) ^ 32 = 16 ^ 8 := by norm_num
      omega)
    rw [this]
    rfl
  have hds : ((List.range 16).reverse.map (fun k => hexDigit (i / 16 ^ k % 16))).dropWhile
      (fun d => d == 48) = (hex8 i).dropWhile (fun d => d == 48) := by
    have hr : (List.range 16).reverse = [15, 14, 13, 12, 11, 10, 9, 8] ++ (List.range 8).reverse := by
      decide
    rw [hr, List.map_append]
    simp only [List.map_cons, List.map_nil, hz 15 (by norm_num), hz 14 (by norm_num),
      hz 13 (by norm_num), hz 12 (by norm_num), hz 11 (by norm_num), hz 10 (by norm_num),
      hz 9 (by norm_num), hz 8 (by norm_num), List.cons_append, List.nil_append]
    have h48 : ((48 : UInt8) == 48) = true := by decide
    simp only [List.dropWhile_cons, h48, if_true]
    rfl
  have hlen : (hex8 i).length = 8 := by simp [hex8]
  have hnn : (0 : Int) ≤ (i : Int) := Int.natCast_nonneg i
  simp only [sprintf08x, hnn, if_true, hexNat, Int.toNat_natCast, hds]
  exact padZero_dropWhile (hex8 i) hlen

theorem wrapInt64_succ (n : Nat) (h : n + 1 < 2 ^ 32) :
    wrapInt64 ((n : Int) + 1) = ((n + 1 : Nat) : Int) := by
  unfold wrapInt64
  push_cast
  omega

/-- One challenge round of DIGEST-MD5: the token has the layout of
`digestToken` with the incremented nonce count in eight hexadecimal digits, and
the mechanism keeps its user name, service and host. -/
theorem DigestMD5_step_round (env : Env) (m : DigestMD5Mechanism) (n : Nat)
    (challenge : Bytes) (c : StrMap)
    (hn : m.nonceCount = (n : Int)) (hlt : n + 1 < 2 ^ 32)
    (hparse : parseChallenge challenge = .ret c)
    (hrsp : c.has (ascii "rspauth") = false) :
    ∃ (cn resp maxBuf : Bytes) (m1 : DigestMD5Mechanism),
      m.step env (some challenge) =
        .ret (⟨some (digestToken env (c.get (ascii "qop")) (c.get (ascii "realm")) m.username
          (c.get (ascii "nonce")) cn (hex8 (n + 1)) (m.service ++ ascii "/" ++ m.host)
          resp maxBuf), none⟩, m1) ∧
      m1.nonceCount = ((n + 1 : Nat) : Int) ∧ m1.username = m.username ∧
      m1.service = m.service ∧ m1.host = m.host := by
  have hnc : sprintf08x (wrapInt64 ((n : Int) + 1)) = hex8 (n + 1) := by
    rw [wrapInt64_succ n hlt]
    exact sprintf08x_eq_hex8 (n + 1) hlt
  simp only [DigestMD5Mechanism.step, hparse, hrsp, Bool.false_eq_true, if_false, digestToken,
    DigestMD5Mechanism.getHash]
  have e0 : (m.nonceCount = 0) = True ∨ (m.nonceCount = 0) = False := by
    by_cases h : m.nonceCount = 0
    · exact Or.inl (eq_true h)
    · exact Or.inr (eq_false h)
  have ek : (m.keyHash = []) = True ∨ (m.keyHash = []) = False := by
    by_cases h : m.keyHash = []
    · exact Or.inl (eq_true h)
    · exact Or.inr (eq_false h)
  have eq : (c.get (ascii "qop") = AUTH) = True ∨ (c.get (ascii "qop") = AUTH) = False := by
    by_cases h : c.get (ascii "qop") = AUTH
    · exact Or.inl (eq_true h)
    · exact Or.inr (eq_false h)
  rcases e0 with e0 | e0 <;> rcases ek with ek | ek <;> rcases eq with eq | eq <;>
    simp only [e0, ek, eq, if_true, if_false, ne_eq, not_true_eq_false, not_false_eq_true] <;>
    simp only [hn, hnc] <;>
    exact ⟨_, _, _, _, rfl, wrapInt64_succ n hlt, rfl, rfl, rfl⟩

theorem roundNumber_none (cs : List (Option Bytes)) (k : Nat) :
    roundNumber (none :: cs) (k + 1) = roundNumber cs k := by
  simp [roundNumber, List.take_succ_cons, List.filter]

theorem roundNumber_some (ch : Bytes) (cs : List (Option Bytes)) (k : Nat) :
    roundNumber (some ch :: cs) (k + 1) = roundNumber cs k + 1 := by
  simp [roundNumber, List.take_succ_cons, List.filter]

theorem roundNumber_zero (ch : Bytes) (cs : List (Option Bytes)) :
    roundNumber (some ch :: cs) 0 = 1 := by
  simp [roundNumber, List.filter]

/-- Successive rounds of DIGEST-MD5 from a nonce count `n`: a call without
challenge returns nothing and changes nothing, and the token of a call with a
challenge carries `n` plus the number of challenges so far. -/
theorem DigestMD5_rounds_nc (env : Env) (cs : List (Option Bytes)) :
    ∀ (m : DigestMD5Mechanism) (n : Nat), m.nonceCount = (n : Int) →
      n + (cs.filter Option.isSome).length < 2 ^ 32 →
      (∀ ch, some ch ∈ cs → ∃ c, parseChallenge ch = .ret c ∧ c.has (ascii "rspauth") = false) →
      ∃ (rs : List StepResult) (m1 : DigestMD5Mechanism),
        m.rounds env cs = .ret (rs, m1) ∧ rs.length = cs.length ∧
        (∀ k : Nat, cs[k]? = some none → rs[k]? = some (StepResult.mk none none)) ∧
        (∀ (k : Nat) (ch : Bytes), cs[k]? = some (some ch) →
          ∃ (c : StrMap) (cn resp maxBuf : Bytes), parseChallenge ch = .ret c ∧
            rs[k]? = some (StepResult.mk (some (digestToken env (c.get (ascii "qop"))
              (c.get (ascii "realm")) m.username (c.get (ascii "nonce")) cn
              (hex8 (n + roundNumber cs k)) (m.service ++ ascii "/" ++ m.host) resp maxBuf))
              none)) := by
  induction cs with
  | nil =>
    intro m n _ _ _
    exact ⟨[], m, rfl, rfl, by simp, by simp⟩
  | cons ch0 cs ih =>
    intro m n hn hlt hok
    cases ch0 with
    | none =>
      have hlt1 : n + (cs.filter Option.isSome).length < 2 ^ 32 := by
        simpa [List.filter] using hlt
      obtain ⟨rs, m1, hr, hlen, hnone, hsome⟩ := ih m n hn hlt1
        (fun ch hch => hok ch (List.mem_cons_of_mem _ hch))
      refine ⟨StepResult.mk none none :: rs, m1, ?_, by simp [hlen], ?_, ?_⟩
      · simp only [DigestMD5Mechanism.rounds, DigestMD5Mechanism.step, hr]
      · intro k hk
        cases k with
        | zero => simp
        | succ k =>
          simp only [List.getElem?_cons_succ] at hk ⊢
          exact hnone k hk
      · intro k ch hk
        cases k with
        | zero => simp at hk
        | succ k =>
          simp only [List.getElem?_cons_succ] at hk ⊢
          rw [roundNumber_none]
          exact hsome k ch hk
    | some ch0 =>
      have hcount : ((some ch0 :: cs).filter Option.isSome).length
          = (cs.filter Option.isSome).length + 1 := by
        simp [List.filter]
      rw [hcount] at hlt
      obtain ⟨c0, hp0, hr0⟩ := hok ch0 (List.mem_cons_self _ _)
      obtain ⟨cn, resp, maxBuf, m1, hstep, hn1, hu1, hs1, hh1⟩ :=
        DigestMD5_step_round env m n ch0 c0 hn (by omega) hp0 hr0
      obtain ⟨rs, m2, hr, hlen, hnone, hsome⟩ := ih m1 (n + 1) hn1 (by omega)
        (fun ch hch => hok ch (List.mem_cons_of_mem _ hch))
      refine ⟨StepResult.mk (some (digestToken env (c0.get (ascii "qop")) (c0.get (ascii "realm"))
        m.username (c0.get (ascii "nonce")) cn (hex8 (n + 1)) (m.service ++ ascii "/" ++ m.host)
        resp maxBuf)) none :: rs, m2, ?_, by simp [hlen], ?_, ?_⟩
      · simp only [DigestMD5Mechanism.rounds, hstep, hr]
      · intro k hk
        cases k with
        | zero => simp at hk
        | succ k =>
          simp only [List.getElem?_cons_succ] at hk ⊢
          exact hnone k hk
      · intro k ch hk
        cases k with
        | zero =>
          simp only [List.getElem?_cons_zero, Option.some.injEq] at hk
          subst hk
          rw [roundNumber_zero]
          exact ⟨c0, cn, resp, maxBuf, hp0, by simp⟩
        | succ k =>
          simp only [List.getElem?_cons_succ] at hk ⊢
          obtain ⟨c, cn2, resp2, maxBuf2, hp, hrk⟩ := hsome k ch hk
          rw [roundNumber_some]
          refine ⟨c, cn2, resp2, maxBuf2, hp, ?_⟩
          rw [hrk, hu1, hs1, hh1]
          have : n + 1 + roundNumber cs k = n + (roundNumber cs k + 1) := by omega
          rw [this]

theorem index_append_of_not_mem (a : Bytes) (b : UInt8) (r : Bytes) (h : b ∉ a) :
    index (a ++ b :: r) b = some a.length := by
  induction a with
  | nil => simp [index]
  | cons x xs ih =>
    have hx : x ≠ b := fun e => h (by simp [e])
    have hxs : b ∉ xs := fun e => h (by simp [e])
    simp [index, hx, ih hxs]

theorem index_none_of_not_mem (a : Bytes) (b : UInt8) (h : b ∉ a) : index a b = none := by
  induction a with
  | nil => rfl
  | cons x xs ih =>
    have hx : x ≠ b := fun e => h (by simp [e])
    have hxs : b ∉ xs := fun e => h (by simp [e])
    simp [index, hx, ih hxs]

/-- One iteration of the loop of `parseChallenge` on a well-formed pair that
is followed by a comma, or by nothing: the pair enters the map and what follows
the comma remains. -/
theorem parseIter_pair (e : Pair) (hwf : e.WellFormed) (c : StrMap) (rest : Bytes) :
    parseIter (e.render ++ [44] ++ rest) c = some (rest, c.set e.key e.value) ∧
    parseIter e.render c = some ([], c.set e.key e.value) := by
  obtain ⟨hk, hq, hu⟩ := hwf
  cases hquoted : e.quoted with
  | true =>
    have hv := hq hquoted
    have hi1 : ∀ t : Bytes, index (e.key ++ (61 :: (34 :: (e.value ++ 34 :: t)))) 61
        = some e.key.length := fun t => index_append_of_not_mem _ _ _ hk
    have hi2 : ∀ t : Bytes, index (e.value ++ 34 :: t) 34 = some e.value.length :=
      fun t => index_append_of_not_mem _ _ _ hv
    have hd : ∀ t : Bytes, List.drop (e.key.length + 1) (e.key ++ 61 :: t) = t := by
      intro t
      rw [List.drop_append]
      rfl
    have ht : ∀ t : Bytes, List.take e.key.length (e.key ++ t) = e.key :=
      fun t => List.take_left _ _
    have hd2 : ∀ (n : Nat) (t : Bytes), List.drop (e.value.length + (n + 1)) (e.value ++ 34 :: t)
        = List.drop n t := by
      intro n t
      rw [List.drop_append]
      rfl
    constructor
    · simp only [parseIter, Pair.render, hquoted, if_true, List.append_assoc, List.cons_append,
        List.nil_append, hi1, hd, ht]
      simp only [List.length_cons, List.take_succ_cons, List.take_zero, beq_self_eq_true, if_true,
        List.drop_succ_cons, List.drop_zero, hi2, Option.getD_some, List.take_left,
        List.length_append]
      have h1 : ¬ (e.value.length + (rest.length + 1 + 1) + 1 < 1) := by omega
      have h2 : e.value.length + (rest.length + 1 + 1) > e.value.length + 1 := by omega
      simp only [h1, if_false, h2, decide_True, Bool.and_self, if_true, hd2 1 (44 :: rest)]
      rfl
    · simp only [parseIter, Pair.render, hquoted, if_true, List.append_assoc, List.cons_append,
        List.nil_append, hi1, hd, ht]
      simp only [List.length_cons, List.take_succ_cons, List.take_zero, beq_self_eq_true, if_true,
        List.drop_succ_cons, List.drop_zero, hi2, Option.getD_some, List.take_left,
        List.length_append, List.length_nil]
      have h1 : ¬ (e.value.length + (0 + 1) + 1 < 1) := by omega
      have h2 : ¬ (e.value.length + (0 + 1) > e.value.length + 1) := by omega
      have h3 : e.value.length < e.value.length + (0 + 1) := by omega
      simp only [h1, if_false, h2, decide_False, Bool.and_false, Bool.false_eq_true, h3, if_true,
        hd2 0 []]
      rfl
  | false =>
    obtain ⟨hne, hcomma, hhead⟩ := hu hquoted
    obtain ⟨a, v, hav⟩ := List.exists_cons_of_ne_nil hne
    have ha : a ≠ 34 := by
      intro h
      rw [hav, h] at hhead
      exact hhead rfl
    have hi1 : ∀ t : Bytes, index (e.key ++ (61 :: t)) 61 = some e.key.length :=
      fun t => index_append_of_not_mem _ _ _ hk
    have hd : ∀ t : Bytes, List.drop (e.key.length + 1) (e.key ++ 61 :: t) = t := by
      intro t
      rw [List.drop_append]
      rfl
    have ht : ∀ t : Bytes, List.take e.key.length (e.key ++ t) = e.key :=
      fun t => List.take_left _ _
    have hnq : ([a] == ([34] : Bytes)) = false := by
      simp [ha]
    constructor
    · have hi2 : index (e.value ++ 44 :: rest) 44 = some e.value.length :=
        index_append_of_not_mem _ _ _ hcomma
      simp only [parseIter, Pair.render, hquoted, Bool.false_eq_true, if_false, List.append_assoc,
        List.cons_append, List.nil_append, hi1, hd, ht]
      have h1 : ¬ ((e.value ++ 44 :: rest).length < 1) := by
        simp only [List.length_append, List.length_cons]
        omega
      have htake : List.take 1 (e.value ++ 44 :: rest) = [a] := by
        rw [hav]
        rfl
      have h3 : e.value.length < (e.value ++ 44 :: rest).length := by
        simp only [List.length_append, List.length_cons]
        omega
      simp only [h1, if_false, htake, hnq, Bool.false_eq_true, hi2, Option.getD_some,
        Bool.false_and, h3, if_true, List.take_left]
      rw [List.drop_append]
      rfl
    · have hi2 : index e.value 44 = none := index_none_of_not_mem _ _ hcomma
      simp only [parseIter, Pair.render, hquoted, Bool.false_eq_true, if_false, hi1, hd, ht,
        List.append_assoc, List.cons_append, List.nil_append]
      have h1 : ¬ (e.value.length < 1) := by
        rw [hav]
        simp
      have htake : List.take 1 e.value = [a] := by
        rw [hav]
        rfl
      simp only [h1, if_false, htake, hnq, Bool.false_eq_true, hi2, Option.getD_none,
        Bool.false_and, lt_self_iff_false, List.take_length]

theorem StrMap.set_of_not_has (c : StrMap) (k v : Bytes) (h : c.has k = false) :
    c.set k v = c ++ [(k, v)] := by
  simp [StrMap.set, h]

theorem StrMap.has_append_single (c : StrMap) (k v k1 : Bytes) (h : c.has k1 = false)
    (hne : k1 ≠ k) : StrMap.has (c ++ [(k, v)]) k1 = false := by
  have hb : (k1 == k) = false := by simpa using hne
  have hl : c.lookup k1 = none := by
    cases hc : c.lookup k1 with
    | none => rfl
    | some x => simp [StrMap.has, hc] at h
  simp [StrMap.has, List.lookup_append, hl, List.lookup, hb]

theorem Pair.render_length_pos (e : Pair) : 0 < e.render.length := by
  simp [Pair.render]

theorem renderPairs_cons (e : Pair) (es : List Pair) :
    renderPairs (e :: es) = if es = [] then e.render else e.render ++ [44] ++ renderPairs es := by
  cases es with
  | nil => rfl
  | cons e2 es => rfl

/-- The loop of `parseChallenge` on well-formed pairs with distinct keys that
the map does not hold yet: the pairs are added to the map in order. -/
theorem parseLoop_render (l : List Pair) :
    ∀ (c : StrMap) (fuel : Nat), l.length ≤ fuel → (∀ e ∈ l, e.WellFormed) →
      (l.map Pair.key).Nodup → (∀ e ∈ l, c.has e.key = false) →
      parseLoop fuel (renderPairs l) c = .ret (c ++ l.map (fun e => (e.key, e.value))) := by
  induction l with
  | nil =>
    intro c fuel _ _ _ _
    simp [renderPairs, parseLoop_nil]
  | cons e es ih =>
    intro c fuel hfuel hwf hnd hnew
    obtain ⟨f, rfl⟩ : ∃ f, fuel = f + 1 := ⟨fuel - 1, by simp at hfuel; omega⟩
    have hwfe := hwf e (List.mem_cons_self _ _)
    have hset := StrMap.set_of_not_has c e.key e.value (hnew e (List.mem_cons_self _ _))
    simp only [List.map_cons, List.nodup_cons] at hnd
    have hnew1 : ∀ e1 ∈ es, StrMap.has (c ++ [(e.key, e.value)]) e1.key = false := by
      intro e1 he1
      apply StrMap.has_append_single _ _ _ _ (hnew e1 (List.mem_cons_of_mem _ he1))
      intro heq
      exact hnd.1 (heq ▸ List.mem_map_of_mem Pair.key he1)
    have hrec := ih (c ++ [(e.key, e.value)]) f (by simp at hfuel; omega)
      (fun e1 he1 => hwf e1 (List.mem_cons_of_mem _ he1)) hnd.2 hnew1
    rw [parseLoop_succ, renderPairs_cons]
    by_cases hes : es = []
    · subst hes
      have hpos : e.render.length > 0 := e.render_length_pos
      simp only [if_true, hpos, (parseIter_pair e hwfe c []).2, hset]
      simp [parseLoop_nil]
    · have hpos : (e.render ++ [44] ++ renderPairs es).length > 0 := by
        simp only [List.length_append]
        have := e.render_length_pos
        omega
      simp only [hes, if_false, hpos, if_true, (parseIter_pair e hwfe c (renderPairs es)).1, hset]
      simp [hrec]

theorem renderPairs_length (l : List Pair) : l.length ≤ (renderPairs l).length := by
  induction l with
  | nil => simp
  | cons e es ih =>
    rw [renderPairs_cons]
    have := e.render_length_pos
    split
    · rename_i h
      subst h
      simp only [List.length_singleton]
      omega
    · simp only [List.length_append, List.length_cons, List.length_singleton]
      omega

theorem StrMap.lookup_of_nodup (l : List Pair) (hnd : (l.map Pair.key).Nodup) :
    ∀ e ∈ l, (l.map (fun e => (e.key, e.value))).lookup e.key = some e.value := by
  induction l with
  | nil =>
    intro e he
    exact absurd he (List.not_mem_nil e)
  | cons a l ih =>
    intro e he
    simp only [List.map_cons, List.nodup_cons] at hnd
    rcases List.mem_cons.mp he with h | h
    · subst h
      simp [List.lookup]
    · have hne : (e.key == a.key) = false := by
        have : e.key ≠ a.key := fun heq => hnd.1 (heq ▸ List.mem_map_of_mem Pair.key h)
        simpa using this
      simp only [List.map_cons, List.lookup, hne]
      exact ih hnd.2 e h

theorem StrMap.lookup_none_of_not_mem (l : List Pair) (k : Bytes) (h : k ∉ l.map Pair.key) :
    (l.map (fun e => (e.key, e.value))).lookup k = none := by
  induction l with
  | nil => rfl
  | cons a l ih =>
    simp only [List.map_cons, List.mem_cons, not_or] at h
    have hne : (k == a.key) = false := by simpa using h.1
    simp only [List.map_cons, List.lookup, hne]
    exact ih h.2

theorem UInt8.ofNat_toNat_self (a : UInt8) : UInt8.ofNat a.toNat = a := by
  cases a with
  | mk v => simp [UInt8.ofNat, UInt8.toNat]

theorem UInt8.and_comm_of (a b : UInt8) : a &&& b = b &&& a := by
  cases a
  cases b
  simp only [HAnd.hAnd, AndOp.and, UInt8.land]
  congr 1
  exact BitVec.and_comm _ _

theorem UInt8.and_assoc_of (a b c : UInt8) : a &&& b &&& c = a &&& (b &&& c) := by
  cases a
  cases b
  cases c
  simp only [HAnd.hAnd, AndOp.and, UInt8.land]
  congr 1
  exact BitVec.and_assoc _ _ _

/-- The byte `selectQop` works on is the conjunction of the three masks in any order. -/
theorem availableQops_eq (b s u : UInt8) : u &&& s &&& b = b &&& s &&& u := by
  rw [UInt8.and_comm_of (u &&& s) b, UInt8.and_comm_of u s, UInt8.and_assoc_of]

set_option maxRecDepth 100000 in
/-- The choice `selectQop` makes, by the three low bits of the available byte. -/
theorem find_qop (a : UInt8) :
    [(4 : UInt8), 2, 1].find? (fun qop => qop &&& a != 0) =
      if a.toNat.testBit 2 then some 4
      else if a.toNat.testBit 1 then some 2
      else if a.toNat.testBit 0 then some 1
      else none := by
  have h : ∀ n : Fin 256,
      [(4 : UInt8), 2, 1].find? (fun qop => qop &&& UInt8.ofNat n.val != 0) =
        if (UInt8.ofNat n.val).toNat.testBit 2 then some 4
        else if (UInt8.ofNat n.val).toNat.testBit 1 then some 2
        else if (UInt8.ofNat n.val).toNat.testBit 0 then some 1
        else none := by
    decide
  have := h ⟨a.toNat, UInt8.toNat_lt a⟩
  simpa only [UInt8.ofNat_toNat_self] using this

set_option maxRecDepth 100000 in
theorem find_qop_none (a : UInt8) (h : a &&& 7 = 0) :
    [(4 : UInt8), 2, 1].find? (fun qop => qop &&& a != 0) = none := by
  have hall : ∀ n : Fin 256, UInt8.ofNat n.val &&& 7 = 0 →
      [(4 : UInt8), 2, 1].find? (fun qop => qop &&& UInt8.ofNat n.val != 0) = none := by
    decide
  have := hall ⟨a.toNat, UInt8.toNat_lt a⟩
  simp only [UInt8.ofNat_toNat_self] at this
  exact this h

theorem QOP_TO_FLAG_values :
    QOP_TO_FLAG AUTH_CONF = 4 ∧ QOP_TO_FLAG AUTH_INT = 2 ∧ QOP_TO_FLAG AUTH = 1 := by
  decide

/-- The security-layer leg of GSSAPI, when the challenge unwraps to four
bytes: what the mechanism records, what it hands to the external wrap and what
it returns. -/
theorem GSSAPI_stage2 (lib : GssLib) (m : GSSAPIMechanism) (ch d : Bytes)
    (hstage : m.negotiationStage = 2)
    (hun : lib.unwrap m.context.contextId ch = (d, none)) (hlen : d.length = 4) :
    m.step lib (some ch) =
      .ret (⟨(GSSAPIContext.wrap lib { m.context with log := m.context.log ++ [.unwrap ch] }
            (some (putUint32 (uint32 (((m.selectQop (d.getD 0 0)).1.toNat <<< 24) |||
                GSSAPIMechanism.uintOfInt
                  (if (if (m.selectQop (d.getD 0 0)).2 ≠ none then 0 else m.MaxLength)
                      < ((beUint32 (d.set 0 0) : Nat) : Int)
                    then (if (m.selectQop (d.getD 0 0)).2 ≠ none then 0 else m.MaxLength)
                    else ((beUint32 (d.set 0 0) : Nat) : Int)))) ++
              (if m.config.AuthorizationID ≠ [] then m.config.AuthorizationID else m.user)))
            false).1,
          (GSSAPIContext.wrap lib { m.context with log := m.context.log ++ [.unwrap ch] }
            (some (putUint32 (uint32 (((m.selectQop (d.getD 0 0)).1.toNat <<< 24) |||
                GSSAPIMechanism.uintOfInt
                  (if (if (m.selectQop (d.getD 0 0)).2 ≠ none then 0 else m.MaxLength)
                      < ((beUint32 (d.set 0 0) : Nat) : Int)
                    then (if (m.selectQop (d.getD 0 0)).2 ≠ none then 0 else m.MaxLength)
                    else ((beUint32 (d.set 0 0) : Nat) : Int)))) ++
              (if m.config.AuthorizationID ≠ [] then m.config.AuthorizationID else m.user)))
            false).2.1⟩,
        { m with
          context :=
            (GSSAPIContext.wrap lib { m.context with log := m.context.log ++ [.unwrap ch] }
              (some (putUint32 (uint32 (((m.selectQop (d.getD 0 0)).1.toNat <<< 24) |||
                  GSSAPIMechanism.uintOfInt
                    (if (if (m.selectQop (d.getD 0 0)).2 ≠ none then 0 else m.MaxLength)
                        < ((beUint32 (d.set 0 0) : Nat) : Int)
                      then (if (m.selectQop (d.getD 0 0)).2 ≠ none then 0 else m.MaxLength)
                      else ((beUint32 (d.set 0 0) : Nat) : Int)))) ++
                (if m.config.AuthorizationID ≠ [] then m.config.AuthorizationID else m.user)))
              false).2.2
          serverMaxLength := ((beUint32 (d.set 0 0) : Nat) : Int)
          qop := (m.selectQop (d.getD 0 0)).1
          MaxLength := if (m.selectQop (d.getD 0 0)).2 ≠ none then 0 else m.MaxLength
          config := { m.config with complete := true } }) := by
  have h0 : ¬ ((2 : Int) = 0) := by decide
  have h1 : ¬ ((2 : Int) = 1) := by decide
  have hl : ¬ (d.length ≠ 4) := by simp [hlen]
  simp only [GSSAPIMechanism.step, hstage, h0, h1, if_false, if_true, GSSAPIContext.unwrap, hun,
    Option.getD_some, hl, GSSAPIMechanism.selectQop]
  by_cases hq : ([QOP_TO_FLAG AUTH_CONF, QOP_TO_FLAG AUTH_INT, QOP_TO_FLAG AUTH].find?
      (fun qop => qop &&& (m.UserSelectQop &&& m.supportedQop &&& d.getD 0 0) != 0)) = none
  · simp only [hq, ne_eq, not_true_eq_false, not_false_eq_true, if_true, reduceCtorEq]
  · obtain ⟨q, hq1⟩ := Option.ne_none_iff_exists'.mp hq
    simp only [hq1, ne_eq, not_true_eq_false, if_false]

theorem GSSAPIContext.wrap_some (lib : GssLib) (c : GSSAPIContext) (o : Bytes) (f : Bool) :
    (GSSAPIContext.wrap lib c (some o) f).2.2 = { c with log := c.log ++ [.wrap f o] } ∧
    (GSSAPIContext.wrap lib c (some o) f).2.1 = (lib.wrap c.contextId f o).2 := by
  unfold GSSAPIContext.wrap
  dsimp only
  rcases h : lib.wrap c.contextId f o with ⟨b, _ | e⟩ <;> exact ⟨rfl, rfl⟩

theorem list_of_length_four (d : Bytes) (h : d.length = 4) :
    ∃ a b c e, d = [a, b, c, e] := by
  match d, h with
  | [a, b, c, e], _ => exact ⟨a, b, c, e, rfl⟩

/-- The four bytes of the challenge with the first one cleared, read as a
big-endian number: the low twenty-four bits of the challenge. -/
theorem beUint32_clear_first (d : Bytes) (h : d.length = 4) :
    beUint32 (d.set 0 0) = beUint32 d % 2 ^ 24 ∧ beUint32 (d.set 0 0) < 2 ^ 24 := by
  obtain ⟨a, b, c, e, rfl⟩ := list_of_length_four d h
  have hb := UInt8.toNat_lt b
  have hc := UInt8.toNat_lt c
  have he := UInt8.toNat_lt e
  have h0 : (0 : UInt8).toNat = 0 := rfl
  simp only [beUint32, List.set_cons_zero, List.getD_cons_zero, List.getD_cons_succ, h0]
  constructor <;> omega

/-- Packing a flag byte above a length below `2 ^ 24`, as `step` does it. -/
theorem header_pack (q : UInt8) (x : Int) (h0 : 0 ≤ x) (h24 : x < 2 ^ 24) :
    uint32 ((q.toNat <<< 24) ||| GSSAPIMechanism.uintOfInt x) = q.toNat * 2 ^ 24 + x.toNat ∧
    q.toNat * 2 ^ 24 + x.toNat < 2 ^ 32 := by
  have hq := UInt8.toNat_lt q
  have hx : GSSAPIMechanism.uintOfInt x = x.toNat := by
    unfold GSSAPIMechanism.uintOfInt
    rw [Int.emod_eq_of_lt h0 (by omega)]
  have hlt : x.toNat < 2 ^ 24 := by omega
  have hor : (q.toNat <<< 24) ||| x.toNat = q.toNat * 2 ^ 24 + x.toNat := by
    rw [Nat.shiftLeft_eq, Nat.mul_comm]
    exact (Nat.mul_add_lt_is_or hlt q.toNat).symm
  have hbound : q.toNat * 2 ^ 24 + x.toNat < 2 ^ 32 := by omega
  rw [hx, hor]
  exact ⟨uint32_of_lt _ hbound, hbound⟩

/-- The header `putUint32 (q * 2 ^ 24 + x)` has the flag byte on top and `x` below. -/
theorem header_fields (q : UInt8) (x : Nat) (h24 : x < 2 ^ 24) :
    (putUint32 (q.toNat * 2 ^ 24 + x)).length = 4 ∧
    (putUint32 (q.toNat * 2 ^ 24 + x)).getD 0 0 = q ∧
    beUint32 (putUint32 (q.toNat * 2 ^ 24 + x)) % 2 ^ 24 = x := by
  have hq := UInt8.toNat_lt q
  refine ⟨rfl, ?_, ?_⟩
  · have : (q.toNat * 2 ^ 24 + x) / 2 ^ 24 % 256 = q.toNat := by omega
    simp only [putUint32, List.getD_cons_zero, this, UInt8.ofNat_toNat_self]
  · rw [beUint32_putUint32 _ (by omega)]
    omega

theorem GSSAPI_step_fullServiceName (lib : GssLib) (m : GSSAPIMechanism) :
    (if lib.serviceHostQualified.length = 0 then
        m.service ++ ascii "/" ++ lib.serviceHostQualified ++ m.host
      else m.service ++ ascii "/" ++ lib.serviceHostQualified) = m.fullServiceName lib := rfl

set_option maxRecDepth 100000 in
theorem UInt8.bits_and (a : UInt8) :
    (a.toNat.testBit 2 = true ↔ a &&& 4 ≠ 0) ∧ (a.toNat.testBit 1 = true ↔ a &&& 2 ≠ 0) ∧
    (a.toNat.testBit 0 = true ↔ a &&& 1 ≠ 0) ∧
    (a &&& 7 = 0 ↔ a &&& 4 = 0 ∧ a &&& 2 = 0 ∧ a &&& 1 = 0) := by
  have hall : ∀ n : Fin 256,
      ((UInt8.ofNat n.val).toNat.testBit 2 = true ↔ UInt8.ofNat n.val &&& 4 ≠ 0) ∧
      ((UInt8.ofNat n.val).toNat.testBit 1 = true ↔ UInt8.ofNat n.val &&& 2 ≠ 0) ∧
      ((UInt8.ofNat n.val).toNat.testBit 0 = true ↔ UInt8.ofNat n.val &&& 1 ≠ 0) ∧
      (UInt8.ofNat n.val &&& 7 = 0 ↔
        UInt8.ofNat n.val &&& 4 = 0 ∧ UInt8.ofNat n.val &&& 2 = 0 ∧ UInt8.ofNat n.val &&& 1 = 0) := by
    decide
  have := hall ⟨a.toNat, UInt8.toNat_lt a⟩
  simpa only [UInt8.ofNat_toNat_self] using this

/-- The result of `selectQop` by the flags present in the conjunction of the
advertised byte with the two masks of the mechanism. -/
theorem selectQop_and (m : GSSAPIMechanism) (B : UInt8) :
    m.selectQop B =
      if B &&& m.supportedQop &&& m.UserSelectQop &&& 4 ≠ 0 then (4, none)
      else if B &&& m.supportedQop &&& m.UserSelectQop &&& 2 ≠ 0 then (2, none)
      else if B &&& m.supportedQop &&& m.UserSelectQop &&& 1 ≠ 0 then (1, none)
      else (0, some (.mech "no qop available")) := by
  obtain ⟨h4, h2, h1, -⟩ := UInt8.bits_and (B &&& m.supportedQop &&& m.UserSelectQop)
  obtain ⟨e4, e2, e1⟩ := QOP_TO_FLAG_values
  unfold GSSAPIMechanism.selectQop
  simp only [e4, e2, e1, availableQops_eq, find_qop]
  by_cases c4 : (B &&& m.supportedQop &&& m.UserSelectQop).toNat.testBit 2 = true
  · rw [if_pos c4, if_pos (h4.mp c4)]
  · rw [if_neg c4, if_neg (fun h => c4 (h4.mpr h))]
    by_cases c2 : (B &&& m.supportedQop &&& m.UserSelectQop).toNat.testBit 1 = true
    · rw [if_pos c2, if_pos (h2.mp c2)]
    · rw [if_neg c2, if_neg (fun h => c2 (h2.mpr h))]
      by_cases c1 : (B &&& m.supportedQop &&& m.UserSelectQop).toNat.testBit 0 = true
      · rw [if_pos c1, if_pos (h1.mp c1)]
      · rw [if_neg c1, if_neg (fun h => c1 (h1.mpr h))]

theorem selectQop_none (m : GSSAPIMechanism) (B : UInt8)
    (h : B &&& m.supportedQop &&& m.UserSelectQop &&& 7 = 0) :
    m.selectQop B = (0, some (.mech "no qop available")) := by
  obtain ⟨-, -, -, h7⟩ := UInt8.bits_and (B &&& m.supportedQop &&& m.UserSelectQop)
  obtain ⟨a4, a2, a1⟩ := h7.mp h
  rw [selectQop_and, if_neg (fun c => c a4), if_neg (fun c => c a2), if_neg (fun c => c a1)]

theorem selectQop_some (m : GSSAPIMechanism) (B : UInt8)
    (h : B &&& m.supportedQop &&& m.UserSelectQop &&& 7 ≠ 0) :
    (m.selectQop B).2 = none := by
  obtain ⟨-, -, -, h7⟩ := UInt8.bits_and (B &&& m.supportedQop &&& m.UserSelectQop)
  rw [selectQop_and]
  by_cases c4 : B &&& m.supportedQop &&& m.UserSelectQop &&& 4 ≠ 0
  · rw [if_pos c4]
  · rw [if_neg c4]
    by_cases c2 : B &&& m.supportedQop &&& m.UserSelectQop &&& 2 ≠ 0
    · rw [if_pos c2]
    · rw [if_neg c2]
      by_cases c1 : B &&& m.supportedQop &&& m.UserSelectQop &&& 1 ≠ 0
      · rw [if_pos c1]
      · exact absurd (h7.mpr ⟨not_not.mp c4, not_not.mp c2, not_not.mp c1⟩) h

theorem fullServiceName_ne_nil (lib : GssLib) (m : GSSAPIMechanism) :
    m.fullServiceName lib ≠ [] := by
  have hs : ascii "/" = [47] := by decide
  unfold GSSAPIMechanism.fullServiceName
  split <;> simp [hs]

/-- The context-establishment leg of GSSAPI after the first call, when the
external calls succeed: the token of `InitSecContext` is returned, and the
stage moves to 2 only for a mechanism with a user name. -/
theorem GSSAPI_stage1 (lib : GssLib) (m : GSSAPIMechanism) (challenge : Option Bytes)
    (hstage : m.negotiationStage = 1)
    (hbuf : ∀ t, challenge = some t → lib.makeBufferBytes t = none)
    (hname : lib.prepareName (m.fullServiceName lib) = true)
    (hinit : (lib.initSecContext m.context.contextId (m.fullServiceName lib)
      m.context.reqFlags challenge).err = none) :
    m.step lib challenge =
      .ret (⟨(lib.initSecContext m.context.contextId (m.fullServiceName lib)
            m.context.reqFlags challenge).token, none⟩,
        { m with
          context :=
            { m.context with
              ServiceName := m.fullServiceName lib
              log := m.context.log ++ [GssEvent.initSecContext (m.fullServiceName lib) challenge]
              token := (lib.initSecContext m.context.contextId (m.fullServiceName lib)
                m.context.reqFlags challenge).token
              contextId := (lib.initSecContext m.context.contextId (m.fullServiceName lib)
                m.context.reqFlags challenge).contextId
              availFlags := (lib.initSecContext m.context.contextId (m.fullServiceName lib)
                m.context.reqFlags challenge).outFlags }
          negotiationStage := if m.user = [] then 1 else 2 }) := by
  have h0 : ¬ ((1 : Int) = 0) := by decide
  have hne := fullServiceName_ne_nil lib m
  have herr : (match challenge with
      | some t => lib.makeBufferBytes t
      | none => none) = none := by
    cases challenge with
    | none => rfl
    | some t => exact hbuf t rfl
  simp only [GSSAPIMechanism.step, hstage, h0, if_false, if_true, GSSAPI_step_fullServiceName,
    initClientContext, herr, hname, hinit, hne, decide_False, Bool.not_true, Bool.or_self,
    Bool.false_eq_true]
  by_cases hu : m.user = []
  · simp only [hu, if_true]
  · simp only [hu, if_false]

theorem GSSAPIContext.wrap_token (lib : GssLib) (c : GSSAPIContext) (o : Bytes) (f : Bool) :
    (GSSAPIContext.wrap lib c (some o) f).1 =
      if (lib.wrap c.contextId f o).2 = none then some (lib.wrap c.contextId f o).1 else none := by
  unfold GSSAPIContext.wrap
  dsimp only
  rcases h : lib.wrap c.contextId f o with ⟨b, _ | e⟩
  · rfl
  · simp

theorem if_lt_eq_min (a b : Int) : (if a < b then a else b) = min a b := by
  rw [min_def]
  split_ifs <;> omega

/-- The security-layer leg of GSSAPI with the header worked out: the flag byte
times `2 ^ 24` plus the smaller of the two lengths, the own length counting as
zero when no flag was selected. -/
theorem GSSAPI_stage2_packed (lib : GssLib) (m : GSSAPIMechanism) (ch d : Bytes)
    (hstage : m.negotiationStage = 2)
    (hun : lib.unwrap m.context.contextId ch = (d, none)) (hlen : d.length = 4)
    (hML : ¬ (d.getD 0 0 &&& m.supportedQop &&& m.UserSelectQop &&& 7 = 0) → 0 ≤ m.MaxLength) :
    m.step lib (some ch) =
      .ret (⟨if (lib.wrap m.context.contextId false
              (putUint32 ((m.selectQop (d.getD 0 0)).1.toNat * 2 ^ 24 +
                (min (if d.getD 0 0 &&& m.supportedQop &&& m.UserSelectQop &&& 7 = 0 then 0
                    else m.MaxLength) ((beUint32 (d.set 0 0) : Nat) : Int)).toNat) ++
              (if m.config.AuthorizationID ≠ [] then m.config.AuthorizationID else m.user))).2 = none
            then some (lib.wrap m.context.contextId false
              (putUint32 ((m.selectQop (d.getD 0 0)).1.toNat * 2 ^ 24 +
                (min (if d.getD 0 0 &&& m.supportedQop &&& m.UserSelectQop &&& 7 = 0 then 0
                    else m.MaxLength) ((beUint32 (d.set 0 0) : Nat) : Int)).toNat) ++
              (if m.config.AuthorizationID ≠ [] then m.config.AuthorizationID else m.user))).1
            else none,
          (lib.wrap m.context.contextId false
              (putUint32 ((m.selectQop (d.getD 0 0)).1.toNat * 2 ^ 24 +
                (min (if d.getD 0 0 &&& m.supportedQop &&& m.UserSelectQop &&& 7 = 0 then 0
                    else m.MaxLength) ((beUint32 (d.set 0 0) : Nat) : Int)).toNat) ++
              (if m.config.AuthorizationID ≠ [] then m.config.AuthorizationID else m.user))).2⟩,
        { m with
          context :=
            { m.context with
              log := m.context.log ++ [.unwrap ch, .wrap false
              (putUint32 ((m.selectQop (d.getD 0 0)).1.toNat * 2 ^ 24 +
                (min (if d.getD 0 0 &&& m.supportedQop &&& m.UserSelectQop &&& 7 = 0 then 0
                    else m.MaxLength) ((beUint32 (d.set 0 0) : Nat) : Int)).toNat) ++
              (if m.config.AuthorizationID ≠ [] then m.config.AuthorizationID else m.user))] }
          serverMaxLength := ((beUint32 (d.set 0 0) : Nat) : Int)
          qop := (m.selectQop (d.getD 0 0)).1
          MaxLength := (if d.getD 0 0 &&& m.supportedQop &&& m.UserSelectQop &&& 7 = 0 then 0 else m.MaxLength)
          config := { m.config with complete := true } }) := by
  rw [GSSAPI_stage2 lib m ch d hstage hun hlen]
  have hif : (if (m.selectQop (d.getD 0 0)).2 ≠ none then (0 : Int) else m.MaxLength) =
      (if d.getD 0 0 &&& m.supportedQop &&& m.UserSelectQop &&& 7 = 0 then 0 else m.MaxLength) := by
    by_cases hno : d.getD 0 0 &&& m.supportedQop &&& m.UserSelectQop &&& 7 = 0
    · rw [selectQop_none m _ hno, if_pos hno]
      rfl
    · rw [if_neg hno, selectQop_some m _ hno]
      rfl
  have hsrv := (beUint32_clear_first d hlen).2
  have h0 : 0 ≤ min (if d.getD 0 0 &&& m.supportedQop &&& m.UserSelectQop &&& 7 = 0 then 0
        else m.MaxLength) ((beUint32 (d.set 0 0) : Nat) : Int) := by
    apply le_min
    · by_cases hno : d.getD 0 0 &&& m.supportedQop &&& m.UserSelectQop &&& 7 = 0
      · rw [if_pos hno]
      · rw [if_neg hno]
        exact hML hno
    · exact Int.ofNat_nonneg _
  have h24 : min (if d.getD 0 0 &&& m.supportedQop &&& m.UserSelectQop &&& 7 = 0 then 0
        else m.MaxLength) ((beUint32 (d.set 0 0) : Nat) : Int) < 2 ^ 24 := by
    apply lt_of_le_of_lt (min_le_right _ _)
    exact_mod_cast hsrv
  have hpack := (header_pack (m.selectQop (d.getD 0 0)).1 _ h0 h24).1
  rw [hif, if_lt_eq_min, hpack]
  simp only [GSSAPIContext.wrap_token, (GSSAPIContext.wrap_some _ _ _ _).1,
    (GSSAPIContext.wrap_some _ _ _ _).2, List.append_assoc, List.singleton_append]

theorem beUint32_lt (b : Bytes) : beUint32 b < 2 ^ 32 := by
  have h0 := UInt8.toNat_lt (b.getD 0 0)
  have h1 := UInt8.toNat_lt (b.getD 1 0)
  have h2 := UInt8.toNat_lt (b.getD 2 0)
  have h3 := UInt8.toNat_lt (b.getD 3 0)
  unfold beUint32
  omega

/-- A successful `io.ReadFull` fills the whole buffer. -/
theorem ReadFull_length (tp : TTransport) (n : Nat) (h : (tp.ReadFull n).2.1 = none) :
    (tp.ReadFull n).1.length = n := by
  unfold TTransport.ReadFull at h ⊢
  by_cases hn : n ≤ tp.input.length
  · simp only [hn, if_true, List.length_take]
    omega
  · simp only [hn, if_false] at h
    exact absurd h (by simp)

/-- The tail of `Read` keeps the accounting when no raw bytes are outstanding. -/
theorem deliver_accounted (t : TSaslTransport σ) (plen : Nat)
    (hfs : t.frameSize = t.readBuf.length) (hraw : t.rawFrameSize = 0) :
    (TSaslTransport.deliver t plen).t.Accounted := by
  unfold TSaslTransport.deliver bufferRead TSaslTransport.Accounted
  cases hb : t.readBuf with
  | nil =>
    rw [hb] at hfs
    by_cases hp : plen = 0 <;> simp [hp, hfs, hraw]
  | cons a l =>
    rw [hb] at hfs
    have harith : t.frameSize - (((a :: l).take plen).length : Nat) =
        (((a :: l).drop plen).length : Nat) := by
      rw [hfs, List.length_take, List.length_drop]
      omega
    have hnn2 : ¬ ((((a :: l).drop plen).length : Int) < 0) := by omega
    simp only [List.isEmpty_cons, Bool.false_eq_true, if_false, harith, hraw, hnn2]
    simp

/-- A `Read` entered with raw bytes outstanding keeps the accounting. -/
theorem Read_body_accounted (M : Mechanism σ) (t : TSaslTransport σ) (plen : Nat)
    (h : t.Accounted) (hpos : 0 < t.rawFrameSize) :
    (TSaslTransport.Read M t plen).t.Accounted := by
  obtain ⟨hfs, hraw, hlt⟩ := h
  have hbuf := hraw hpos
  have hc : ¬ (t.rawFrameSize = 0 ∧ t.frameSize = 0) := fun c => by omega
  have hlen := ReadFull_length t.tp t.rawFrameSize
  unfold TSaslTransport.Read
  simp only [hc, if_false, hpos, gt_iff_lt, if_true]
  rcases hr : t.tp.ReadFull t.rawFrameSize with ⟨rawBuf, err, tp1⟩
  rw [hr] at hlen
  cases err with
  | some e => exact ⟨hfs, hraw, hlt⟩
  | none =>
    have hl : rawBuf.length = t.rawFrameSize := hlen rfl
    have hz : (t.rawFrameSize + 2 ^ 32 - uint32 rawBuf.length) % 2 ^ 32 = 0 := by
      rw [hl]
      unfold uint32
      rw [Nat.mod_eq_of_lt hlt]
      omega
    dsimp only
    rw [hz]
    rcases hd : Client.Decode M t.saslClient rawBuf with ⟨r, c⟩
    dsimp only
    cases hre : r.err with
    | some e =>
      dsimp only
      exact ⟨hfs, fun h0 => absurd h0 (Nat.lt_irrefl 0), Nat.two_pow_pos 32⟩
    | none =>
      dsimp only
      apply deliver_accounted
      · simp [hbuf]
      · rfl

/-- Every call of `Read` keeps the read-side accounting, whatever the
underlying stream delivers and whatever the mechanism decodes. -/
theorem Read_accounted (M : Mechanism σ) (t : TSaslTransport σ) (plen : Nat)
    (h : t.Accounted) : (TSaslTransport.Read M t plen).t.Accounted := by
  by_cases hpos : 0 < t.rawFrameSize
  · exact Read_body_accounted M t plen h hpos
  · have hraw0 : t.rawFrameSize = 0 := by omega
    obtain ⟨hfs, hraw, hlt⟩ := h
    by_cases hf0 : t.frameSize = 0
    · have hbuf : t.readBuf = [] := by
        have h0 : (t.readBuf.length : Int) = 0 := by
          rw [← hfs]
          exact hf0
        exact List.length_eq_zero.mp (by exact_mod_cast h0)
      have hc : (t.rawFrameSize = 0 ∧ t.frameSize = 0) = True := eq_true ⟨hraw0, hf0⟩
      rcases hr : t.tp.ReadFull 4 with ⟨buf, err, tp1⟩
      cases err with
      | some e =>
        simp only [TSaslTransport.Read, TSaslTransport.readFrameHeader, hc, if_true, hr]
        exact ⟨hfs, fun h0 => absurd h0 (Nat.lt_irrefl 0), Nat.two_pow_pos 32⟩
      | none =>
        by_cases hsz : beUint32 buf > t.maxLength
        · simp only [TSaslTransport.Read, TSaslTransport.readFrameHeader, hc, if_true,
            hr, hsz]
          exact ⟨hfs, fun h0 => absurd h0 (Nat.lt_irrefl 0), Nat.two_pow_pos 32⟩
        · by_cases hp : 0 < beUint32 buf
          · have hc2 : (beUint32 buf = 0 ∧ t.frameSize = 0) = False :=
              eq_false (fun c => by omega)
            have heq : TSaslTransport.Read M t plen =
                TSaslTransport.Read M { t with tp := tp1, rawFrameSize := beUint32 buf } plen := by
              simp only [TSaslTransport.Read, TSaslTransport.readFrameHeader, hc, and_self,
                if_true, hr, hsz, if_false, hc2]
            rw [heq]
            exact Read_body_accounted M _ plen ⟨hfs, fun _ => hbuf, beUint32_lt buf⟩ hp
          · have hz : beUint32 buf = 0 := by omega
            have hnp : ¬ ((0 : Nat) > 0) := Nat.lt_irrefl 0
            simp only [TSaslTransport.Read, TSaslTransport.readFrameHeader, hc, if_true,
              hr, hsz, if_false, hz, hnp]
            exact deliver_accounted _ plen hfs rfl
    · rw [Read_eq_deliver M t plen hraw0 hf0]
      exact deliver_accounted t plen hfs hraw0

/-- The accounting holds after every sequence of calls of `Read` that starts
from a transport on which it holds. -/
theorem readsOver_accounted (M : Mechanism σ) (calls : List (TTransport × Nat)) :
    ∀ t : TSaslTransport σ, t.Accounted → (TSaslTransport.readsOver M t calls).Accounted := by
  induction calls with
  | nil => exact fun t h => h
  | cons c cs ih =>
    intro t h
    obtain ⟨tp, k⟩ := c
    exact ih _ (Read_accounted M { t with tp := tp } k h)

/-- The branch `Negative frame size` of the tail of `Read` is the one that
leaves a negative `frameSize` behind. -/
theorem deliver_negative_iff (t : TSaslTransport σ) (plen : Nat) :
    (TSaslTransport.deliver t plen).t.frameSize < 0 ↔
      (TSaslTransport.deliver t plen).err =
        some (.transport UNKNOWN_TRANSPORT_EXCEPTION "Negative frame size") := by
  unfold TSaslTransport.deliver
  dsimp only
  by_cases hneg : t.frameSize - ((bufferRead t.readBuf plen).1.length : Nat) < 0
  · simp only [hneg, if_true]
  · simp only [hneg, if_false, false_iff]
    unfold bufferRead
    by_cases hb : t.readBuf.isEmpty = true
    · by_cases hp : plen = 0 <;>
        simp [hb, hp, newTTransportExceptionFromError, END_OF_FILE, UNKNOWN_TRANSPORT_EXCEPTION]
    · simp [hb, newTTransportExceptionFromError]

/-- On a state whose `frameSize` is the length of the read buffer, the tail of
`Read` finds `frameSize` non-negative after the subtraction and returns by its
last line. -/
theorem deliver_last_line (s : TSaslTransport σ) (plen : Nat)
    (hfs : s.frameSize = s.readBuf.length) :
    0 ≤ s.frameSize - ((bufferRead s.readBuf plen).1.length : Nat) ∧
    TSaslTransport.deliver s plen =
      ⟨(bufferRead s.readBuf plen).1,
        newTTransportExceptionFromError (bufferRead s.readBuf plen).2.1,
        { s with
          readBuf := (bufferRead s.readBuf plen).2.2
          frameSize := s.frameSize - ((bufferRead s.readBuf plen).1.length : Nat) }⟩ := by
  have hle : (bufferRead s.readBuf plen).1.length ≤ s.readBuf.length := by
    unfold bufferRead
    by_cases hb : s.readBuf.isEmpty = true
    · by_cases hp : plen = 0 <;> simp [hb, hp]
    · simp only [hb, Bool.false_eq_true, if_false, List.length_take]
      omega
  have hnn : 0 ≤ s.frameSize - ((bufferRead s.readBuf plen).1.length : Nat) := by
    rw [hfs]
    omega
  refine ⟨hnn, ?_⟩
  unfold TSaslTransport.deliver
  dsimp only
  rw [if_neg (not_lt.mpr hnn)]

/-- How a call of `Read` entered with raw bytes outstanding ends: with an error
before the read buffer is touched, or by the tail run on a state whose
`frameSize` is the length of the read buffer. -/
theorem Read_body_ends (M : Mechanism σ) (t : TSaslTransport σ) (plen : Nat)
    (h : t.Accounted) (hpos : 0 < t.rawFrameSize) :
    ((TSaslTransport.Read M t plen).data = [] ∧ (TSaslTransport.Read M t plen).err ≠ none ∧
      (TSaslTransport.Read M t plen).t.frameSize = t.frameSize ∧
      (TSaslTransport.Read M t plen).t.readBuf = t.readBuf) ∨
    (∃ s : TSaslTransport σ, s.frameSize = s.readBuf.length ∧
      TSaslTransport.Read M t plen = TSaslTransport.deliver s plen) := by
  obtain ⟨hfs, hraw, hlt⟩ := h
  have hbuf := hraw hpos
  have hc : ¬ (t.rawFrameSize = 0 ∧ t.frameSize = 0) := fun c => by omega
  unfold TSaslTransport.Read
  simp only [hc, if_false, hpos, gt_iff_lt, if_true]
  rcases hr : t.tp.ReadFull t.rawFrameSize with ⟨rawBuf, err, tp1⟩
  cases err with
  | some e => exact Or.inl ⟨rfl, by simp, rfl, rfl⟩
  | none =>
    dsimp only
    rcases hd : Client.Decode M t.saslClient rawBuf with ⟨r, c⟩
    dsimp only
    cases hre : r.err with
    | some e =>
      dsimp only
      exact Or.inl ⟨rfl, by simp, rfl, rfl⟩
    | none =>
      dsimp only
      exact Or.inr ⟨_, by simp [hbuf], rfl⟩

/-- How a call of `Read` ends on a transport whose read side is accounted for:
with an error before the read buffer is touched, leaving `frameSize` and the
buffer as they were, or by the tail run on a state whose `frameSize` is the
length of the read buffer. -/
theorem Read_ends (M : Mechanism σ) (t : TSaslTransport σ) (plen : Nat)
    (h : t.Accounted) :
    ((TSaslTransport.Read M t plen).data = [] ∧ (TSaslTransport.Read M t plen).err ≠ none ∧
      (TSaslTransport.Read M t plen).t.frameSize = t.frameSize ∧
      (TSaslTransport.Read M t plen).t.readBuf = t.readBuf) ∨
    (∃ s : TSaslTransport σ, s.frameSize = s.readBuf.length ∧
      TSaslTransport.Read M t plen = TSaslTransport.deliver s plen) := by
  by_cases hpos : 0 < t.rawFrameSize
  · exact Read_body_ends M t plen h hpos
  · have hraw0 : t.rawFrameSize = 0 := by omega
    obtain ⟨hfs, hraw, hlt⟩ := h
    by_cases hf0 : t.frameSize = 0
    · have hbuf : t.readBuf = [] := by
        have h0 : (t.readBuf.length : Int) = 0 := by
          rw [← hfs]
          exact hf0
        exact List.length_eq_zero.mp (by exact_mod_cast h0)
      have hc : (t.rawFrameSize = 0 ∧ t.frameSize = 0) = True := eq_true ⟨hraw0, hf0⟩
      rcases hr : t.tp.ReadFull 4 with ⟨buf, err, tp1⟩
      cases err with
      | some e =>
        simp only [TSaslTransport.Read, TSaslTransport.readFrameHeader, hc, if_true, hr]
        refine Or.inl ?_
        simp
      | none =>
        by_cases hsz : beUint32 buf > t.maxLength
        · simp only [TSaslTransport.Read, TSaslTransport.readFrameHeader, hc, if_true,
            hr, hsz]
          refine Or.inl ?_
          simp
        · by_cases hp : 0 < beUint32 buf
          · have hc2 : (beUint32 buf = 0 ∧ t.frameSize = 0) = False :=
              eq_false (fun c => by omega)
            have heq : TSaslTransport.Read M t plen =
                TSaslTransport.Read M { t with tp := tp1, rawFrameSize := beUint32 buf } plen := by
              simp only [TSaslTransport.Read, TSaslTransport.readFrameHeader, hc,
                if_true, hr, hsz, if_false, hc2]
            rw [heq]
            exact Read_body_ends M { t with tp := tp1, rawFrameSize := beUint32 buf } plen
              ⟨hfs, fun _ => hbuf, beUint32_lt buf⟩ hp
          · have hz : beUint32 buf = 0 := by omega
            have hnp : ¬ ((0 : Nat) > 0) := Nat.lt_irrefl 0
            have hsz0 : ¬ (0 > t.maxLength) := Nat.not_lt_zero _
            simp only [TSaslTransport.Read, TSaslTransport.readFrameHeader, hc, if_true,
              hr, hsz, if_false, hz, hnp, hsz0]
            exact Or.inr ⟨{ t with tp := tp1, rawFrameSize := 0 }, hfs, rfl⟩
    · rw [Read_eq_deliver M t plen hraw0 hf0]
      exact Or.inr ⟨t, hfs, rfl⟩

theorem readsOver_snoc (M : Mechanism σ) (calls : List (TTransport × Nat)) (tp : TTransport)
    (plen : Nat) :
    ∀ t : TSaslTransport σ,
      TSaslTransport.readsOver M t (calls ++ [(tp, plen)]) =
        (TSaslTransport.Read M { TSaslTransport.readsOver M t calls with tp := tp } plen).t := by
  induction calls with
  | nil => exact fun t => rfl
  | cons c cs ih =>
    intro t
    obtain ⟨tp0, k⟩ := c
    exact ih _

/-- The security-layer leg of GSSAPI on a nil challenge. -/
theorem GSSAPI_stage2_nil (lib : GssLib) (m : GSSAPIMechanism)
    (hstage : m.negotiationStage = 2) :
    m.step lib none = .ret (⟨none, some (.mech "the decoded data should have length at this stage")⟩, m) := by
  have h0 : (m.negotiationStage = 0) = False := eq_false (by rw [hstage]; decide)
  have h1 : (m.negotiationStage = 1) = False := eq_false (by rw [hstage]; decide)
  have h2 : (m.negotiationStage = 2) = True := eq_true hstage
  simp only [GSSAPIMechanism.step, h0, h1, h2, if_false, if_true, GSSAPIContext.unwrap,
    Option.getD_none, List.length_nil]
  rfl

/-- The security-layer leg of GSSAPI when the external unwrap fails. -/
theorem GSSAPI_stage2_unwrap_error (lib : GssLib) (m : GSSAPIMechanism) (ch d : Bytes)
    (e : Error) (hstage : m.negotiationStage = 2)
    (hun : lib.unwrap m.context.contextId ch = (d, some e)) :
    m.step lib (some ch) =
      .ret (⟨none, some e⟩,
        { m with context := { m.context with log := m.context.log ++ [.unwrap ch] } }) := by
  have h0 : ¬ ((2 : Int) = 0) := by decide
  have h1 : ¬ ((2 : Int) = 1) := by decide
  simp only [GSSAPIMechanism.step, hstage, h0, h1, if_false, if_true, GSSAPIContext.unwrap, hun]

/-- The security-layer leg of GSSAPI when the challenge unwraps to other than
four bytes. -/
theorem GSSAPI_stage2_bad_length (lib : GssLib) (m : GSSAPIMechanism) (ch d : Bytes)
    (hstage : m.negotiationStage = 2)
    (hun : lib.unwrap m.context.contextId ch = (d, none)) (hlen : d.length ≠ 4) :
    m.step lib (some ch) =
      .ret (⟨none, some (.mech "the decoded data should have length at this stage")⟩,
        { m with context := { m.context with log := m.context.log ++ [.unwrap ch] } }) := by
  have h0 : ¬ ((2 : Int) = 0) := by decide
  have h1 : ¬ ((2 : Int) = 1) := by decide
  simp only [GSSAPIMechanism.step, hstage, h0, h1, if_false, if_true, GSSAPIContext.unwrap, hun,
    Option.getD_some, ne_eq, hlen, not_false_eq_true]

/-- What `NewGSSAPIMechanism` builds, whenever it returns: stage 0, no user
name, not complete. -/
theorem NewGSSAPIMechanism_fresh (lib : GssLib) (service : Bytes) (m : GSSAPIMechanism)
    (h : NewGSSAPIMechanism lib service = .ret m) :
    m.user = [] ∧ m.negotiationStage = 0 ∧ m.config.complete = false := by
  unfold NewGSSAPIMechanism newGSSAPIContext at h
  by_cases hl : lib.loadFails = true
  · simp [hl] at h
  · simp only [hl, Bool.false_eq_true, if_false] at h
    injection h with h
    subst h
    exact ⟨rfl, rfl, rfl⟩

/-- A `step` of a mechanism without user name at stage 0 or 1, whenever it
returns: the user name and the configuration are as before and the stage is 1. -/
theorem GSSAPI_step_without_user (lib : GssLib) (m : GSSAPIMechanism)
    (challenge : Option Bytes) (r : StepResult) (m1 : GSSAPIMechanism)
    (hu : m.user = []) (hst : m.negotiationStage = 0 ∨ m.negotiationStage = 1)
    (h : m.step lib challenge = .ret (r, m1)) :
    m1.user = [] ∧ m1.negotiationStage = 1 ∧ m1.config = m.config := by
  rcases hst with h0 | h1
  · have e0 : (m.negotiationStage = 0) = True := eq_true h0
    simp only [GSSAPIMechanism.step, e0, if_true] at h
    split at h
    · exact absurd h (by simp)
    · exact absurd h (by simp)
    · injection h with h
      injection h with _ hm
      subst hm
      exact ⟨hu, rfl, rfl⟩
  · have e0 : (m.negotiationStage = 0) = False := eq_false (by rw [h1]; decide)
    have e1 : (m.negotiationStage = 1) = True := eq_true h1
    simp only [GSSAPIMechanism.step, e0, e1, if_true, if_false] at h
    split at h
    · exact absurd h (by simp)
    · exact absurd h (by simp)
    · split at h
      · exact absurd h (by simp)
      · have eu : (m.user = []) = True := eq_true hu
        simp only [eu, if_true] at h
        injection h with h
        injection h with _ hm
        subst hm
        exact ⟨hu, h1, rfl⟩

/-- `Client.Step` hands the mechanism to `step` and keeps what it returns. -/
theorem Client_Step_mechanism (M : Mechanism σ) (c c1 : Client σ) (challenge : Option Bytes)
    (r : StepResult) (h : Client.Step M c challenge = .ret (r, c1)) :
    M.step c.mechanism challenge = .ret (r, c1.mechanism) := by
  unfold Client.Step at h
  split at h
  · rename_i r0 m0 heq
    injection h with h
    injection h with hr hc
    subst hr
    subst hc
    exact heq
  · exact absurd h (by simp)
  · exact absurd h (by simp)

theorem Client_Start_mechanism (M : Mechanism σ) (c c1 : Client σ)
    (r : StepResult) (h : Client.Start M c = .ret (r, c1)) :
    M.start c.mechanism = .ret (r, c1.mechanism) := by
  unfold Client.Start at h
  split at h
  · rename_i r0 m0 heq
    injection h with h
    injection h with hr hc
    subst hr
    subst hc
    exact heq
  · exact absurd h (by simp)
  · exact absurd h (by simp)

/-- A property of the mechanism that every returning `step` keeps holds after
the loop of `Open`. -/
theorem negotiate_mechanism_invariant (M : Mechanism σ) (P : σ → Prop)
    (hstep : ∀ (s : σ) (ch : Option Bytes) (r : StepResult) (s1 : σ),
      M.step s ch = .ret (r, s1) → P s → P s1) (n : Nat) :
    ∀ t : TSaslTransport σ, P t.saslClient.mechanism →
      P (TSaslTransport.negotiate M n t).t.saslClient.mechanism := by
  induction n with
  | zero =>
    intro t h
    exact h
  | succ n ih =>
    intro t h
    rcases hrecv : t.recvSaslMsg with ⟨status, challenge, t1⟩
    have hc1 : t1.saslClient = t.saslClient := by
      have h2 := (recvSaslMsg_spec t).2.1
      rw [hrecv] at h2
      exact h2
    have h1 : P t1.saslClient.mechanism := by
      rw [hc1]
      exact h
    by_cases hOK : status = ((OK : Nat) : Int)
    · cases hs : Client.Step M t1.saslClient challenge with
      | crash =>
        simp only [TSaslTransport.negotiate, hrecv, hOK, if_true, hs]
        exact h1
      | timeout =>
        simp only [TSaslTransport.negotiate, hrecv, hOK, if_true, hs]
        exact h1
      | ret rc =>
        obtain ⟨r, c⟩ := rc
        have hPc : P c.mechanism :=
          hstep _ _ _ _ (Client_Step_mechanism M _ _ _ _ hs) h1
        cases herr : r.err with
        | some e =>
          simp only [TSaslTransport.negotiate, hrecv, hOK, if_true, hs, herr]
          exact hPc
        | none =>
          simp only [TSaslTransport.negotiate, hrecv, hOK, if_true, hs, herr]
          apply ih
          rw [(sendSaslMsg_log _ _ _).2.2]
          exact hPc
    · simp only [TSaslTransport.negotiate, hrecv, hOK, if_false]
      split_ifs <;> exact h1

/-- A property of the mechanism that every returning `start` and `step` keep
holds after `Open`. -/
theorem Open_mechanism_invariant (M : Mechanism σ) (P : σ → Prop)
    (hstart : ∀ (s : σ) (r : StepResult) (s1 : σ), M.start s = .ret (r, s1) → P s → P s1)
    (hstep : ∀ (s : σ) (ch : Option Bytes) (r : StepResult) (s1 : σ),
      M.step s ch = .ret (r, s1) → P s → P s1)
    (t : TSaslTransport σ) (h : P t.saslClient.mechanism) :
    P (TSaslTransport.Open M t).t.saslClient.mechanism := by
  unfold TSaslTransport.Open
  dsimp only
  generalize hg : (if (!t.tp.isOpen) = true then _ else _ : Option Error × TSaslTransport σ) = p0
  have hp0 : P p0.2.saslClient.mechanism := by
    rw [← hg]
    split_ifs <;> exact h
  obtain ⟨err0, t0⟩ := p0
  cases err0 with
  | some e => exact hp0
  | none =>
    dsimp only
    rcases hsend : t0.sendSaslMsg START t0.mechanism with ⟨err1, t1⟩
    have hc1 : t1.saslClient = t0.saslClient := by
      have h2 := (sendSaslMsg_log t0 START t0.mechanism).2.2
      rw [hsend] at h2
      exact h2
    have hp1 : P t1.saslClient.mechanism := by
      rw [hc1]
      exact hp0
    cases err1 with
    | some e => exact hp1
    | none =>
      dsimp only
      cases hs : Client.Start M t1.saslClient with
      | crash => exact hp1
      | timeout => exact hp1
      | ret rc =>
        obtain ⟨r, c⟩ := rc
        have hPc : P c.mechanism :=
          hstart _ _ _ (Client_Start_mechanism M _ _ _ hs) hp1
        dsimp only
        cases herr : r.err with
        | some e => exact hPc
        | none =>
          dsimp only
          rcases hsend2 : TSaslTransport.sendSaslMsg { t1 with saslClient := c } OK (r.token.getD [])
            with ⟨err3, t3⟩
          have hc3 : t3.saslClient = c := by
            have h2 := (sendSaslMsg_log { t1 with saslClient := c } OK (r.token.getD [])).2.2
            rw [hsend2] at h2
            exact h2
          have hp3 : P t3.saslClient.mechanism := by
            rw [hc3]
            exact hPc
          cases err3 with
          | some e => exact hp3
          | none => exact negotiate_mechanism_invariant M P hstep _ t3 hp3

/-- A GSSAPI mechanism without user name that is at stage 0 or 1 and not
complete stays so through `Open`, which therefore does not return without
error. -/
theorem GSSAPI_Open_without_user (lib : GssLib) (t : TSaslTransport GSSAPIMechanism)
    (hu : t.saslClient.mechanism.user = [])
    (hst : t.saslClient.mechanism.negotiationStage = 0 ∨
      t.saslClient.mechanism.negotiationStage = 1)
    (hc : t.saslClient.mechanism.config.complete = false) :
    (TSaslTransport.Open (gssapiMechanism lib) t).outcome ≠ .ret none := by
  have hkeep : ∀ (s : GSSAPIMechanism) (ch : Option Bytes) (r : StepResult)
      (s1 : GSSAPIMechanism), GSSAPIMechanism.step lib s ch = .ret (r, s1) →
      (s.user = [] ∧ (s.negotiationStage = 0 ∨ s.negotiationStage = 1) ∧
        s.config.complete = false) →
      (s1.user = [] ∧ (s1.negotiationStage = 0 ∨ s1.negotiationStage = 1) ∧
        s1.config.complete = false) := by
    intro s ch r s1 h hs
    obtain ⟨h1, h2, h3⟩ := GSSAPI_step_without_user lib s ch r s1 hs.1 hs.2.1 h
    exact ⟨h1, Or.inr h2, by rw [h3]; exact hs.2.2⟩
  have hinv := Open_mechanism_invariant (gssapiMechanism lib)
    (fun s => s.user = [] ∧ (s.negotiationStage = 0 ∨ s.negotiationStage = 1) ∧
      s.config.complete = false)
    (fun s r s1 h hs => hkeep s none r s1 h hs) hkeep t ⟨hu, hst, hc⟩
  intro hout
  have hcomp := ((Open_settled (gssapiMechanism lib) t).1 hout).2
  have hfalse : Client.Complete (gssapiMechanism lib)
      (TSaslTransport.Open (gssapiMechanism lib) t).t.saslClient = false := hinv.2.2
  rw [hfalse] at hcomp
  exact absurd hcomp (by simp)

end Lemmas

/-! ## Theorems -/

section Theorems

variable {σ : Type}

/-- C1 (as amended). Frame round trip for a non-empty payload: let the mechanism
encode and decode every input to itself.  One transport with an empty write
buffer and succeeding writes performs `Write(b)` and `Flush`, with
`1 ≤ len(b) ≤ maxLength`; a peer in its fresh read state is given exactly the
bytes that `Flush` wrote and performs successive `Read` calls with destinations
of any lengths, each call being made while part of `b` is still undelivered.
Then `Write` accepts all of `b`, every `Read` succeeds, together the calls
deliver the front of `b` of the total destination length, and once that total
reaches `len(b)` they have delivered `b` exactly, consumed all the bytes and
left the peer in its fresh read state. -/
theorem frame_round_trip (M : Mechanism σ)
    (henc : ∀ s x, M.encode s x = (⟨x, none⟩, s))
    (hdec : ∀ s x, M.decode s x = (⟨x, none⟩, s))
    (tw tr : TSaslTransport σ) (b : Bytes) (ks : List Nat)
    (hwbuf : tw.writeBuf = []) (hwf : ∀ f ∈ tw.tp.writeFaults, f = false)
    (hmax : b.length ≤ tr.maxLength) (h32 : tr.maxLength < 2 ^ 32)
    (hraw : tr.rawFrameSize = 0) (hfs : tr.frameSize = 0) (hbuf : tr.readBuf = [])
    (hwire : tr.tp.input =
      written ((TSaslTransport.Flush M (TSaslTransport.Write tw b).2.2).2.tp.log.drop
        tw.tp.log.length))
    (hsum : ks.dropLast.sum < b.length) :
    (TSaslTransport.Write tw b).1 = b.length ∧ (TSaslTransport.Write tw b).2.1 = none ∧
    tr.tp.input = putUint32 b.length ++ b ∧
    (∀ r ∈ (TSaslTransport.reads M tr ks).1, r.2 = none) ∧
    ((TSaslTransport.reads M tr ks).1.map Prod.fst).flatten = b.take ks.sum ∧
    (b.length ≤ ks.sum →
      ((TSaslTransport.reads M tr ks).1.map Prod.fst).flatten = b ∧
      (TSaslTransport.reads M tr ks).2.tp.input = [] ∧
      (TSaslTransport.reads M tr ks).2.readBuf = [] ∧
      (TSaslTransport.reads M tr ks).2.rawFrameSize = 0 ∧
      (TSaslTransport.reads M tr ks).2.frameSize = 0) := by
  have hlt : b.length < 2 ^ 32 := lt_of_le_of_lt hmax h32
  have hb : 0 < b.length := by omega
  have hw : tr.tp.input = putUint32 b.length ++ b := by
    rw [hwire]
    have hf := Flush_written_of_encode M (TSaslTransport.Write tw b).2.2 b
      tw.saslClient.mechanism
      (by simp [TSaslTransport.Write, hwbuf, henc]) hlt hwf
    exact hf
  refine ⟨rfl, rfl, hw, ?_⟩
  cases ks with
  | nil =>
    refine ⟨by simp [TSaslTransport.reads], by simp [TSaslTransport.reads], ?_⟩
    intro h
    simp only [List.sum_nil] at h
    omega
  | cons k ks =>
    have hin : tr.tp.input = putUint32 b.length ++ (b ++ []) := by
      rw [hw, List.append_nil]
    have hr := Read_frame M tr k b [] hdec hraw hfs hbuf hb hmax h32 hin
    have hnext : ks ≠ [] → ks.dropLast.sum < (b.drop k).length := by
      intro hks
      obtain ⟨k2, ks2, rfl⟩ := List.exists_cons_of_ne_nil hks
      rw [List.dropLast_cons₂, List.sum_cons] at hsum
      rw [List.length_drop]
      omega
    have hd := reads_buffered M ks
      { tr with
        tp := { tr.tp with
          input := []
          log := tr.tp.log ++ [.readFull 4 (putUint32 b.length), .readFull b.length b] }
        rawFrameSize := 0
        frameSize := ((b.drop k).length : Nat)
        readBuf := b.drop k } rfl rfl hnext
    have hall : ∀ r ∈ (TSaslTransport.reads M tr (k :: ks)).1, r.2 = none := by
      intro r hmem
      simp only [TSaslTransport.reads, hr] at hmem
      rcases List.mem_cons.mp hmem with h | h
      · rw [h]
      · exact hd.1 r h
    have hcat : ((TSaslTransport.reads M tr (k :: ks)).1.map Prod.fst).flatten
        = b.take (k :: ks).sum := by
      simp only [TSaslTransport.reads, hr, List.map_cons, List.flatten_cons, hd.2.1,
        List.sum_cons, List.take_add]
    refine ⟨hall, hcat, ?_⟩
    intro hge
    have hfin := hd.2.2
    have hdrop : (b.drop k).drop ks.sum = [] := by
      rw [List.drop_drop]
      apply List.drop_eq_nil_of_le
      rw [List.sum_cons] at hge
      exact hge
    refine ⟨?_, ?_, ?_, ?_, ?_⟩
    · rw [hcat, List.take_of_length_le hge]
    · simp only [TSaslTransport.reads, hr, hfin]
    · simp only [TSaslTransport.reads, hr, hfin, hdrop]
    · simp only [TSaslTransport.reads, hr, hfin]
    · simp only [TSaslTransport.reads, hr, hfin, hdrop, List.length_nil, Nat.cast_zero]

theorem frame_round_trip_witness :
    ((TSaslTransport.reads plainMechanism
        (NewTSaslTransportPlain { input := [0, 0, 0, 3, 10, 20, 30] } [] [] [] [] 1024)
        [2, 5]).1.map Prod.fst).flatten = [10, 20, 30] :=
  (frame_round_trip plainMechanism (fun _ _ => rfl) (fun _ _ => rfl)
    (NewTSaslTransportPlain {} [] [] [] [] 1024)
    (NewTSaslTransportPlain { input := [0, 0, 0, 3, 10, 20, 30] } [] [] [] [] 1024)
    [10, 20, 30] [2, 5] rfl (by decide) (by decide) (by decide) rfl rfl rfl (by decide)
    (by decide)).2.2.2.2.2 (by decide) |>.1

/-- C1, as stated, fails for the empty payload: `Write` of no bytes and `Flush`
put the four bytes `00 00 00 00` on the wire, and a fresh peer that reads them
with a destination of one byte gets no byte and an `END_OF_FILE` exception. -/
theorem Read_of_empty_frame_fails :
    written (TSaslTransport.Flush plainMechanism
      (TSaslTransport.Write (NewTSaslTransportPlain {} [] [] [] [] 1024) []).2.2).2.tp.log
      = [0, 0, 0, 0] ∧
    (TSaslTransport.Read plainMechanism
      (NewTSaslTransportPlain { input := [0, 0, 0, 0] } [] [] [] [] 1024) 1).data = [] ∧
    (TSaslTransport.Read plainMechanism
      (NewTSaslTransportPlain { input := [0, 0, 0, 0] } [] [] [] [] 1024) 1).err
      = some (.transport END_OF_FILE "EOF") := by
  refine ⟨by decide, by decide, by decide⟩

/-- C4. Opening handshake bytes: on an underlying transport that is already
open and whose writes and flushes succeed, when `start` of the mechanism
succeeds with token `T`, the bytes `Open` writes before its first read of the
underlying transport are the status byte 1 (START), the four-byte big-endian
length of the mechanism name `N`, the bytes of `N`, the status byte 2 (OK), the
four-byte big-endian length of `T` and the bytes of `T`; and that first read
does take place.  The four length bytes hold `uint32(len)`, from which
`beUint32` reads the length back when it is below `2 ^ 32`. -/
theorem Open_handshake_bytes (M : Mechanism σ) (t : TSaslTransport σ) (T : Option Bytes) (s : σ)
    (hopen : t.tp.isOpen = true)
    (hwf : ∀ f ∈ t.tp.writeFaults, f = false) (hff : ∀ f ∈ t.tp.flushFaults, f = false)
    (hstart : M.start t.saslClient.mechanism = .ret (⟨T, none⟩, s)) :
    written (((TSaslTransport.Open M t).t.tp.log.drop t.tp.log.length).takeWhile
        (fun e => !e.isRead)) =
      [1] ++ putUint32 (uint32 t.mechanism.length) ++ t.mechanism ++
      [2] ++ putUint32 (uint32 (T.getD []).length) ++ T.getD [] ∧
    (∃ e l, e.isRead = true ∧
      (TSaslTransport.Open M t).t.tp.log.drop t.tp.log.length =
        [.wrote ([1] ++ putUint32 (uint32 t.mechanism.length) ++ t.mechanism), .flushed,
         .wrote ([2] ++ putUint32 (uint32 (T.getD []).length) ++ T.getD []), .flushed]
        ++ e :: l) ∧
    (t.mechanism.length < 2 ^ 32 →
      beUint32 (putUint32 (uint32 t.mechanism.length)) = t.mechanism.length) ∧
    ((T.getD []).length < 2 ^ 32 →
      beUint32 (putUint32 (uint32 (T.getD []).length)) = (T.getD []).length) := by
  obtain ⟨t3, hopen3, hlog3⟩ := Open_enters_loop M t T s hopen hwf hff hstart
  obtain ⟨e, l, he, hlog⟩ := negotiate_first_read M t3.tp.input.length t3
  have hdrop : (TSaslTransport.Open M t).t.tp.log.drop t.tp.log.length =
      [.wrote ([1] ++ putUint32 (uint32 t.mechanism.length) ++ t.mechanism), .flushed,
       .wrote ([2] ++ putUint32 (uint32 (T.getD []).length) ++ T.getD []), .flushed]
      ++ e :: l := by
    rw [hopen3, hlog, hlog3, List.append_assoc, List.drop_left]
    rfl
  refine ⟨?_, ⟨e, l, he, hdrop⟩, ?_, ?_⟩
  · have hw : ∀ p, (TEvent.wrote p).isRead = false := fun _ => rfl
    have hf : TEvent.flushed.isRead = false := rfl
    rw [hdrop]
    simp [List.takeWhile, hw, hf, he, written]
  · intro h
    rw [uint32_of_lt _ h, beUint32_putUint32 _ h]
  · intro h
    rw [uint32_of_lt _ h, beUint32_putUint32 _ h]

theorem Open_handshake_bytes_witness :
    written (((TSaslTransport.Open plainMechanism
        (NewTSaslTransportPlain {} [] [117] [112] [] 1024)).t.tp.log.drop 0).takeWhile
        (fun e => !e.isRead)) =
      [1, 0, 0, 0, 5, 80, 76, 65, 73, 78, 2, 0, 0, 0, 4, 0, 117, 0, 112] :=
  (Open_handshake_bytes plainMechanism (NewTSaslTransportPlain {} [] [117] [112] [] 1024)
    (some [0, 117, 0, 112])
    { NewPlainMechanism [117] [112] with
      mechanismConfig := { newDefaultConfig (ascii "PLAIN") with complete := true } }
    rfl (by decide) (by decide) rfl).1

/-- C5. No partial success of negotiation: whatever the mechanism and the bytes
the server sends, if `Open` returns without error then the last message its
loop received had status `COMPLETE` and arrived while the mechanism reported
`complete = true` (all earlier messages having status `OK`), and the mechanism
is complete on return; if one of the received messages was a `COMPLETE` while
the mechanism was not complete, or had a status other than `OK` and `COMPLETE`,
then `Open` returns an error; and `recvSaslMsg` reports the status `ERROR`,
which is neither, whenever the input ends before the message does. -/
theorem Open_no_partial_success (M : Mechanism σ) (t : TSaslTransport σ) :
    ((TSaslTransport.Open M t).outcome = .ret none →
      (∃ init, (TSaslTransport.Open M t).received = init ++ [⟨(COMPLETE : Nat), true⟩] ∧
        ∀ x ∈ init, x.status = ((OK : Nat) : Int)) ∧
      Client.Complete M (TSaslTransport.Open M t).t.saslClient = true) ∧
    (∀ x ∈ (TSaslTransport.Open M t).received,
      (x.status = ((COMPLETE : Nat) : Int) ∧ x.complete = false) ∨
        (x.status ≠ ((OK : Nat) : Int) ∧ x.status ≠ ((COMPLETE : Nat) : Int)) →
      ∃ e, (TSaslTransport.Open M t).outcome = .ret (some e)) ∧
    (∀ t1 : TSaslTransport σ,
      t1.tp.input.length < 5 + beUint32 ((t1.tp.input.take 5).drop 1) →
      t1.recvSaslMsg.1 = ((ERROR : Nat) : Int)) :=
  ⟨(Open_settled M t).1, (Open_settled M t).2, fun t1 => (recvSaslMsg_spec t1).2.2.2⟩

theorem Open_no_partial_success_witness :
    (TSaslTransport.Open plainMechanism
      (NewTSaslTransportPlain { input := [5, 0, 0, 0, 0] } [] [117] [112] [] 1024)).outcome
      = .ret none ∧
    ∃ init, (TSaslTransport.Open plainMechanism
      (NewTSaslTransportPlain { input := [5, 0, 0, 0, 0] } [] [117] [112] [] 1024)).received
      = init ++ [⟨(COMPLETE : Nat), true⟩] ∧ ∀ x ∈ init, x.status = ((OK : Nat) : Int) :=
  ⟨by decide,
    ((Open_no_partial_success plainMechanism
      (NewTSaslTransportPlain { input := [5, 0, 0, 0, 0] } [] [117] [112] [] 1024)).1
      (by decide)).1⟩

/-- C6, evaluated where the code departs from it: PLAIN over a transport whose
third write fails, the server sending an empty `OK` message and then an empty
`COMPLETE` message.  The write of the `OK` reply inside the loop fails, yet
`Open` goes on to receive the `COMPLETE` message and returns without error. -/
theorem Open_ignores_failed_reply :
    (TSaslTransport.Open plainMechanism
      (NewTSaslTransportPlain
        { input := [2, 0, 0, 0, 0, 5, 0, 0, 0, 0], writeFaults := [false, false, true] }
        [] [117] [112] [] 1024)).outcome = .ret none ∧
    (TSaslTransport.Open plainMechanism
      (NewTSaslTransportPlain
        { input := [2, 0, 0, 0, 0, 5, 0, 0, 0, 0], writeFaults := [false, false, true] }
        [] [117] [112] [] 1024)).t.tp.log =
      [.wrote [1, 0, 0, 0, 5, 80, 76, 65, 73, 78], .flushed,
       .wrote [2, 0, 0, 0, 4, 0, 117, 0, 112], .flushed,
       .readFull 5 [2, 0, 0, 0, 0],
       .writeFailed [2, 0, 0, 0, 4, 0, 117, 0, 112],
       .readFull 5 [5, 0, 0, 0, 0]] := by
  refine ⟨by decide, by decide⟩

/-- C2. Oversize frame rejection: with `rawFrameSize = 0` and `frameSize = 0`,
when the next four bytes of the underlying stream decode to a size above
`maxLength`, `Read` returns an error, delivers no byte, makes exactly one read
of the underlying transport, which takes those four bytes and nothing after
them, and leaves `rawFrameSize = 0` and `frameSize = 0`. -/
theorem Read_rejects_oversize_frame (M : Mechanism σ) (t : TSaslTransport σ) (plen : Nat)
    (hdr rest : Bytes) (hraw : t.rawFrameSize = 0) (hframe : t.frameSize = 0)
    (hlen : hdr.length = 4) (hin : t.tp.input = hdr ++ rest)
    (hbig : t.maxLength < beUint32 hdr) :
    (TSaslTransport.Read M t plen).err ≠ none ∧
    (TSaslTransport.Read M t plen).data = [] ∧
    (TSaslTransport.Read M t plen).t.tp.input = rest ∧
    (TSaslTransport.Read M t plen).t.tp.log = t.tp.log ++ [.readFull 4 hdr] ∧
    (TSaslTransport.Read M t plen).t.rawFrameSize = 0 ∧
    (TSaslTransport.Read M t plen).t.frameSize = 0 ∧
    (TSaslTransport.Read M t plen).t.readBuf = t.readBuf := by
  have hr := ReadFull_append t.tp hdr rest hin
  rw [hlen] at hr
  simp [TSaslTransport.Read, TSaslTransport.readFrameHeader, hraw, hframe, hr, hbig]

theorem Read_rejects_oversize_frame_witness :
    (TSaslTransport.Read plainMechanism
        (NewTSaslTransportPlain { input := [0, 0, 1, 0, 7, 7, 7] } [] [] [] [] 255) 3).err ≠ none ∧
    (TSaslTransport.Read plainMechanism
        (NewTSaslTransportPlain { input := [0, 0, 1, 0, 7, 7, 7] } [] [] [] [] 255) 3).t.tp.input
      = [7, 7, 7] :=
  have h := Read_rejects_oversize_frame plainMechanism
    (NewTSaslTransportPlain { input := [0, 0, 1, 0, 7, 7, 7] } [] [] [] [] 255) 3
    [0, 0, 1, 0] [7, 7, 7] rfl rfl rfl rfl (by decide)
  ⟨h.1, h.2.2.1⟩

/-- C3. Flush wire format: when `encode` of the accumulated write buffer succeeds
with `e` (shorter than `2 ^ 32`) and the writes of the underlying transport
succeed, the calls `Flush` makes on the underlying transport are exactly: a
write of the four-byte big-endian encoding of `len(e)`, a write of `e` unless
`e` is empty, and one flush; the bytes written are the prefix followed by `e`,
and the write buffer is left empty. -/
theorem Flush_wire_format (M : Mechanism σ) (t : TSaslTransport σ) (e : Bytes) (s : σ)
    (henc : M.encode t.saslClient.mechanism t.writeBuf = (⟨e, none⟩, s))
    (hlen : e.length < 2 ^ 32)
    (hw : ∀ f ∈ t.tp.writeFaults, f = false) :
    (TSaslTransport.Flush M t).2.writeBuf = [] ∧
    (TSaslTransport.Flush M t).2.tp.log =
      t.tp.log ++ [.wrote (putUint32 e.length)] ++ (if e.length = 0 then [] else [.wrote e])
        ++ [if t.tp.flushFaults.head? = some true then .flushFailed else .flushed] ∧
    written ((TSaslTransport.Flush M t).2.tp.log.drop t.tp.log.length) = putUint32 e.length ++ e ∧
    beUint32 (putUint32 e.length) = e.length := by
  have key := Flush_log_of_encode M t e s henc hlen hw
  exact ⟨key.1, key.2, Flush_written_of_encode M t e s henc hlen hw, beUint32_putUint32 _ hlen⟩

theorem Flush_wire_format_witness :
    written ((TSaslTransport.Flush plainMechanism
        { NewTSaslTransportPlain {} [] [] [] [] 1024 with writeBuf := [10, 20, 30] }).2.tp.log)
      = [0, 0, 0, 3, 10, 20, 30] :=
  (Flush_wire_format plainMechanism
    { NewTSaslTransportPlain {} [] [] [] [] 1024 with writeBuf := [10, 20, 30] }
    [10, 20, 30] (NewPlainMechanism [] []) rfl (by decide) (by decide)).2.2.1

/-- C7. PLAIN token: a mechanism built by `NewPlainMechanism(u, p)`, with no
authorization identity set, returns from one `step` call, whatever the
challenge (also none), the token NUL `u` NUL `p` without error, and its
configuration reports `complete = true` afterwards; `start` does the same. -/
theorem PlainMechanism_step_token (u p : Bytes) (challenge : Option Bytes) :
    ((NewPlainMechanism u p).step challenge).1 = ⟨some ([0] ++ u ++ [0] ++ p), none⟩ ∧
    ((NewPlainMechanism u p).step challenge).2.getConfig.complete = true ∧
    plainMechanism.step (NewPlainMechanism u p) challenge =
      .ret ((NewPlainMechanism u p).step challenge) ∧
    (NewPlainMechanism u p).start = (NewPlainMechanism u p).step none := by
  refine ⟨?_, rfl, rfl, rfl⟩
  simp [PlainMechanism.step, NewPlainMechanism, newDefaultConfig]

/-- C8, evaluated where the code departs from it: a PLAIN mechanism for user `u`
with password `p` whose configuration carries the authorization identity `a`
returns the token NUL `u` NUL `p`, the same as without it, and not
`a` NUL `u` NUL `p`. -/
theorem PlainMechanism_step_drops_authzid :
    (PlainMechanism.step
      { NewPlainMechanism [117] [112] with
        mechanismConfig := { newDefaultConfig (ascii "PLAIN") with AuthorizationID := [97] } }
      none).1 = ⟨some [0, 117, 0, 112], none⟩ ∧
    (PlainMechanism.step
      { NewPlainMechanism [117] [112] with
        mechanismConfig := { newDefaultConfig (ascii "PLAIN") with AuthorizationID := [97] } }
      none).1.token ≠ some [97, 0, 117, 0, 112] := by
  refine ⟨by decide, by decide⟩

/-- C9. Identity security layer: in every state of a `PlainMechanism` and of a
`DigestMD5Mechanism`, `encode(x)` and `decode(x)` return `x` itself without
error and leave the mechanism as it was, so `decode(encode(x)) = x`. -/
theorem encode_decode_identity (env : Env) (p : PlainMechanism) (d : DigestMD5Mechanism)
    (x : Bytes) :
    p.encode x = (⟨x, none⟩, p) ∧ p.decode x = (⟨x, none⟩, p) ∧
    d.encode x = (⟨x, none⟩, d) ∧ d.decode x = (⟨x, none⟩, d) ∧
    ((p.encode x).2.decode (p.encode x).1.out) = (⟨x, none⟩, p) ∧
    ((d.encode x).2.decode (d.encode x).1.out) = (⟨x, none⟩, d) ∧
    plainMechanism.encode p x = (⟨x, none⟩, p) ∧ plainMechanism.decode p x = (⟨x, none⟩, p) ∧
    (digestMD5Mechanism env).encode d x = (⟨x, none⟩, d) ∧
    (digestMD5Mechanism env).decode d x = (⟨x, none⟩, d) :=
  ⟨rfl, rfl, rfl, rfl, rfl, rfl, rfl, rfl, rfl, rfl⟩

/-- C10. DIGEST-MD5 response token: a fresh mechanism for user `u`, password
`p`, service `s` and host `h`, given a challenge that parses to a map without
`rspauth` in which `realm` is `r`, `nonce` is `n` and `qop` is `auth` (`u`, `r`,
`n`, `s` and `h` printable ASCII without quote or backslash), returns from
`step` without error the token
`qop=auth,realm="r",username="u",nonce="n",cnonce="c",nc=00000001,digest-uri="s/h",response=R`
with nothing after it, where `c` is the client nonce drawn in that call and `R`
is the reference hash chain; the mechanism keeps `n`, `auth`, `c` and the raw
key hash, and has `nonceCount = 1`. -/
theorem DigestMD5_step_response_token (env : Env) (u p s h r n challenge : Bytes) (c : StrMap)
    (hparse : parseChallenge challenge = .ret c)
    (hrsp : c.has (ascii "rspauth") = false)
    (hrealm : c.get (ascii "realm") = r) (hnonce : c.get (ascii "nonce") = n)
    (hqop : c.get (ascii "qop") = ascii "auth")
    (hu : u.all plainByte = true) (hs : s.all plainByte = true) (hh : h.all plainByte = true)
    (hr : r.all plainByte = true) (hn : n.all plainByte = true) :
    DigestMD5Mechanism.step env
        (Client.NewSaslClientDigest h (NewDigestMD5Mechanism s u p)).mechanism
        (some challenge) =
      .ret (⟨some (ascii "qop=auth,realm=\"" ++ r ++ ascii "\",username=\"" ++ u ++
          ascii "\",nonce=\"" ++ n ++ ascii "\",cnonce=\"" ++ randSeq env 14 ++
          ascii "\",nc=00000001,digest-uri=\"" ++ (s ++ ascii "/" ++ h) ++
          ascii "\",response=" ++
          referenceResponse env.md5 u r p n (randSeq env 14) s h), none⟩,
        { (Client.NewSaslClientDigest h (NewDigestMD5Mechanism s u p)).mechanism with
          nonce := n
          auth := ascii "auth"
          cnonce := randSeq env 14
          nonceCount := 1
          keyHash := env.md5 (u ++ ascii ":" ++ r ++ ascii ":" ++ p) }) := by
  have huri : (s ++ ascii "/" ++ h).all plainByte = true := by
    simp only [List.all_append, hs, hh, Bool.and_true, Bool.true_and]
    decide
  have hnc : sprintf08x 1 = ascii "00000001" := by decide
  have hw : wrapInt64 (0 + 1) = 1 := by decide
  have e1 : ascii "qop=auth,realm=\"" = ascii "qop=" ++ ascii "auth" ++ ascii ",realm=" ++ [34] := by
    decide
  have e2 : ascii "\",username=\"" = [34] ++ ascii ",username=" ++ [34] := by decide
  have e3 : ascii "\",nonce=\"" = [34] ++ ascii ",nonce=" ++ [34] := by decide
  have e4 : ascii "\",cnonce=\"" = [34] ++ ascii ",cnonce=" ++ [34] := by decide
  have e5 : ascii "\",nc=00000001,digest-uri=\"" =
      [34] ++ ascii ",nc=" ++ ascii "00000001" ++ ascii ",digest-uri=" ++ [34] := by decide
  have e6 : ascii "\",response=" = [34] ++ ascii ",response=" := by decide
  have e7 : ascii ":00000001:" = ascii ":" ++ ascii "00000001" ++ ascii ":" := by decide
  have e8 : ascii ":auth:" = ascii ":" ++ ascii "auth" ++ ascii ":" := by decide
  simp only [DigestMD5Mechanism.step, hparse, hrsp, Bool.false_eq_true, if_false,
    Client.NewSaslClientDigest, NewDigestMD5Mechanism, newDefaultConfig, if_true,
    hrealm, hnonce, hqop, AUTH, ne_eq, not_true_eq_false, DigestMD5Mechanism.getHash,
    List.length_nil, hw, hnc, strconvQuote_plain env _ hu, strconvQuote_plain env _ hr,
    strconvQuote_plain env _ hn, strconvQuote_plain env _ huri,
    strconvQuote_plain env _ (randSeq_plain env 14), toLower_hexEncode, join,
    referenceResponse]
  simp only [e1, e2, e3, e4, e5, e6, e7, e8, List.append_assoc, List.append_nil]

theorem DigestMD5_step_response_token_witness :
    DigestMD5Mechanism.step exampleEnv
        (Client.NewSaslClientDigest (ascii "node1")
          (NewDigestMD5Mechanism (ascii "hive") (ascii "alice") (ascii "secret"))).mechanism
        (some (ascii "realm=\"EXAMPLE.COM\",nonce=\"OA6MG9tEQGm2hh\",qop=\"auth\"")) =
      .ret (⟨some (ascii "qop=auth,realm=\"" ++ ascii "EXAMPLE.COM" ++ ascii "\",username=\"" ++
          ascii "alice" ++ ascii "\",nonce=\"" ++ ascii "OA6MG9tEQGm2hh" ++
          ascii "\",cnonce=\"" ++ randSeq exampleEnv 14 ++
          ascii "\",nc=00000001,digest-uri=\"" ++ (ascii "hive" ++ ascii "/" ++ ascii "node1") ++
          ascii "\",response=" ++
          referenceResponse exampleEnv.md5 (ascii "alice") (ascii "EXAMPLE.COM") (ascii "secret")
            (ascii "OA6MG9tEQGm2hh") (randSeq exampleEnv 14) (ascii "hive") (ascii "node1")),
          none⟩,
        { (Client.NewSaslClientDigest (ascii "node1")
            (NewDigestMD5Mechanism (ascii "hive") (ascii "alice") (ascii "secret"))).mechanism with
          nonce := ascii "OA6MG9tEQGm2hh"
          auth := ascii "auth"
          cnonce := randSeq exampleEnv 14
          nonceCount := 1
          keyHash := exampleEnv.md5
            (ascii "alice" ++ ascii ":" ++ ascii "EXAMPLE.COM" ++ ascii ":" ++ ascii "secret") }) :=
  DigestMD5_step_response_token exampleEnv (ascii "alice") (ascii "secret") (ascii "hive")
    (ascii "node1") (ascii "EXAMPLE.COM") (ascii "OA6MG9tEQGm2hh")
    (ascii "realm=\"EXAMPLE.COM\",nonce=\"OA6MG9tEQGm2hh\",qop=\"auth\"")
    [(ascii "realm", ascii "EXAMPLE.COM"), (ascii "nonce", ascii "OA6MG9tEQGm2hh"),
     (ascii "qop", ascii "auth")]
    (by decide) (by decide) (by decide) (by decide) (by decide) (by decide) (by decide)
    (by decide) (by decide) (by decide)

/-- C11. DIGEST-MD5 final confirmation is checked exactly: in every mechanism
state, for every challenge whose parse has the key `rspauth`, `step` returns no
token, and returns an error exactly when the `rspauth` value differs from the
expected value (the hash chain of the response with `A2 = ":" ++ digest-uri`,
plus the zero suffix when the negotiated qop is not `auth`). -/
theorem DigestMD5_step_checks_rspauth (env : Env) (m : DigestMD5Mechanism)
    (challenge : Bytes) (c : StrMap)
    (hparse : parseChallenge challenge = .ret c)
    (hrsp : c.has (ascii "rspauth") = true) :
    ∃ (err : Option Error) (m1 : DigestMD5Mechanism),
      m.step env (some challenge) = .ret (⟨none, err⟩, m1) ∧
      (err ≠ none ↔
        c.get (ascii "rspauth") ≠ expectedRspauth env.md5 m (c.get (ascii "realm"))) := by
  have hexp : (DigestMD5Mechanism.getHash env
      { m with mechanismConfig := { m.mechanismConfig with complete := true } }
      (m.service ++ ascii "/" ++ m.host)
      (if m.auth ≠ ascii "auth" then
        ascii ":" ++ (m.service ++ ascii "/" ++ m.host) ++
          ascii ":00000000000000000000000000000000"
       else ascii ":" ++ (m.service ++ ascii "/" ++ m.host)) c).1
      = expectedRspauth env.md5 m (c.get (ascii "realm")) := by
    simp only [DigestMD5Mechanism.getHash, expectedRspauth, toLower_hexEncode]
    by_cases hk : m.keyHash = [] <;> by_cases ha : m.mechanismConfig.AuthorizationID = [] <;>
      by_cases hq : m.auth = ascii "auth" <;>
      simp [hk, ha, hq, join, List.append_assoc]
  refine ⟨(DigestMD5Mechanism.authenticate env
      { m with mechanismConfig := { m.mechanismConfig with complete := true } }
      (m.service ++ ascii "/" ++ m.host) c).1,
    (DigestMD5Mechanism.authenticate env
      { m with mechanismConfig := { m.mechanismConfig with complete := true } }
      (m.service ++ ascii "/" ++ m.host) c).2, ?_, ?_⟩
  · simp only [DigestMD5Mechanism.step, hparse, hrsp, if_true]
  · simp only [DigestMD5Mechanism.authenticate, hexp]
    by_cases heq : expectedRspauth env.md5 m (c.get (ascii "realm")) = c.get (ascii "rspauth")
    · simp [heq]
    · have hne : ¬ c.get (ascii "rspauth") = expectedRspauth env.md5 m (c.get (ascii "realm")) :=
        fun h => heq h.symm
      simp [heq, hne]

theorem DigestMD5_step_checks_rspauth_witness :
    ∃ (err : Option Error) (m1 : DigestMD5Mechanism),
      (NewDigestMD5Mechanism (ascii "hive") (ascii "alice") (ascii "secret")).step exampleEnv
        (some (ascii "rspauth=00")) = .ret (⟨none, err⟩, m1) ∧
      (err ≠ none ↔
        StrMap.get [(ascii "rspauth", ascii "00")] (ascii "rspauth") ≠
          expectedRspauth exampleEnv.md5
            (NewDigestMD5Mechanism (ascii "hive") (ascii "alice") (ascii "secret"))
            (StrMap.get [(ascii "rspauth", ascii "00")] (ascii "realm"))) :=
  DigestMD5_step_checks_rspauth exampleEnv
    (NewDigestMD5Mechanism (ascii "hive") (ascii "alice") (ascii "secret"))
    (ascii "rspauth=00") [(ascii "rspauth", ascii "00")] (by decide) (by decide)

set_option maxRecDepth 8000 in
/-- C12, evaluated where the code departs from it: a fresh mechanism, whose
configuration has `complete = false`, is given a challenge whose `rspauth` does
not match.  `step` returns the authentication error, and the configuration has
`complete = true` afterwards, so `Client.Complete` reports a completed
negotiation. -/
theorem DigestMD5_failed_rspauth_marks_complete :
    (NewDigestMD5Mechanism (ascii "hive") (ascii "alice") (ascii "secret")).getConfig.complete
      = false ∧
    (NewDigestMD5Mechanism (ascii "hive") (ascii "alice") (ascii "secret")).step
        exampleEnv (some (ascii "rspauth=00")) =
      .ret (⟨none, some (.mech "authentication error")⟩,
        { NewDigestMD5Mechanism (ascii "hive") (ascii "alice") (ascii "secret") with
          mechanismConfig := { newDefaultConfig (ascii "DIGEST-MD5") with complete := true }
          keyHash := exampleEnv.md5 (ascii "alice::secret") }) ∧
    Client.Complete (digestMD5Mechanism exampleEnv)
      { host := [], AuthorizationID := [],
        mechanism :=
          { NewDigestMD5Mechanism (ascii "hive") (ascii "alice") (ascii "secret") with
            mechanismConfig := { newDefaultConfig (ascii "DIGEST-MD5") with complete := true }
            keyHash := exampleEnv.md5 (ascii "alice::secret") } } = true := by
  refine ⟨by decide, by decide, by decide⟩

/-- C15, evaluated where the code departs from it: on a challenge with no `=`
the slice `s[:eq]` of `parseChallenge` has the bound `-1`, and on a challenge
that ends with `=` the slice `s[0:1]` exceeds the empty remainder; both are
run-time panics, and `step` does not return. -/
theorem DigestMD5_step_panics_on_malformed :
    parseChallenge (ascii "abc") = .crash ∧
    parseChallenge (ascii "realm=") = .crash ∧
    (NewDigestMD5Mechanism (ascii "hive") (ascii "alice") (ascii "secret")).step exampleEnv
      (some (ascii "abc")) = .crash ∧
    (NewDigestMD5Mechanism (ascii "hive") (ascii "alice") (ascii "secret")).step exampleEnv
      (some (ascii "realm=")) = .crash := by
  refine ⟨by decide, by decide, by decide, by decide⟩

/-- C18. Challenge parsing terminates: every iteration of the loop of
`parseChallenge` that completes leaves a strictly shorter remaining string, so
on every input the loop ends (with the map or with a panic) within as many
iterations as the input has bytes, and allowing more iterations changes
nothing. -/
theorem parseChallenge_terminates (challenge : Bytes) :
    (∀ (s : Bytes) (c : StrMap) (s1 : Bytes) (c1 : StrMap),
      parseIter s c = some (s1, c1) → s1.length < s.length) ∧
    (∀ (fuel : Nat) (s : Bytes) (c : StrMap),
      parseLoop (fuel + 1) s c =
        if s.length > 0 then
          match parseIter s c with
          | none => .crash
          | some (s1, c1) => parseLoop fuel s1 c1
        else .ret c) ∧
    parseChallenge challenge ≠ .timeout ∧
    (∀ fuel : Nat, challenge.length ≤ fuel →
      parseLoop fuel challenge [] = parseChallenge challenge) :=
  ⟨parseIter_shorter, parseLoop_succ,
    parseLoop_no_timeout challenge.length challenge [] (Nat.le_refl _),
    fun fuel h => parseLoop_fuel fuel challenge [] challenge.length h (Nat.le_refl _)⟩

theorem parseChallenge_terminates_witness :
    parseChallenge (ascii "a=\"b") ≠ .timeout ∧
    parseLoop 9 (ascii "a=\"b") [] = parseChallenge (ascii "a=\"b") :=
  ⟨(parseChallenge_terminates (ascii "a=\"b")).2.2.1,
    (parseChallenge_terminates (ascii "a=\"b")).2.2.2 9 (by decide)⟩

/-- C13. Nonce-count monotonicity: on a fresh mechanism (nonce count 0), for
every sequence of `step` calls with fewer than `2 ^ 32` challenges, each
challenge parsing to a map without `rspauth`, all calls return; a call without
challenge returns no token and leaves the mechanism as it was; and the token of
a call with a challenge has, as its `nc` field, the number of challenges up to
and including this one in eight lower-case hexadecimal digits, zero-padded, so
the first round gives `00000001` and each round one more than the round
before. -/
theorem DigestMD5_nonce_count_monotone (env : Env) (m : DigestMD5Mechanism)
    (cs : List (Option Bytes)) (hfresh : m.nonceCount = 0)
    (hN : (cs.filter Option.isSome).length < 2 ^ 32)
    (hok : ∀ ch, some ch ∈ cs →
      ∃ c, parseChallenge ch = .ret c ∧ c.has (ascii "rspauth") = false) :
    (∃ (rs : List StepResult) (m1 : DigestMD5Mechanism),
      m.rounds env cs = .ret (rs, m1) ∧ rs.length = cs.length ∧
      (∀ k : Nat, cs[k]? = some none → rs[k]? = some (StepResult.mk none none)) ∧
      (∀ (k : Nat) (ch : Bytes), cs[k]? = some (some ch) →
        ∃ (c : StrMap) (cn resp maxBuf : Bytes), parseChallenge ch = .ret c ∧
          rs[k]? = some (StepResult.mk (some (digestToken env (c.get (ascii "qop"))
            (c.get (ascii "realm")) m.username (c.get (ascii "nonce")) cn
            (hex8 (roundNumber cs k)) (m.service ++ ascii "/" ++ m.host) resp maxBuf))
            none))) ∧
    (∀ (ch : Bytes) (rest : List (Option Bytes)) (k : Nat),
      roundNumber (some ch :: rest) 0 = 1 ∧
      roundNumber (some ch :: rest) (k + 1) = roundNumber rest k + 1 ∧
      roundNumber (none :: rest) (k + 1) = roundNumber rest k) ∧
    hex8 1 = ascii "00000001" ∧
    (∀ m0 : DigestMD5Mechanism, m0.step env none = .ret (⟨none, none⟩, m0)) := by
  have hn : m.nonceCount = ((0 : Nat) : Int) := by
    rw [hfresh]
    rfl
  obtain ⟨rs, m1, hr, hlen, hnone, hsome⟩ :=
    DigestMD5_rounds_nc env cs m 0 hn (by omega) hok
  refine ⟨⟨rs, m1, hr, hlen, hnone, ?_⟩, ?_, by decide, fun _ => rfl⟩
  · intro k ch hk
    obtain ⟨c, cn, resp, maxBuf, hp, hrk⟩ := hsome k ch hk
    rw [Nat.zero_add] at hrk
    exact ⟨c, cn, resp, maxBuf, hp, hrk⟩
  · intro ch rest k
    exact ⟨roundNumber_zero ch rest, roundNumber_some ch rest k, roundNumber_none rest k⟩

theorem DigestMD5_nonce_count_monotone_witness :
    ∃ (rs : List StepResult) (m1 : DigestMD5Mechanism),
      (NewDigestMD5Mechanism (ascii "hive") (ascii "alice") (ascii "secret")).rounds exampleEnv
        [some (ascii "nonce=x"), none, some (ascii "nonce=y")] = .ret (rs, m1) ∧
      rs.length = 3 :=
  have h := (DigestMD5_nonce_count_monotone exampleEnv
    (NewDigestMD5Mechanism (ascii "hive") (ascii "alice") (ascii "secret"))
    [some (ascii "nonce=x"), none, some (ascii "nonce=y")] rfl (by decide)
    (by
      intro ch hch
      simp only [List.mem_cons, Option.some.injEq, List.mem_singleton, reduceCtorEq,
        false_or, List.not_mem_nil, or_false] at hch
      rcases hch with h | h
      · exact ⟨[(ascii "nonce", ascii "x")], by rw [h]; decide, by decide⟩
      · exact ⟨[(ascii "nonce", ascii "y")], by rw [h]; decide, by decide⟩)).1
  let ⟨rs, m1, hr, hlen, _⟩ := h
  ⟨rs, m1, hr, hlen⟩

/-- C14. Challenge parsing recovers well-formed input exactly: for pairs with
distinct keys free of `=`, written comma-separated as `k="v"` (no double quote
in `v`) or as `k=v` (`v` non-empty, without comma, not starting with a double
quote), `parseChallenge` of the written string returns the map that holds
exactly those keys, each with its value without the quotes. -/
theorem parseChallenge_recovers_pairs (l : List Pair) (hwf : ∀ e ∈ l, e.WellFormed)
    (hnd : (l.map Pair.key).Nodup) :
    parseChallenge (renderPairs l) = .ret (l.map (fun e => (e.key, e.value))) ∧
    (∀ e ∈ l, StrMap.get (l.map (fun e => (e.key, e.value))) e.key = e.value) ∧
    (∀ k : Bytes, StrMap.has (l.map (fun e => (e.key, e.value))) k = true ↔
      k ∈ l.map Pair.key) := by
  refine ⟨?_, ?_, ?_⟩
  · have h := parseLoop_render l [] (renderPairs l).length (renderPairs_length l) hwf hnd
      (fun _ _ => rfl)
    simpa [parseChallenge] using h
  · intro e he
    simp only [StrMap.get, StrMap.lookup_of_nodup l hnd e he, Option.getD_some]
  · intro k
    by_cases hk : k ∈ l.map Pair.key
    · obtain ⟨e, he, rfl⟩ := List.mem_map.mp hk
      simp only [StrMap.has, StrMap.lookup_of_nodup l hnd e he, Option.isSome_some, hk]
    · simp only [StrMap.has, StrMap.lookup_none_of_not_mem l k hk, Option.isSome_none, hk,
        Bool.false_eq_true]

theorem parseChallenge_recovers_pairs_witness :
    renderPairs [⟨ascii "realm", ascii "EXAMPLE.COM", true⟩,
        ⟨ascii "nonce", ascii "OA6MG9tEQGm2hh", true⟩, ⟨ascii "qop", ascii "auth", true⟩] =
      ascii "realm=\"EXAMPLE.COM\",nonce=\"OA6MG9tEQGm2hh\",qop=\"auth\"" ∧
    parseChallenge (renderPairs [⟨ascii "realm", ascii "EXAMPLE.COM", true⟩,
        ⟨ascii "nonce", ascii "OA6MG9tEQGm2hh", true⟩, ⟨ascii "qop", ascii "auth", true⟩]) =
      .ret [(ascii "realm", ascii "EXAMPLE.COM"), (ascii "nonce", ascii "OA6MG9tEQGm2hh"),
        (ascii "qop", ascii "auth")] :=
  ⟨by decide,
    (parseChallenge_recovers_pairs [⟨ascii "realm", ascii "EXAMPLE.COM", true⟩,
        ⟨ascii "nonce", ascii "OA6MG9tEQGm2hh", true⟩, ⟨ascii "qop", ascii "auth", true⟩]
      (by
        intro e he
        simp only [List.mem_cons, List.mem_singleton, List.not_mem_nil, or_false] at he
        rcases he with h | h | h <;> subst h <;> unfold Pair.WellFormed <;> decide)
      (by decide)).1⟩

set_option maxRecDepth 100000 in
/-- C16. GSSAPI QOP selection: for all bytes `B` (advertised by the server),
`S = supportedQop` and `U = UserSelectQop`, with `A = B & S & U`, `selectQop`
returns the flag of `auth-conf` (4) without error when `A & 4 ≠ 0`; otherwise
the flag of `auth-int` (2) when `A & 2 ≠ 0`; otherwise the flag of `auth` (1)
when `A & 1 ≠ 0`; otherwise the byte 0 with the error `no qop available`.  By
the three low bits of `A`, the eight combinations give 0 (error), 1, 2, 2, 4,
4, 4, 4, and an error is returned exactly when the three bits are all clear. -/
theorem GSSAPI_selectQop_priority (m : GSSAPIMechanism) (B : UInt8) :
    m.selectQop B =
      (if B &&& m.supportedQop &&& m.UserSelectQop &&& QOP_TO_FLAG AUTH_CONF ≠ 0 then
        (QOP_TO_FLAG AUTH_CONF, none)
      else if B &&& m.supportedQop &&& m.UserSelectQop &&& QOP_TO_FLAG AUTH_INT ≠ 0 then
        (QOP_TO_FLAG AUTH_INT, none)
      else if B &&& m.supportedQop &&& m.UserSelectQop &&& QOP_TO_FLAG AUTH ≠ 0 then
        (QOP_TO_FLAG AUTH, none)
      else (0, some (.mech "no qop available"))) ∧
    (QOP_TO_FLAG AUTH_CONF = 4 ∧ QOP_TO_FLAG AUTH_INT = 2 ∧ QOP_TO_FLAG AUTH = 1) ∧
    (m.selectQop B).1 =
      [(0 : UInt8), 1, 2, 2, 4, 4, 4, 4].getD (B &&& m.supportedQop &&& m.UserSelectQop &&& 7).toNat 0 ∧
    ((m.selectQop B).2 = none ↔ B &&& m.supportedQop &&& m.UserSelectQop &&& 7 ≠ 0) := by
  obtain ⟨e4, e2, e1⟩ := QOP_TO_FLAG_values
  have htable : ∀ n : Fin 256,
      (if UInt8.ofNat n.val &&& 4 ≠ 0 then (4 : UInt8)
        else if UInt8.ofNat n.val &&& 2 ≠ 0 then 2
        else if UInt8.ofNat n.val &&& 1 ≠ 0 then 1 else 0) =
      [(0 : UInt8), 1, 2, 2, 4, 4, 4, 4].getD (UInt8.ofNat n.val &&& 7).toNat 0 := by
    decide
  have ht := htable ⟨(B &&& m.supportedQop &&& m.UserSelectQop).toNat, UInt8.toNat_lt _⟩
  simp only [UInt8.ofNat_toNat_self] at ht
  refine ⟨?_, ⟨e4, e2, e1⟩, ?_, ?_⟩
  · rw [e4, e2, e1]
    exact selectQop_and m B
  · rw [← ht, selectQop_and]
    split_ifs <;> rfl
  · constructor
    · intro h hz
      rw [selectQop_none m B hz] at h
      exact absurd h (by simp)
    · exact selectQop_some m B

/-- C17 (counterexample). A mechanism as `NewGSSAPIMechanism` builds it (both
masks 7), at stage 2 with the user `alice`, is given a challenge that unwraps
to `08 00 01 00`: the first byte has none of the three flags, yet `step`
returns the wrapped token `00 00 00 00 alice` and no error, and marks the
negotiation complete. -/
theorem GSSAPI_no_qop_returns_token :
    exampleLib.unwrap none [8, 0, 1, 0] = ([8, 0, 1, 0], none) ∧
    (8 : UInt8) &&& exampleGSSAPI.supportedQop &&& exampleGSSAPI.UserSelectQop &&& 7 = 0 ∧
    (GSSAPIMechanism.step exampleLib
        { exampleGSSAPI with negotiationStage := 2, user := ascii "alice" }
        (some [8, 0, 1, 0])).result.map
      (fun r => (r.1, r.2.config.complete, r.2.qop, r.2.MaxLength)) =
      some (⟨some ([0, 0, 0, 0] ++ ascii "alice"), none⟩, true, 0, 0) := by
  decide

/-- C17 (as amended). When no QOP is mutually acceptable the negotiation goes
on: for every mechanism at stage 2 and every challenge that unwraps to four
bytes whose first byte `B` has `B & supportedQop & UserSelectQop & 7 = 0`,
`step` sets `MaxLength` to 0 and the QOP byte to 0, hands the header
`00 00 00 00` followed by the principal name to the external wrap, marks the
negotiation complete, and returns what the wrap returns: its error when it
reports one (and then no token), otherwise its output and no error. -/
theorem GSSAPI_no_qop_continues (lib : GssLib) (m : GSSAPIMechanism) (ch d : Bytes)
    (hstage : m.negotiationStage = 2)
    (hun : lib.unwrap m.context.contextId ch = (d, none)) (hlen : d.length = 4)
    (hno : d.getD 0 0 &&& m.supportedQop &&& m.UserSelectQop &&& 7 = 0) :
    m.step lib (some ch) =
      .ret (⟨if (lib.wrap m.context.contextId false
              ([0, 0, 0, 0] ++
              (if m.config.AuthorizationID ≠ [] then m.config.AuthorizationID else m.user))).2 = none
            then some (lib.wrap m.context.contextId false
              ([0, 0, 0, 0] ++
              (if m.config.AuthorizationID ≠ [] then m.config.AuthorizationID else m.user))).1
            else none,
          (lib.wrap m.context.contextId false
              ([0, 0, 0, 0] ++
              (if m.config.AuthorizationID ≠ [] then m.config.AuthorizationID else m.user))).2⟩,
        { m with
          context :=
            { m.context with
              log := m.context.log ++ [.unwrap ch, .wrap false
              ([0, 0, 0, 0] ++
              (if m.config.AuthorizationID ≠ [] then m.config.AuthorizationID else m.user))] }
          serverMaxLength := ((beUint32 (d.set 0 0) : Nat) : Int)
          qop := 0
          MaxLength := 0
          config := { m.config with complete := true } }) := by
  have key := GSSAPI_stage2_packed lib m ch d hstage hun hlen (fun h => absurd hno h)
  have hml : (if d.getD 0 0 &&& m.supportedQop &&& m.UserSelectQop &&& 7 = 0 then 0 else m.MaxLength) = 0 := if_pos hno
  have hmin : min (0 : Int) ((beUint32 (d.set 0 0) : Nat) : Int) = 0 := min_eq_left (Int.ofNat_nonneg _)
  have hhdr : putUint32 ((0 : UInt8).toNat * 2 ^ 24 + (0 : Int).toNat) = [0, 0, 0, 0] := by
    decide
  rw [hml, selectQop_none m _ hno] at key
  dsimp only at key
  rw [hmin, hhdr] at key
  exact key

theorem GSSAPI_no_qop_continues_witness :
    (GSSAPIMechanism.step exampleLib
        { exampleGSSAPI with negotiationStage := 2, user := ascii "alice" }
        (some [8, 0, 1, 0])).result.map (fun r => (r.1, r.2.MaxLength, r.2.config.complete)) =
      some (⟨some ([0, 0, 0, 0] ++ ascii "alice"), none⟩, 0, true) := by
  rw [GSSAPI_no_qop_continues exampleLib
    { exampleGSSAPI with negotiationStage := 2, user := ascii "alice" }
    [8, 0, 1, 0] [8, 0, 1, 0] rfl rfl rfl (by decide)]
  decide

/-- C19 (counterexample). A mechanism as `NewGSSAPIMechanism` builds it (own
`MaxLength` 16384000), at stage 2 with the user `bob`, is given a challenge
that unwraps to `08 00 02 00`: the recorded `serverMaxLength` is 512 and the
smaller of the two lengths is 512, but the header handed to the external wrap
is `00 00 00 00`, whose low 24 bits are 0. -/
theorem GSSAPI_header_without_qop :
    (0 : Int) ≤ exampleGSSAPI.MaxLength ∧
    exampleLib.unwrap none [8, 0, 2, 0] = ([8, 0, 2, 0], none) ∧
    (GSSAPIMechanism.step exampleLib
        { exampleGSSAPI with negotiationStage := 2, user := ascii "bob" }
        (some [8, 0, 2, 0])).result.map (fun r => (r.2.serverMaxLength, r.2.context.log)) =
      some (512, [.unwrap [8, 0, 2, 0], .wrap false ([0, 0, 0, 0] ++ ascii "bob")]) ∧
    min exampleGSSAPI.MaxLength 512 = 512 ∧
    beUint32 [0, 0, 0, 0] % 2 ^ 24 = 0 := by
  decide

/-- C19 (as amended). GSSAPI stage-2 header packing: for every mechanism at
stage 2 with own `MaxLength ≥ 0` and every challenge that unwraps to four bytes
`d`, `step` returns; the recorded `serverMaxLength` is the big-endian value of
`d` with its first byte cleared, which is the value of `d` modulo `2 ^ 24` and
so below `2 ^ 24`; the recorded `MaxLength` is the own `MaxLength` when a QOP
flag was selected and 0 when none was; and the plaintext handed to the external
wrap is a four-byte header followed by the principal name (`AuthorizationID`
if non-empty, else the user), where the top byte of the header is the byte
`selectQop` returned (the selected flag, or 0 when none was selected) and its
low 24 bits are the smaller of the recorded `MaxLength` and `serverMaxLength`:
`min(MaxLength, serverMaxLength)` with the own `MaxLength` when a flag was
selected, and 0 otherwise. -/
theorem GSSAPI_stage2_header (lib : GssLib) (m : GSSAPIMechanism) (ch d : Bytes)
    (hstage : m.negotiationStage = 2) (hML : 0 ≤ m.MaxLength)
    (hun : lib.unwrap m.context.contextId ch = (d, none)) (hlen : d.length = 4) :
    ∃ (r : StepResult) (m1 : GSSAPIMechanism) (hdr : Bytes),
      m.step lib (some ch) = .ret (r, m1) ∧
      m1.serverMaxLength = ((beUint32 (d.set 0 0) : Nat) : Int) ∧
      beUint32 (d.set 0 0) = beUint32 d % 2 ^ 24 ∧
      m1.serverMaxLength < 2 ^ 24 ∧
      m1.qop = (m.selectQop (d.getD 0 0)).1 ∧
      m1.MaxLength =
        (if d.getD 0 0 &&& m.supportedQop &&& m.UserSelectQop &&& 7 = 0 then 0 else m.MaxLength) ∧
      m1.context.log = m.context.log ++ [.unwrap ch, .wrap false (hdr ++
        (if m.config.AuthorizationID ≠ [] then m.config.AuthorizationID else m.user))] ∧
      hdr.length = 4 ∧
      hdr.getD 0 0 = m1.qop ∧
      ((beUint32 hdr % 2 ^ 24 : Nat) : Int) = min m1.MaxLength m1.serverMaxLength := by
  have hsrv := beUint32_clear_first d hlen
  have h0 : 0 ≤ min (if d.getD 0 0 &&& m.supportedQop &&& m.UserSelectQop &&& 7 = 0 then 0 else m.MaxLength)
      ((beUint32 (d.set 0 0) : Nat) : Int) := by
    apply le_min
    · split_ifs
      · exact le_refl _
      · exact hML
    · exact Int.ofNat_nonneg _
  have h24 : (min (if d.getD 0 0 &&& m.supportedQop &&& m.UserSelectQop &&& 7 = 0 then 0 else m.MaxLength)
      ((beUint32 (d.set 0 0) : Nat) : Int)).toNat < 2 ^ 24 := by
    have : min (if d.getD 0 0 &&& m.supportedQop &&& m.UserSelectQop &&& 7 = 0 then 0 else m.MaxLength)
        ((beUint32 (d.set 0 0) : Nat) : Int) < 2 ^ 24 := by
      apply lt_of_le_of_lt (min_le_right _ _)
      exact_mod_cast hsrv.2
    omega
  have hf := header_fields (m.selectQop (d.getD 0 0)).1 _ h24
  refine ⟨_, _, _, GSSAPI_stage2_packed lib m ch d hstage hun hlen (fun _ => hML), rfl,
    hsrv.1, ?_, rfl, rfl, rfl, hf.1, hf.2.1, ?_⟩
  · have h : ((beUint32 (d.set 0 0) : Nat) : Int) < 2 ^ 24 := by exact_mod_cast hsrv.2
    exact h
  · rw [hf.2.2]
    exact Int.toNat_of_nonneg h0

theorem GSSAPI_stage2_header_witness :
    ∃ (r : StepResult) (m1 : GSSAPIMechanism),
      GSSAPIMechanism.step exampleLib
        { exampleGSSAPI with negotiationStage := 2, user := ascii "alice" }
        (some [7, 0, 1, 0]) = .ret (r, m1) ∧
      m1.serverMaxLength = 256 ∧ m1.qop = 4 ∧
      m1.context.log =
        [.unwrap [7, 0, 1, 0], .wrap false ([4, 0, 1, 0] ++ ascii "alice")] := by
  obtain ⟨r, m1, hdr, hstep, hs, -, -, hq, -, hlog, -, -, -⟩ :=
    GSSAPI_stage2_header exampleLib
      { exampleGSSAPI with negotiationStage := 2, user := ascii "alice" }
      [7, 0, 1, 0] [7, 0, 1, 0] rfl (by decide) rfl rfl
  refine ⟨r, m1, hstep, ?_, ?_, ?_⟩
  · rw [hs]
    decide
  · rw [hq]
    decide
  · have h := GSSAPI_stage2_packed exampleLib
      { exampleGSSAPI with negotiationStage := 2, user := ascii "alice" }
      [7, 0, 1, 0] [7, 0, 1, 0] rfl rfl rfl (fun _ => by decide)
    rw [h] at hstep
    injection hstep with hstep
    injection hstep with _ hm
    rw [← hm]
    decide

/-- C20, evaluated where the code departs from it: the mechanism that
`NewGSSAPIMechanism` builds for the service `hive`, with the host set by
`NewSaslClient`, has an empty user name.  Its `start` call returns the token of
the external library and leaves stage 1; the next `step`, with a challenge on
which the context initiation succeeds, returns the token again and leaves
stage 1, not 2, with the negotiation not marked complete, while the same step
on a mechanism with the user name `alice` leaves stage 2.  No code sets the
user name: `NewGSSAPIMechanism` leaves it empty whenever it returns,
`NewSaslClient` keeps it, and a returning `step` of a mechanism without user
name at stage 0 or 1 keeps it empty and leaves stage 1 and the configuration
as it was.  So stage 2 is never entered, and `Open` on a transport that
`NewTSaslTransport` builds for `GSSAPI` never returns without error. -/
theorem GSSAPI_stage1_stays :
    (NewGSSAPIMechanism exampleLib (ascii "hive")).result.map
        (fun m => (Client.NewSaslClientGSSAPI (ascii "node1") m).mechanism) =
      some exampleGSSAPI ∧
    (exampleGSSAPI.start exampleLib).result.map (fun r => (r.1, r.2.negotiationStage)) =
      some (⟨some [1, 2], none⟩, 1) ∧
    ((exampleGSSAPI.start exampleLib).result.bind
        (fun r => (r.2.step exampleLib (some [9])).result)).map
      (fun r => (r.1, r.2.negotiationStage, r.2.config.complete)) =
      some (⟨some [1, 2], none⟩, 1, false) ∧
    (GSSAPIMechanism.step exampleLib
        { exampleGSSAPI with negotiationStage := 1, user := ascii "alice" }
        (some [9])).result.map (fun r => (r.1, r.2.negotiationStage)) =
      some (⟨some [1, 2], none⟩, 2) ∧
    (∀ (lib : GssLib) (service : Bytes) (m : GSSAPIMechanism),
      NewGSSAPIMechanism lib service = .ret m →
        m.user = [] ∧ m.negotiationStage = 0 ∧ m.config.complete = false) ∧
    (∀ (host : Bytes) (m : GSSAPIMechanism),
      (Client.NewSaslClientGSSAPI host m).mechanism.user = m.user) ∧
    (∀ (lib : GssLib) (m : GSSAPIMechanism) (challenge : Option Bytes) (r : StepResult)
        (m1 : GSSAPIMechanism),
      m.user = [] → m.negotiationStage = 0 ∨ m.negotiationStage = 1 →
      m.step lib challenge = .ret (r, m1) →
        m1.user = [] ∧ m1.negotiationStage = 1 ∧ m1.config = m.config) ∧
    (∀ (lib : GssLib) (trans : TTransport) (host service principal : Bytes)
        (maxLength : Nat) (t : TSaslTransport GSSAPIMechanism),
      NewTSaslTransportGSSAPI lib trans host service principal maxLength = .ret t →
        (TSaslTransport.Open (gssapiMechanism lib) t).outcome ≠ .ret none) := by
  refine ⟨by decide, by decide, by decide, by decide, NewGSSAPIMechanism_fresh,
    fun _ _ => rfl, GSSAPI_step_without_user, ?_⟩
  intro lib trans host service principal maxLength t h
  unfold NewTSaslTransportGSSAPI at h
  split at h
  · exact absurd h (by simp)
  · exact absurd h (by simp)
  · rename_i mechanism heq
    obtain ⟨hu, hst, hc⟩ := NewGSSAPIMechanism_fresh lib service mechanism heq
    injection h with h
    subst h
    exact GSSAPI_Open_without_user lib _ hu (Or.inl hst) hc

/-- C21 (counterexample). A mechanism as `NewGSSAPIMechanism` builds it, at
stage 2 with the user `alice`, completes the negotiation on a challenge that
unwraps to `07 00 01 00`: the step returns the wrapped token `04 00 01 00 alice`
and marks `complete = true`.  A further `step` with the same challenge returns
no error: it leaves stage 2, unwraps the challenge and wraps a header again,
and returns the token `04 00 01 00 alice` once more. -/
theorem GSSAPI_step_after_completion_returns_token :
    (GSSAPIMechanism.step exampleLib
        { exampleGSSAPI with negotiationStage := 2, user := ascii "alice" }
        (some [7, 0, 1, 0])).result.map
      (fun r => (r.1, r.2.negotiationStage, r.2.config.complete)) =
      some (⟨some ([4, 0, 1, 0] ++ ascii "alice"), none⟩, 2, true) ∧
    ((GSSAPIMechanism.step exampleLib
        { exampleGSSAPI with negotiationStage := 2, user := ascii "alice" }
        (some [7, 0, 1, 0])).result.bind
      (fun r => (r.2.step exampleLib (some [7, 0, 1, 0])).result)).map
      (fun r => (r.1, r.2.negotiationStage, r.2.config.complete, r.2.context.log)) =
      some (⟨some ([4, 0, 1, 0] ++ ascii "alice"), none⟩, 2, true,
        [.unwrap [7, 0, 1, 0], .wrap false ([4, 0, 1, 0] ++ ascii "alice"),
          .unwrap [7, 0, 1, 0], .wrap false ([4, 0, 1, 0] ++ ascii "alice")]) := by
  decide

/-- C21 (as amended). GSSAPI steps after completion run the security-layer
negotiation again: for every mechanism at stage 2 whose configuration has
`complete = true` and every challenge, `step` returns and leaves stage 2 and
`complete = true`.  On a challenge that the external unwrap turns into four
bytes it hands a header and the principal name to the external wrap again and
returns what the wrap returns: its error and no token when it reports one,
otherwise its output and no error.  On every other challenge (a nil
challenge, a failing unwrap, unwrapped data of another length) it returns an
error and no token, and calls no wrap. -/
theorem GSSAPI_step_after_completion (lib : GssLib) (m : GSSAPIMechanism)
    (challenge : Option Bytes)
    (hstage : m.negotiationStage = 2) (hcomplete : m.config.complete = true) :
    ∃ (r : StepResult) (m1 : GSSAPIMechanism),
      m.step lib challenge = .ret (r, m1) ∧
      m1.negotiationStage = 2 ∧ m1.config.complete = true ∧
      (∀ ch d : Bytes, challenge = some ch →
        lib.unwrap m.context.contextId ch = (d, none) → d.length = 4 →
        ∃ out : Bytes,
          m1.context.log = m.context.log ++ [.unwrap ch, .wrap false out] ∧
          r.err = (lib.wrap m.context.contextId false out).2 ∧
          r.token =
            (if (lib.wrap m.context.contextId false out).2 = none
              then some (lib.wrap m.context.contextId false out).1 else none)) ∧
      ((∀ ch d : Bytes, challenge = some ch →
          lib.unwrap m.context.contextId ch = (d, none) → d.length ≠ 4) →
        r.token = none ∧ r.err ≠ none ∧
        m1.context.log = m.context.log ++ (challenge.map GssEvent.unwrap).toList) := by
  cases challenge with
  | none =>
    refine ⟨_, _, GSSAPI_stage2_nil lib m hstage, hstage, hcomplete, ?_, ?_⟩
    · intro ch d hch
      exact absurd hch (by simp)
    · intro _
      exact ⟨rfl, by simp, by simp⟩
  | some ch =>
    rcases hun : lib.unwrap m.context.contextId ch with ⟨d, _ | e⟩
    · by_cases hlen : d.length = 4
      · refine ⟨_, _, GSSAPI_stage2 lib m ch d hstage hun hlen, hstage, rfl, ?_, ?_⟩
        · intro ch1 d1 hch hun1 _
          have hc : ch = ch1 := Option.some.inj hch
          subst hc
          exact ⟨_, (congrArg GSSAPIContext.log (GSSAPIContext.wrap_some lib _ _ false).1).trans
              (by simp),
            (GSSAPIContext.wrap_some lib _ _ false).2, GSSAPIContext.wrap_token lib _ _ false⟩
        · intro hall
          exact absurd hlen (hall ch d rfl hun)
      · refine ⟨_, _, GSSAPI_stage2_bad_length lib m ch d hstage hun hlen, hstage, hcomplete,
          ?_, ?_⟩
        · intro ch1 d1 hch hun1 hlen1
          have hc : ch = ch1 := Option.some.inj hch
          subst hc
          rw [hun] at hun1
          have hd : d = d1 := congrArg Prod.fst hun1
          exact absurd (hd ▸ hlen1) hlen
        · intro _
          exact ⟨rfl, by simp, by simp⟩
    · refine ⟨_, _, GSSAPI_stage2_unwrap_error lib m ch d e hstage hun, hstage, hcomplete,
        ?_, ?_⟩
      · intro ch1 d1 hch hun1 _
        have hc : ch = ch1 := Option.some.inj hch
        subst hc
        rw [hun] at hun1
        exact absurd (congrArg (fun x => x.2) hun1) (by simp)
      · intro _
        exact ⟨rfl, by simp, by simp⟩

theorem GSSAPI_step_after_completion_witness :
    ∃ (r : StepResult) (m1 : GSSAPIMechanism),
      GSSAPIMechanism.step exampleLib
        { exampleGSSAPI with
          negotiationStage := 2, user := ascii "alice"
          config := { exampleGSSAPI.config with complete := true } }
        (some [7, 0, 1, 0]) = .ret (r, m1) ∧
      m1.negotiationStage = 2 ∧ m1.config.complete = true := by
  obtain ⟨r, m1, h, hs, hc, -, -⟩ :=
    GSSAPI_step_after_completion exampleLib
      { exampleGSSAPI with
        negotiationStage := 2, user := ascii "alice"
        config := { exampleGSSAPI.config with complete := true } }
      (some [7, 0, 1, 0]) rfl rfl
  exact ⟨r, m1, h, hs, hc⟩

/-- C22. Read-side accounting invariant: start from a transport in its fresh
read state (`rawFrameSize = 0`, `frameSize = 0`, empty read buffer) and make
any sequence of `Read` calls, each with any destination length and each
finding the underlying stream in any state, with any mechanism (so any result
of `decode`).  Afterwards `frameSize ≥ 0`, and `frameSize` is the number of
decoded bytes the read buffer still holds, which is what `RemainingBytes`
reports (for a buffer within the range of a Go `int`).  Every further call
either returns an error before it reads the buffer, leaving `frameSize` and the
buffer as they were, or reaches the buffer with the test `frameSize < 0` false
and returns by the last line of `Read`: the branch `Negative frame size` is
never taken. -/
theorem Read_accounting_invariant (M : Mechanism σ) (t : TSaslTransport σ)
    (calls : List (TTransport × Nat))
    (hraw : t.rawFrameSize = 0) (hfs : t.frameSize = 0) (hbuf : t.readBuf = []) :
    0 ≤ (TSaslTransport.readsOver M t calls).frameSize ∧
    (TSaslTransport.readsOver M t calls).frameSize =
      ((TSaslTransport.readsOver M t calls).readBuf.length : Nat) ∧
    ((TSaslTransport.readsOver M t calls).readBuf.length < 2 ^ 64 →
      (TSaslTransport.readsOver M t calls).RemainingBytes =
        (TSaslTransport.readsOver M t calls).readBuf.length) ∧
    (∀ (tp : TTransport) (plen : Nat),
      TSaslTransport.readsOver M t (calls ++ [(tp, plen)]) =
        (TSaslTransport.Read M { (TSaslTransport.readsOver M t calls) with tp := tp } plen).t ∧
      (((TSaslTransport.Read M { (TSaslTransport.readsOver M t calls) with tp := tp } plen).data = [] ∧
          (TSaslTransport.Read M { (TSaslTransport.readsOver M t calls) with tp := tp } plen).err ≠ none ∧
          (TSaslTransport.Read M { (TSaslTransport.readsOver M t calls) with tp := tp } plen).t.frameSize =
            (TSaslTransport.readsOver M t calls).frameSize ∧
          (TSaslTransport.Read M { (TSaslTransport.readsOver M t calls) with tp := tp } plen).t.readBuf =
            (TSaslTransport.readsOver M t calls).readBuf) ∨
        (∃ s : TSaslTransport σ,
          0 ≤ s.frameSize - ((bufferRead s.readBuf plen).1.length : Nat) ∧
          TSaslTransport.Read M { (TSaslTransport.readsOver M t calls) with tp := tp } plen =
            ⟨(bufferRead s.readBuf plen).1,
              newTTransportExceptionFromError (bufferRead s.readBuf plen).2.1,
              { s with
                readBuf := (bufferRead s.readBuf plen).2.2
                frameSize := s.frameSize - ((bufferRead s.readBuf plen).1.length : Nat) }⟩))) := by
  have h0 : t.Accounted := by
    refine ⟨?_, fun _ => hbuf, ?_⟩
    · rw [hfs, hbuf]
      rfl
    · rw [hraw]
      exact Nat.two_pow_pos 32
  have hacc := readsOver_accounted M calls t h0
  refine ⟨?_, hacc.1, ?_, ?_⟩
  · rw [hacc.1]
    exact Int.ofNat_nonneg _
  · intro hlt
    unfold TSaslTransport.RemainingBytes
    rw [hacc.1]
    omega
  · intro tp plen
    refine ⟨readsOver_snoc M calls tp plen t, ?_⟩
    have hacc1 : TSaslTransport.Accounted { (TSaslTransport.readsOver M t calls) with tp := tp } := hacc
    rcases Read_ends M _ plen hacc1 with hearly | ⟨s, hs, heq⟩
    · exact Or.inl hearly
    · exact Or.inr ⟨s, (deliver_last_line s plen hs).1,
        heq.trans (deliver_last_line s plen hs).2⟩

theorem Read_accounting_invariant_witness :
    0 ≤ (TSaslTransport.readsOver plainMechanism
        (NewTSaslTransportPlain {} (ascii "node1") (ascii "u") (ascii "p") [] 16)
        [({ input := [0, 0, 0, 2, 104, 105] }, 1), ({ input := [0, 0] }, 5)]).frameSize ∧
    (TSaslTransport.readsOver plainMechanism
        (NewTSaslTransportPlain {} (ascii "node1") (ascii "u") (ascii "p") [] 16)
        [({ input := [0, 0, 0, 2, 104, 105] }, 1), ({ input := [0, 0] }, 5)]).frameSize =
      ((TSaslTransport.readsOver plainMechanism
        (NewTSaslTransportPlain {} (ascii "node1") (ascii "u") (ascii "p") [] 16)
        [({ input := [0, 0, 0, 2, 104, 105] }, 1), ({ input := [0, 0] }, 5)]).readBuf.length :
        Nat) :=
  ⟨(Read_accounting_invariant plainMechanism
      (NewTSaslTransportPlain {} (ascii "node1") (ascii "u") (ascii "p") [] 16)
      [({ input := [0, 0, 0, 2, 104, 105] }, 1), ({ input := [0, 0] }, 5)] rfl rfl rfl).1,
    (Read_accounting_invariant plainMechanism
      (NewTSaslTransportPlain {} (ascii "node1") (ascii "u") (ascii "p") [] 16)
      [({ input := [0, 0, 0, 2, 104, 105] }, 1), ({ input := [0, 0] }, 5)] rfl rfl rfl).2.1⟩

end Theorems

end Sasl
